import Mathlib

/-!
# panicparse: the stack-dump parser of `stack/context.go`

A shallow embedding of the line scanner, the lexical recognizers, the argument
parser, the parser state machine and the path resolver of `stack/context.go`,
followed by the properties proved about them.

Conventions of the embedding.

* A Go `string` is a `List Char` (`Str`). Every literal and every character
  class used by the recognizers is ASCII, so the text is read one character at
  a time; lengths are counted in characters.
* A Go `int` is an `Int`; `strconv.Atoi` rejects what does not fit in 64 bits.
  A `uint64` is a `Nat` below `2 ^ 64`.
* An `error` built by `fmt.Errorf` or `errors.New` is the record `Err` of its
  format string and arguments.
* A run-time panic of the Go code (nil dereference, index out of range, write
  to a nil map, explicit `panic`) is the result `none` of the embedded
  function. A nil slice and an empty slice are both the empty list.
* The regular expressions are written out as matchers that try the
  alternatives in the order of Go's leftmost-first (backtracking) semantics.
-/

namespace Panicparse

/-- A Go string, as the list of its characters. -/
abbrev Str := List Char

/-- An error value: the format string given to `fmt.Errorf` (or the text given
to `errors.New`) together with the arguments of its verbs. -/
structure Err where
  format : String
  args : List Str
deriving DecidableEq, Repr

/-! ## Library functions used by the parser (`strings`, `strconv`) -/

/-- Go `strings.HasPrefix`. -/
def HasPrefix (s p : Str) : Bool := p.isPrefixOf s

/-- Go `strings.HasSuffix`. -/
def HasSuffix (s suffix : Str) : Bool := suffix.isSuffixOf s

/-- Go `strings.Split(s, ", ")`: the pieces between the non-overlapping
occurrences of the separator, read from the left. -/
def splitCommaSpace : Str → List Str
  | [] => [[]]
  | ',' :: ' ' :: cs => [] :: splitCommaSpace cs
  | c :: cs =>
    match splitCommaSpace cs with
    | [] => [[c]]
    | h :: t => (c :: h) :: t

/-- Go `unicode.IsSpace`. -/
def isSpace (c : Char) : Bool :=
  c.toNat ∈ [0x09, 0x0A, 0x0B, 0x0C, 0x0D, 0x20, 0x85, 0xA0, 0x1680, 0x2028, 0x2029, 0x202F,
    0x205F, 0x3000] || (0x2000 ≤ c.toNat && c.toNat ≤ 0x200A)

/-- Go `strings.TrimSpace`. -/
def TrimSpace (s : Str) : Str :=
  ((s.dropWhile isSpace).reverse.dropWhile isSpace).reverse

/-- Go `strings.TrimLeft(s, "\t ")`. -/
def TrimLeftTabSpace (s : Str) : Str :=
  s.dropWhile (fun c => c == '\t' || c == ' ')

/-- The class `\d` of Go regular expressions: an ASCII digit. -/
def isDigit (c : Char) : Bool := '0' ≤ c && c ≤ '9'

/-- The class `[0-9a-f]`. -/
def isHexLower (c : Char) : Bool := ('0' ≤ c && c ≤ '9') || ('a' ≤ c && c ≤ 'f')

/-- The value of a string of decimal digits. -/
def decimalValue (s : Str) : Nat :=
  s.foldl (fun n c => n * 10 + (c.toNat - 48)) 0

/-- Go `strconv.Atoi` on a 64-bit target: an optional sign and one or more
decimal digits. The result is the value returned and whether the error is nil:
a syntax error returns 0, a value that does not fit an `int` returns the
nearest bound (as `strconv.ParseInt` does) with a range error. -/
def Atoi (s : Str) : Int × Bool :=
  let neg := s.head? == some '-'
  let body := if s.head? == some '-' || s.head? == some '+' then s.tail else s
  if body.isEmpty || !body.all isDigit then (0, false)
  else
    let n := decimalValue body
    if neg then (if n ≤ 2 ^ 63 then (-(n : Int), true) else (-(2 ^ 63 : Int), false))
    else if n < 2 ^ 63 then ((n : Int), true) else ((2 ^ 63 - 1 : Int), false)

/-- The digit value `strconv.ParseUint` gives a byte: `0-9`, then letters of
either case from 10 on. -/
def digitValue (c : Char) : Option Nat :=
  if '0' ≤ c && c ≤ '9' then some (c.toNat - 48)
  else if 'a' ≤ c && c ≤ 'z' then some (c.toNat - 97 + 10)
  else if 'A' ≤ c && c ≤ 'Z' then some (c.toNat - 65 + 10)
  else none

/-- The digit loop of `strconv.ParseUint` with bit size 64: underscores are
skipped when the base was given as 0; a byte that is no digit of the base is a
syntax error and a value above `2 ^ 64 - 1` a range error (both `none`). -/
def parseUintLoop (base : Nat) (base0 : Bool) : Str → Nat → Option Nat
  | [], n => some n
  | c :: cs, n =>
    if c == '_' && base0 then parseUintLoop base base0 cs n
    else
      match digitValue c with
      | none => none
      | some d =>
        if d ≥ base then none
        else if n ≥ (2 ^ 64 - 1) / base + 1 then none
        else if n * base + d > 2 ^ 64 - 1 then none
        else parseUintLoop base base0 cs (n * base + d)

/-- The state `saw` of `strconv.underscoreOK`. -/
inductive Saw where
  | start | digit | underscore | other
deriving DecidableEq, Repr

/-- The loop of `strconv.underscoreOK` over the number proper. -/
def underscoreLoop (hex : Bool) : Str → Saw → Bool
  | [], saw => saw != Saw.underscore
  | c :: cs, saw =>
    if isDigit c || (hex && (('a' ≤ c && c ≤ 'f') || ('A' ≤ c && c ≤ 'F'))) then
      underscoreLoop hex cs Saw.digit
    else if c == '_' then
      (if saw != Saw.digit then false else underscoreLoop hex cs Saw.underscore)
    else if saw == Saw.underscore then false
    else underscoreLoop hex cs Saw.other

/-- True when the second byte of a literal is a base letter `b`, `o` or `x` of
either case. -/
def isBaseLetter (c : Char) : Bool :=
  c == 'b' || c == 'B' || c == 'o' || c == 'O' || c == 'x' || c == 'X'

/-- Go `strconv.underscoreOK`: underscores only separate digits (a base prefix
counts as a digit). -/
def underscoreOK (s : Str) : Bool :=
  let s1 := if s.head? == some '-' || s.head? == some '+' then s.tail else s
  match s1 with
  | '0' :: c :: rest =>
    if isBaseLetter c then underscoreLoop (c == 'x' || c == 'X') rest Saw.digit
    else underscoreLoop false s1 Saw.start
  | _ => underscoreLoop false s1 Saw.start

/-- Go `strconv.ParseUint(s, 0, 64)`: base 0 selects binary, octal or
hexadecimal from a `0b`, `0o`, `0x` prefix (when at least one more byte
follows), octal from a leading `0`, decimal otherwise. `none` is a non-nil
error. -/
def ParseUint (s : Str) : Option Nat :=
  if s.isEmpty then none
  else
    let r :=
      match s with
      | '0' :: c :: d :: rest =>
        if c == 'b' || c == 'B' then parseUintLoop 2 true (d :: rest) 0
        else if c == 'o' || c == 'O' then parseUintLoop 8 true (d :: rest) 0
        else if c == 'x' || c == 'X' then parseUintLoop 16 true (d :: rest) 0
        else parseUintLoop 8 true (c :: d :: rest) 0
      | '0' :: rest => parseUintLoop 8 true rest 0
      | _ => parseUintLoop 10 true s 0
    match r with
    | none => none
    | some n => if s.contains '_' && !underscoreOK s then none else some n

/-! ## Lexical recognizers -/

/-- Matching a literal at the start of the text: the rest of the text. -/
def stripLit : Str → Str → Option Str
  | [], s => some s
  | _ :: _, [] => none
  | p :: ps, c :: cs => if p = c then stripLit ps cs else none

/-- The regular expression `reRoutineHeader`,
`^([ \t]*)goroutine (\d+) \[([^\]]+)\]\:$`: the three submatches (indentation,
id, description). Each repetition is followed by a character outside its
class, so the greedy match is the only one. -/
def reRoutineHeader (s : Str) : Option (Str × Str × Str) :=
  let isBlank := fun c : Char => c == ' ' || c == '\t'
  let indent := s.takeWhile isBlank
  match stripLit "goroutine ".toList (s.dropWhile isBlank) with
  | none => none
  | some r2 =>
    let id := r2.takeWhile isDigit
    if id.isEmpty then none
    else
      match stripLit " [".toList (r2.dropWhile isDigit) with
      | none => none
      | some r4 =>
        let descr := r4.takeWhile (fun c => c != ']')
        if descr.isEmpty then none
        else if r4.dropWhile (fun c => c != ']') = "]:".toList then some (indent, id, descr)
        else none

/-- The regular expression `reMinutes`, `^(\d+) minutes$`: the submatch. -/
def reMinutes (s : Str) : Option Str :=
  let n := s.takeWhile isDigit
  if n.isEmpty then none
  else if s.dropWhile isDigit = " minutes".toList then some n
  else none

/-- The ways ` *` can match at the start of the text, longest first: the rest
of the text after each. -/
def starSpace : Str → List Str
  | [] => [[]]
  | c :: r => if c = ' ' then starSpace r ++ [c :: r] else [c :: r]

/-- The ways the group `(?:\t| +)` can match at the start of the text, in the
order a backtracking search tries them: the rest of the text after each. -/
def reIndent : Str → List Str
  | [] => []
  | c :: r => if c = '\t' then [r] else if c = ' ' then starSpace r else []

/-- The text of the unavailable-stack marker. -/
def unavailText : Str := "goroutine running on other thread; stack unavailable".toList

/-- The regular expression `reUnavail`,
`^(?:\t| +)goroutine running on other thread; stack unavailable`, used through
`MatchString`; it has no end anchor. -/
def reUnavail (s : Str) : Bool :=
  (reIndent s).any (fun r => HasPrefix r unavailText)

/-- A literal followed by `[0-9a-f]+`: the rest of the text. What follows the
hexadecimal digits in `reFile` is a blank or the end, so the run is maximal. -/
def hexRun (lit s : Str) : Option Str :=
  match stripLit lit s with
  | none => none
  | some r => if (r.takeWhile isHexLower).isEmpty then none else some (r.dropWhile isHexLower)

/-- The end of `reFile`:
`(?:| \+0x[0-9a-f]+)(?:| fp=0x[0-9a-f]+ sp=0x[0-9a-f]+(?:| pc=0x[0-9a-f]+))$`. -/
def reFileAnnotations (s : Str) : Bool :=
  let frame := fun r : Str =>
    r.isEmpty ||
      (match (hexRun " fp=0x".toList r).bind (hexRun " sp=0x".toList) with
       | none => false
       | some r2 => r2.isEmpty || hexRun " pc=0x".toList r2 == some [])
  frame s ||
    (match hexRun " +0x".toList s with
     | none => false
     | some r => frame r)

/-- The part of `reFile` after the path: `\:(\d+)` and the optional
annotations up to the end of the text; the submatch of `(\d+)`. -/
def reFileLine (s : Str) : Option Str :=
  match s with
  | ':' :: r =>
    let d := r.takeWhile isDigit
    if d.isEmpty then none
    else if reFileAnnotations (r.dropWhile isDigit) then some d
    else none
  | _ => none

/-- The group `\.(?:c|go|s)` of `reFile` followed by the rest of the
expression: the extension matched and the line-number submatch. -/
def reFileExt (s : Str) : Option (Str × Str) :=
  match (stripLit ".c".toList s).bind reFileLine with
  | some d => some (".c".toList, d)
  | none =>
    match (stripLit ".go".toList s).bind reFileLine with
    | some d => some (".go".toList, d)
    | none =>
      match (stripLit ".s".toList s).bind reFileLine with
      | some d => some (".s".toList, d)
      | none => none

/-- The alternative `.+\.(?:c|go|s)` of `reFile` and what follows it: `pre` is
what `.+` has taken so far; the longer matches of `.+` are tried first. -/
def reFileDotPlus (pre : Str) : Str → Option (Str × Str)
  | [] => none
  | c :: cs =>
    if c = '\n' then none
    else
      match reFileDotPlus (pre ++ [c]) cs with
      | some r => some r
      | none =>
        match reFileExt cs with
        | some (e, d) => some (pre ++ [c] ++ e, d)
        | none => none

/-- The path group of `reFile`, `(\?\?|\<autogenerated\>|.+\.(?:c|go|s))`, and
what follows it, the alternatives in their order: the path and line-number
submatches. -/
def reFilePath (s : Str) : Option (Str × Str) :=
  match (stripLit "??".toList s).bind reFileLine with
  | some d => some ("??".toList, d)
  | none =>
    match (stripLit "<autogenerated>".toList s).bind reFileLine with
    | some d => some ("<autogenerated>".toList, d)
    | none => reFileDotPlus [] s

/-- The regular expression `reFile`: the two submatches (path, line number)
of the first match a backtracking search finds. -/
def reFile (s : Str) : Option (Str × Str) :=
  (reIndent s).findSome? reFilePath

/-- The regular expression `reCreated`, `^created by (.+)$`: the submatch. -/
def reCreated (s : Str) : Option Str :=
  match stripLit "created by ".toList s with
  | none => none
  | some r => if r.isEmpty || r.contains '\n' then none else some r

/-- The tail `\((.*)\)$` of `reFunc` once `(` has been read: the submatch. -/
def reFuncArgs (s : Str) : Option Str :=
  if s.getLast? == some ')' && !(s.dropLast.contains '\n') then some s.dropLast else none

/-- The search of `reFunc`: `pre` is what `(.+)` has taken so far; the longer
matches of `.+` are tried first. -/
def reFuncDotPlus (pre : Str) : Str → Option (Str × Str)
  | [] => none
  | c :: cs =>
    if c = '\n' then none
    else
      match reFuncDotPlus (pre ++ [c]) cs with
      | some r => some r
      | none =>
        match stripLit "(".toList cs with
        | none => none
        | some r =>
          match reFuncArgs r with
          | some a => some (pre ++ [c], a)
          | none => none

/-- The regular expression `reFunc`, `^(.+)\((.*)\)$`: the two submatches. -/
def reFunc (s : Str) : Option (Str × Str) := reFuncDotPlus [] s

/-- The two submatches `(0x[0-9a-f]+) by goroutine (\d+)` and the closing
`:$` shared by the two race-operation headers. -/
def reRaceAddrID (s : Str) : Option (Str × Str) :=
  match stripLit "0x".toList s with
  | none => none
  | some r =>
    let h := r.takeWhile isHexLower
    if h.isEmpty then none
    else
      match stripLit " by goroutine ".toList (r.dropWhile isHexLower) with
      | none => none
      | some r2 =>
        let d := r2.takeWhile isDigit
        if d.isEmpty then none
        else if r2.dropWhile isDigit = ":".toList then some ("0x".toList ++ h, d)
        else none

/-- The regular expression `reRaceOperationHeader`,
`^(Read|Write) at (0x[0-9a-f]+) by goroutine (\d+):$`: the three submatches. -/
def reRaceOperationHeader (s : Str) : Option (Str × Str × Str) :=
  match (stripLit "Read at ".toList s).bind reRaceAddrID with
  | some (a, d) => some ("Read".toList, a, d)
  | none =>
    match (stripLit "Write at ".toList s).bind reRaceAddrID with
    | some (a, d) => some ("Write".toList, a, d)
    | none => none

/-- The regular expression `reRacePreviousOperationHeader`,
`^Previous (read|write) at (0x[0-9a-f]+) by goroutine (\d+):$`: the three
submatches. -/
def reRacePreviousOperationHeader (s : Str) : Option (Str × Str × Str) :=
  match (stripLit "Previous read at ".toList s).bind reRaceAddrID with
  | some (a, d) => some ("read".toList, a, d)
  | none =>
    match (stripLit "Previous write at ".toList s).bind reRaceAddrID with
    | some (a, d) => some ("write".toList, a, d)
    | none => none

/-- The regular expression `reRaceGoroutine`,
`^Goroutine (\d+) \((running|finished)\) created at:$`: the two submatches. -/
def reRaceGoroutine (s : Str) : Option (Str × Str) :=
  match stripLit "Goroutine ".toList s with
  | none => none
  | some r =>
    let d := r.takeWhile isDigit
    if d.isEmpty then none
    else if r.dropWhile isDigit = " (running) created at:".toList then some (d, "running".toList)
    else if r.dropWhile isDigit = " (finished) created at:".toList then
      some (d, "finished".toList)
    else none

/-! ## Data model

The declarations of `Func`, `Arg`, `Args`, `Call`, `Stack`, `Signature` and
`Goroutine` are in a file of the package that is not among the sources read
here; the fields are the ones `context.go` reads and writes. -/

/-- Modelled from the spec: the type `Func` is declared outside `context.go`.
§3: the raw dotted string is retained verbatim; the derived attributes (package
name, short name, exported flag) are functions of it and are left out. -/
structure Func where
  Raw : Str := []
deriving DecidableEq, Repr

/-- Modelled from the spec: the type `Arg` is declared outside `context.go`.
§3: an unsigned 64-bit value, the pointer-range flag, and a name slot that the
parser leaves empty. -/
structure Arg where
  Value : Nat := 0
  IsPtr : Bool := false
  Name : Str := []
deriving DecidableEq, Repr

/-- Modelled from the spec: the type `Args` is declared outside `context.go`.
§3: a sequence of `Arg` and the `elided` flag. -/
structure Args where
  Values : List Arg := []
  Elided : Bool := false
deriving DecidableEq, Repr

/-- Modelled from the spec: the type `Call` is declared outside `context.go`.
§3: function, arguments, source path and line number; the slots filled by the
path resolver are not touched by the parser and are left out. -/
structure Call where
  Func : Func := {}
  Args : Args := {}
  SrcPath : Str := []
  Line : Int := 0
deriving DecidableEq, Repr

/-- Modelled from the spec: the type `Stack` is declared outside `context.go`.
§3: the ordered calls and the `elided` flag. -/
structure Stack where
  Calls : List Call := []
  Elided : Bool := false
deriving DecidableEq, Repr

/-- Modelled from the spec: the type `Signature` is declared outside
`context.go`. The fields are the ones `scan` sets; `CreatedBy` is a `Call`, as
`scan` passes its address to `parseFile`. -/
structure Signature where
  State : Str := []
  CreatedBy : Call := {}
  SleepMin : Int := 0
  SleepMax : Int := 0
  Stack : Stack := {}
  Locked : Bool := false
deriving DecidableEq, Repr

/-- Modelled from the spec: the type `Goroutine` is declared outside
`context.go`. §3: a `Signature` (embedded), the numeric ID and the `First`
flag. -/
structure Goroutine extends Signature where
  ID : Int := 0
  First : Bool := false
deriving DecidableEq, Repr

/-- Modelled from the spec: the constant `pointerFloor` is declared outside
`context.go`. §4.D: `floor = 0x01000000`. -/
def pointerFloor : Nat := 0x01000000

/-- Modelled from the spec: the constant `pointerCeiling` is declared outside
`context.go`. §4.D: `ceiling = 0xFFFFFFFFFFFFFFFF` on 64-bit. -/
def pointerCeiling : Nat := 0xFFFFFFFFFFFFFFFF

/-- What `Func.Init` does with the names it rejects: the error it returns and
the `Func` it leaves behind; `none` for a name it accepts. -/
abbrev Reject := Str → Option (Err × Func)

/-- Modelled from the spec: `Func.Init` is defined outside `context.go`. §3: an
accepted name is retained verbatim as the raw string. Which names are rejected,
and with what error, is not described: it is the parameter `rej`. The result is
the `Func` after the call and the error. -/
def Func.Init (rej : Reject) (raw : Str) : Func × Option Err :=
  match rej raw with
  | none => ({ Raw := raw }, none)
  | some (e, f) => (f, some e)

/-- Modelled from the spec: `Call.init` is defined outside `context.go`. §3:
it records the source path as reported by the runtime and the line number. -/
def Call.init (c : Call) (srcPath : Str) (line : Int) : Call :=
  { c with SrcPath := srcPath, Line := line }

/-! ## The argument and location parsers -/

/-- The loop of `parseFunc` over the tokens of the argument list: the `Args`
built so far and the error, if a token fails to parse. -/
def parseArgs (line : Str) : List Str → Args → Args × Option Err
  | [], a => (a, none)
  | t :: ts, a =>
    if t = "...".toList then parseArgs line ts { a with Elided := true }
    else if t = [] then (a, none)
    else
      match ParseUint t with
      | none => (a, some ⟨"failed to parse int on line: %q", [TrimSpace line]⟩)
      | some v =>
        parseArgs line ts
          { a with Values := a.Values ++
              [{ Value := v, IsPtr := decide (v > pointerFloor) && decide (v < pointerCeiling) }] }

/-- The function `parseFunc`: the call after it, whether the line is a
function-call line, and the error. -/
def parseFunc (rej : Reject) (c : Call) (line : Str) : Call × Bool × Option Err :=
  match reFunc line with
  | some (name, args) =>
    match Func.Init rej name with
    | (f, some e) => ({ c with Func := f }, true, some e)
    | (f, none) =>
      let r := parseArgs line (splitCommaSpace args) c.Args
      ({ c with Func := f, Args := r.1 }, true, r.2)
  | none => (c, false, none)

/-- The function `parseFile`: the call after it, whether the line is a file
location line, and the error. -/
def parseFile (c : Call) (line : Str) : Call × Bool × Option Err :=
  match reFile line with
  | some (path, num) =>
    if (Atoi num).2 then (c.init path (Atoi num).1, true, none)
    else (c, true, some ⟨"failed to parse int on line: %q", [TrimSpace line]⟩)
  | none => (c, false, none)

/-! ## The parser state machine -/

/-- The constant `lockedToThread`. -/
def lockedToThread : Str := "locked to thread".toList

/-- The constant `elided`. -/
def elided : Str := "...additional frames elided...".toList

/-- The constant `raceHeaderFooter`. -/
def raceHeaderFooter : Str := "==================".toList

/-- The constant `raceHeader`. -/
def raceHeader : Str := "WARNING: DATA RACE".toList

/-- The type `state`: the declared constants, and `invalid` for any other
integer (the `default` branch of the switch in `scan`). -/
inductive State where
  | normal
  | betweenRoutine
  | gotRoutineHeader
  | gotFunc
  | gotCreated
  | gotFileFunc
  | gotFileCreated
  | gotUnavail
  | gotRaceHeader1
  | gotRaceHeader2
  | gotRaceOperationHeader
  | gotRaceOperationFunc
  | gotRaceOperationFile
  | betweenRaceOperations
  | gotRaceGoroutineHeader
  | gotRaceGoroutineFunc
  | gotRaceGoroutineFile
  | betweenRaceGoroutines
  | invalid
deriving DecidableEq, Repr

/-- The type `raceOp`. -/
structure RaceOp where
  write : Bool := false
  addr : Nat := 0
  id : Int := 0
  create : Stack := {}
deriving DecidableEq, Repr

/-- The type `map[int]*raceOp`, as an association list with one entry per
key. -/
abbrev RaceMap := List (Int × RaceOp)

/-- Writing `m[k] = v`. -/
def RaceMap.set : RaceMap → Int → RaceOp → RaceMap
  | [], k, v => [(k, v)]
  | (k1, v1) :: m, k, v => if k1 = k then (k, v) :: m else (k1, v1) :: RaceMap.set m k v

/-- The type `scanningState`. The field `prefix` is named `pfx`; `races` is
`none` for the nil map. -/
structure ScanningState where
  raceDetectionEnabled : Bool := false
  goroutines : List Goroutine := []
  state : State := State.normal
  pfx : Str := []
  races : Option RaceMap := none
  goroutineID : Int := 0
deriving DecidableEq, Repr

/-- What one call of `scan` leaves: the state after it, the text returned for
echoing and the error. -/
structure ScanResult where
  s : ScanningState
  out : Str
  err : Option Err
deriving DecidableEq, Repr

/-- The loop of `scan` over the items of a goroutine header after the first:
the sleep duration and the locked flag. The error of `Atoi` is discarded, as in
the source (`sleep, _ = strconv.Atoi(match2[1])`). -/
def headerItems : List Str → Int → Bool → Int × Bool
  | [], sleep, locked => (sleep, locked)
  | it :: rest, sleep, locked =>
    if it = lockedToThread then headerItems rest sleep true
    else
      match reMinutes it with
      | some m => headerItems rest (Atoi m).1 locked
      | none => headerItems rest sleep locked

/-- Replacing the current goroutine (the last one of the list); `none` when
there is none, where the Go code dereferences a nil pointer. -/
def updateCur (s : ScanningState) (f : Goroutine → Goroutine) : Option ScanningState :=
  match s.goroutines.getLast? with
  | none => none
  | some g => some { s with goroutines := s.goroutines.dropLast ++ [f g] }

/-- The cases `normal` and `betweenRoutine` of `scan`. -/
def scanHeader (s : ScanningState) (line trimmed : Str) : ScanResult :=
  let fallback : ScanResult :=
    if s.raceDetectionEnabled && trimmed = raceHeaderFooter then
      ⟨{ s with state := State.gotRaceHeader1 }, [], none⟩
    else ⟨{ s with state := State.normal, pfx := [] }, line, none⟩
  match reRoutineHeader trimmed with
  | some (indent, idText, descr) =>
    if (Atoi idText).2 then
      let items := splitCommaSpace descr
      let sl := headerItems items.tail 0 false
      let g : Goroutine :=
        { State := items.headD [], SleepMin := sl.1, SleepMax := sl.1, Locked := sl.2,
          ID := (Atoi idText).1, First := s.goroutines.length == 0 }
      ⟨{ s with goroutines := s.goroutines ++ [g], state := State.gotRoutineHeader,
                pfx := indent }, [], none⟩
    else fallback
  | none => fallback

/-- The shared body of the cases that read a function-call line into the stack
of the current goroutine (`gotRoutineHeader`, `gotFileFunc` and the race
operation cases): `text` is what is given to `parseFunc`. `none` of the outer
option is a panic, `none` of the inner one a line that is no function call. -/
def scanFunc (rej : Reject) (s : ScanningState) (text : Str) (next : State) :
    Option (Option ScanResult) :=
  match parseFunc rej {} text with
  | (c, true, err) =>
    match updateCur s (fun g => { g with Stack := { g.Stack with Calls := g.Stack.Calls ++ [c] } }) with
    | none => none
    | some s1 => some (some ⟨{ s1 with state := next }, [], err⟩)
  | (_, false, _) => some none

/-- The shared body of the cases that read a file line into the last call of
the current goroutine (`gotFunc`, `gotRaceOperationFunc`): `e` is the error
returned for a line that is no file line. -/
def scanFile (s : ScanningState) (trimmed : Str) (next : State) (e : Err) :
    Option ScanResult :=
  match s.goroutines.getLast? with
  | none => none
  | some g =>
    match g.Stack.Calls.getLast? with
    | none => none
    | some c =>
      match parseFile c trimmed with
      | (_, _, some err) => some ⟨s, [], some err⟩
      | (_, false, none) => some ⟨s, [], some e⟩
      | (c1, true, none) =>
        some ⟨{ s with
                goroutines := s.goroutines.dropLast ++
                  [{ g with Stack := { g.Stack with Calls := g.Stack.Calls.dropLast ++ [c1] } }],
                state := next }, [], none⟩

/-- The shared body of the `created by` branch of the cases `gotFileFunc` and
`gotUnavail`. -/
def scanCreated (rej : Reject) (s : ScanningState) (name : Str) : Option ScanResult :=
  match updateCur s
      (fun g => { g with CreatedBy := { g.CreatedBy with Func := (Func.Init rej name).1 } }) with
  | none => none
  | some s1 =>
    match (Func.Init rej name).2 with
    | some err => some ⟨s1, [], some err⟩
    | none => some ⟨{ s1 with state := State.gotCreated }, [], none⟩

/-- The loop of the case `betweenRaceGoroutines` that sets the state of the
first goroutine with the given ID; `none` when there is none. -/
def setStateByID : List Goroutine → Int → Str → Option (List Goroutine)
  | [], _, _ => none
  | g :: gs, id, st =>
    if g.ID = id then some ({ g with State := st } :: gs)
    else (setStateByID gs id st).map (fun r => g :: r)

/-- The case `betweenRaceGoroutines` of `scan`, which the case
`betweenRaceOperations` falls through to. -/
def scanRaceGoroutine (s : ScanningState) (trimmed : Str) : ScanResult :=
  match reRaceGoroutine trimmed with
  | some (idText, st) =>
    if (Atoi idText).2 then
      match setStateByID s.goroutines (Atoi idText).1 st with
      | none =>
        ⟨s, [], some ⟨"unexpected goroutine ID on line: %q", [TrimSpace trimmed]⟩⟩
      | some gs =>
        ⟨{ s with goroutines := gs, goroutineID := (Atoi idText).1,
                  state := State.gotRaceGoroutineHeader }, [], none⟩
    else ⟨s, [], some ⟨"failed to parse goroutine id on line: %q", [TrimSpace trimmed]⟩⟩
  | none => ⟨s, [], some ⟨"expected an operator or goroutine, got: %q", [trimmed]⟩⟩

/-- The case `gotRaceGoroutineHeader` of `scan`, which the case
`gotRaceGoroutineFile` falls through to. -/
def scanRaceCreate (rej : Reject) (s : ScanningState) (trimmed : Str) : Option ScanResult :=
  match parseFunc rej {} (TrimLeftTabSpace trimmed) with
  | (c, true, err) =>
    match s.races with
    | none => none
    | some m =>
      match m.lookup s.goroutineID with
      | none => none
      | some op =>
        some ⟨{ s with
                races := some (m.set s.goroutineID
                  { op with create := { op.create with Calls := op.create.Calls ++ [c] } }),
                state := State.gotRaceGoroutineFunc }, [], err⟩
  | (_, false, _) =>
    some ⟨s, [], some ⟨"expected a function after a race operation or a race file, got: %q",
      [trimmed]⟩⟩

/-- The switch of `scan` on the state, after the line terminator and the
indentation have been removed: `line` is the line as given, `trimmed` what is
left of it. -/
def scanState (rej : Reject) (s : ScanningState) (line trimmed : Str) : Option ScanResult :=
  match s.state with
  | State.normal => some (scanHeader s line trimmed)
  | State.betweenRoutine => some (scanHeader s line trimmed)
  | State.gotRoutineHeader =>
    if reUnavail trimmed then
      match updateCur s (fun g =>
          { g with Stack := { g.Stack with Calls := [{ SrcPath := "<unavailable>".toList }] } }) with
      | none => none
      | some s1 => some ⟨{ s1 with state := State.gotUnavail }, [], none⟩
    else
      match scanFunc rej s trimmed State.gotFunc with
      | none => none
      | some (some r) => some r
      | some none =>
        some ⟨s, [], some ⟨"expected a function after a goroutine header, got: %q",
          [TrimSpace trimmed]⟩⟩
  | State.gotFunc =>
    scanFile s trimmed State.gotFileFunc
      ⟨"expected a file after a function, got: %q", [TrimSpace trimmed]⟩
  | State.gotCreated =>
    match s.goroutines.getLast? with
    | none => none
    | some g =>
      match parseFile g.CreatedBy trimmed with
      | (_, _, some err) => some ⟨s, [], some err⟩
      | (_, false, none) =>
        some ⟨s, [], some ⟨"expected a file after a created line, got: %q", [trimmed]⟩⟩
      | (c1, true, none) =>
        some ⟨{ s with goroutines := s.goroutines.dropLast ++ [{ g with CreatedBy := c1 }],
                       state := State.gotFileCreated }, [], none⟩
  | State.gotFileFunc =>
    match reCreated trimmed with
    | some name => scanCreated rej s name
    | none =>
      if elided = trimmed then
        match updateCur s (fun g => { g with Stack := { g.Stack with Elided := true } }) with
        | none => none
        | some s1 => some ⟨s1, [], none⟩
      else
        match scanFunc rej s trimmed State.gotFunc with
        | none => none
        | some (some r) => some r
        | some none =>
          if trimmed = [] then some ⟨{ s with state := State.betweenRoutine }, [], none⟩
          else some ⟨{ s with state := State.normal, pfx := [] }, line, none⟩
  | State.gotFileCreated =>
    if trimmed = [] then some ⟨{ s with state := State.betweenRoutine }, [], none⟩
    else some ⟨{ s with state := State.normal, pfx := [] }, line, none⟩
  | State.gotUnavail =>
    if trimmed = [] then some ⟨{ s with state := State.betweenRoutine }, [], none⟩
    else
      match reCreated trimmed with
      | some name => scanCreated rej s name
      | none =>
        some ⟨s, [], some ⟨"expected empty line after unavailable stack, got: %q",
          [TrimSpace trimmed]⟩⟩
  | State.gotRaceHeader1 =>
    if raceHeader = trimmed then some ⟨{ s with state := State.gotRaceHeader2 }, [], none⟩
    else some ⟨{ s with state := State.normal }, line, none⟩
  | State.gotRaceHeader2 =>
    match reRaceOperationHeader trimmed with
    | some (op, addrText, idText) =>
      match ParseUint addrText with
      | none =>
        some ⟨s, [], some ⟨"failed to parse address on line: %q", [TrimSpace trimmed]⟩⟩
      | some addr =>
        if !(Atoi idText).2 then
          some ⟨s, [], some ⟨"failed to parse goroutine id on line: %q", [TrimSpace trimmed]⟩⟩
        else if s.races.isSome then none
        else if !s.goroutines.isEmpty then none
        else
          some ⟨{ s with
                  races := some [((Atoi idText).1,
                    { write := op = "Write".toList, addr := addr, id := (Atoi idText).1 })],
                  goroutines := [{ ID := (Atoi idText).1, First := true }],
                  goroutineID := (Atoi idText).1,
                  state := State.gotRaceOperationHeader }, [], none⟩
    | none => some ⟨{ s with state := State.normal }, line, none⟩
  | State.gotRaceOperationHeader =>
    match scanFunc rej s (TrimLeftTabSpace trimmed) State.gotRaceOperationFunc with
    | none => none
    | some (some r) => some r
    | some none =>
      some ⟨s, [], some ⟨"expected a function after a race operation, got: %q", [trimmed]⟩⟩
  | State.gotRaceOperationFunc =>
    scanFile s trimmed State.gotRaceOperationFile
      ⟨"expected a file after a race function, got: %q", [trimmed]⟩
  | State.gotRaceOperationFile =>
    if trimmed = [] then some ⟨{ s with state := State.betweenRaceOperations }, [], none⟩
    else
      match scanFunc rej s (TrimLeftTabSpace trimmed) State.gotRaceOperationFunc with
      | none => none
      | some (some r) => some r
      | some none =>
        some ⟨s, [], some ⟨"expected an empty line after a race file, got: %q", [trimmed]⟩⟩
  | State.betweenRaceOperations =>
    match reRacePreviousOperationHeader trimmed with
    | some (op, addrText, idText) =>
      match ParseUint addrText with
      | none =>
        some ⟨s, [], some ⟨"failed to parse address on line: %q", [TrimSpace trimmed]⟩⟩
      | some addr =>
        if !(Atoi idText).2 then
          some ⟨s, [], some ⟨"failed to parse goroutine id on line: %q", [TrimSpace trimmed]⟩⟩
        else
          match s.races with
          | none => none
          | some m =>
            some ⟨{ s with
                    goroutineID := (Atoi idText).1,
                    races := some (m.set (Atoi idText).1
                      { write := op = "write".toList, addr := addr, id := (Atoi idText).1 }),
                    goroutines := s.goroutines ++ [{ ID := (Atoi idText).1 }],
                    state := State.gotRaceOperationHeader }, [], none⟩
    | none => some (scanRaceGoroutine s trimmed)
  | State.betweenRaceGoroutines => some (scanRaceGoroutine s trimmed)
  | State.gotRaceGoroutineFunc =>
    match s.races with
    | none => none
    | some m =>
      match m.lookup s.goroutineID with
      | none => none
      | some op =>
        match op.create.Calls.getLast? with
        | none => none
        | some c =>
          match parseFile c trimmed with
          | (_, _, some err) => some ⟨s, [], some err⟩
          | (_, false, none) =>
            some ⟨s, [], some ⟨"expected a file after a race function, got: %q", [trimmed]⟩⟩
          | (c1, true, none) =>
            some ⟨{ s with
                    races := some (m.set s.goroutineID
                      { op with create :=
                          { op.create with Calls := op.create.Calls.dropLast ++ [c1] } }),
                    state := State.gotRaceGoroutineFile }, [], none⟩
  | State.gotRaceGoroutineFile =>
    if trimmed = [] then some ⟨{ s with state := State.betweenRaceGoroutines }, [], none⟩
    else if trimmed = raceHeaderFooter then some ⟨{ s with state := State.normal }, [], none⟩
    else scanRaceCreate rej s trimmed
  | State.gotRaceGoroutineHeader => scanRaceCreate rej s trimmed
  | State.invalid => some ⟨s, [], some ⟨"internal error", []⟩⟩

/-- The indentation check of `scan`: a non-empty line must start with the
recorded indentation, which is then removed. -/
def scanIndent (rej : Reject) (s : ScanningState) (line trimmed : Str) : Option ScanResult :=
  if trimmed ≠ [] ∧ s.pfx ≠ [] then
    if !HasPrefix trimmed s.pfx then
      some ⟨{ s with state := State.normal, pfx := [] }, [],
        some ⟨"inconsistent indentation: %q, expected %q", [trimmed, s.pfx]⟩⟩
    else scanState rej s line (trimmed.drop s.pfx.length)
  else scanState rej s line trimmed

/-- The method `scanningState.scan`: one line is scanned; the result is the
state after the call, the text returned and the error, or `none` when the call
panics. -/
def scan (rej : Reject) (s : ScanningState) (line : Str) : Option ScanResult :=
  if HasSuffix line "\r\n".toList then scanIndent rej s line (line.take (line.length - 2))
  else if HasSuffix line "\n".toList then scanIndent rej s line (line.take (line.length - 1))
  else if s.state = State.normal then some ⟨s, line, none⟩
  else scanIndent rej s line line

/-! ## The line scanner and the parse loop -/

/-- The constant `bufio.MaxScanTokenSize` of the Go library. -/
def maxScanTokenSize : Nat := 64 * 1024

/-- Go `bytes.IndexByte`: the index of the first occurrence. -/
def IndexByte : Str → Char → Option Nat
  | [], _ => none
  | c :: cs, b => if c = b then some 0 else (IndexByte cs b).map (fun i => i + 1)

/-- The split function `scanLines`: the advance, the token (`none` for nil)
and the error. -/
def scanLines (data : Str) (atEOF : Bool) : Nat × Option Str × Option Err :=
  if atEOF && data.length == 0 then (0, none, none)
  else
    match IndexByte data '\n' with
    | some i => (i + 1, some (data.take (i + 1)), none)
    | none =>
      if atEOF then (data.length, some data, none)
      else if data.length ≥ maxScanTokenSize then (data.length, some data, none)
      else (0, none, none)

/-- One call of `bufio.Scanner.Scan` on a reader that still holds `rest`: the
scanner buffers at most `bufio.MaxScanTokenSize` bytes and calls the split
function on them, at end of input once everything left is buffered. The result
is the token and what is left to read; `none` when the scan stops. -/
def scannerNext (rest : Str) : Option (Str × Str) :=
  match scanLines (rest.take maxScanTokenSize) (decide (rest.length ≤ maxScanTokenSize)) with
  | (advance, some token, _) => some (token, rest.drop advance)
  | (_, none, _) => none

/-- The tokens `bufio.Scanner` yields with the split function `scanLines`, for
at most `fuel` calls of `Scan`. Every token takes at least one character, so
the length of the input is enough fuel. -/
def scanTokens : Nat → Str → List Str
  | 0, _ => []
  | fuel + 1, rest =>
    match scannerNext rest with
    | none => []
    | some (token, rest1) => token :: scanTokens fuel rest1

/-- What the loop of `parseDump` leaves: the scanning state `s` at the point
where it stops, the error it stops with, and the text written to `out`. -/
structure LoopResult where
  s : ScanningState
  err : Option Err
  out : Str
deriving DecidableEq, Repr

/-- What `parseDump` leaves: the goroutines and the error it returns, and the
text written to `out`. -/
structure DumpResult where
  goroutines : List Goroutine
  err : Option Err
  out : Str
deriving DecidableEq, Repr

/-- The loop of `parseDump` over the scanned lines, from the scanning state
`s`: `out` is what has been written so far. The reader is a finite text whose
reads do not fail, so `scanner.Err()` is nil at the end. `none` when a call of
`scan` panics. -/
def parseDumpLoop (rej : Reject) : ScanningState → List Str → Str → Option LoopResult
  | s, [], out => some ⟨s, none, out⟩
  | s, line :: rest, out =>
    match scan rej s line with
    | none => none
    | some r =>
      match r.err with
      | some e => some ⟨r.s, some e, out ++ r.out⟩
      | none => parseDumpLoop rej r.s rest (out ++ r.out)

/-- The function `parseDump` on the input text `r`: the loop is run from
`scanningState{}` and `s.goroutines` is returned with the error. -/
def parseDump (rej : Reject) (r : Str) : Option DumpResult :=
  (parseDumpLoop rej {} (scanTokens r.length r) []).map
    (fun l => ⟨l.s.goroutines, l.err, l.out⟩)

/-- The type `Context`. -/
structure Context where
  Goroutines : List Goroutine := []
  GOROOT : Str := []
  GOPATHs : List (Str × Str) := []
  localGomoduleRoot : Str := []
  gomodImportPath : Str := []
  localgoroot : Str := []
  localgopaths : List Str := []
deriving DecidableEq, Repr

/-- The function `ParseDump`: the context (`none` for nil), the error and the
text written to `out`. The part that builds the context from a non-empty list
of goroutines (the host's GOROOT and GOPATH, `nameArguments`, and with
`guesspaths` the path resolution) uses code outside `context.go` and the host;
it is the parameter `build`. -/
def ParseDump (rej : Reject) (build : List Goroutine → Bool → Context) (r : Str)
    (guesspaths : Bool) : Option (Option Context × Option Err × Str) :=
  match parseDump rej r with
  | none => none
  | some d =>
    if d.goroutines.length = 0 then some (none, d.err, d.out)
    else some (some (build d.goroutines guesspaths), d.err, d.out)

/-! ## Notions used to state the properties -/

/-- The line after removing its line terminator (`\r\n` or `\n`), as `scan`
computes it. -/
def chomp (line : Str) : Str :=
  if HasSuffix line "\r\n".toList then line.take (line.length - 2)
  else if HasSuffix line "\n".toList then line.take (line.length - 1)
  else line

/-- The lines `parseDump` scans: the tokens the scanner yields over the whole
input. -/
def scannedLines (input : Str) : List Str := scanTokens input.length input

/-- The states of the panic stack-trace grammar (the ones before the race
detector states in the declaration of `state`). -/
def State.isTrace : State → Bool
  | State.normal | State.betweenRoutine | State.gotRoutineHeader | State.gotFunc
  | State.gotCreated | State.gotFileFunc | State.gotFileCreated | State.gotUnavail => true
  | _ => false

/-- What holds of every scanning state `parseDump` can be in: race detection
is off, the state is one of the panic-trace grammar, there is a current
goroutine outside the state `normal`, its stack has a call in the state
`gotFunc`, and the recorded indentation is empty in the state `normal`. -/
structure Inv (s : ScanningState) : Prop where
  race : s.raceDetectionEnabled = false
  trace : s.state.isTrace = true
  cur : s.state ≠ State.normal → s.goroutines ≠ []
  calls : s.state = State.gotFunc → ∀ g, s.goroutines.getLast? = some g → g.Stack.Calls ≠ []
  pfx : s.state = State.normal → s.pfx = []

/-- The changes `scan` makes to the current goroutine: the state before, the
goroutine before, the state after, the goroutine after, and the error
returned. -/
inductive CurStep : State → Goroutine → State → Goroutine → Option Err → Prop
  | unavail (g : Goroutine) :
    CurStep State.gotRoutineHeader g State.gotUnavail
      { g with Stack := { g.Stack with Calls := [{ SrcPath := "<unavailable>".toList }] } } none
  | func (st : State) (g : Goroutine) (c : Call) (err : Option Err) :
    (st = State.gotRoutineHeader ∨ st = State.gotFileFunc) →
    CurStep st g State.gotFunc
      { g with Stack := { g.Stack with Calls := g.Stack.Calls ++ [c] } } err
  | file (g : Goroutine) (c1 : Call) :
    g.Stack.Calls ≠ [] →
    CurStep State.gotFunc g State.gotFileFunc
      { g with Stack := { g.Stack with Calls := g.Stack.Calls.dropLast ++ [c1] } } none
  | createdFile (g : Goroutine) (c1 : Call) :
    CurStep State.gotCreated g State.gotFileCreated { g with CreatedBy := c1 } none
  | createdBy (st : State) (g : Goroutine) (f : Func) :
    (st = State.gotFileFunc ∨ st = State.gotUnavail) →
    CurStep st g State.gotCreated { g with CreatedBy := { g.CreatedBy with Func := f } } none
  | createdByErr (st : State) (g : Goroutine) (f : Func) (e : Err) :
    (st = State.gotFileFunc ∨ st = State.gotUnavail) →
    CurStep st g st { g with CreatedBy := { g.CreatedBy with Func := f } } (some e)
  | elided (g : Goroutine) :
    CurStep State.gotFileFunc g State.gotFileFunc
      { g with Stack := { g.Stack with Elided := true } } none

/-- The shapes of a call of `scan` on `line` from the state `s` of the
panic-trace grammar: what it returns. -/
inductive Step (s : ScanningState) (line : Str) : ScanResult → Prop
  | echo :
    (s.state = State.normal ∨ s.state = State.betweenRoutine ∨ s.state = State.gotFileFunc ∨
      s.state = State.gotFileCreated) →
    Step s line ⟨{ s with state := State.normal, pfx := [] }, line, none⟩
  | indentErr (t : Str) :
    s.pfx ≠ [] →
    Step s line ⟨{ s with state := State.normal, pfx := [] }, [],
      some ⟨"inconsistent indentation: %q, expected %q", [t, s.pfx]⟩⟩
  | header (g : Goroutine) (indent : Str) :
    (s.state = State.normal ∨ s.state = State.betweenRoutine) →
    g.First = (s.goroutines.length == 0) → g.Stack.Calls = [] →
    Step s line ⟨{ s with goroutines := s.goroutines ++ [g], state := State.gotRoutineHeader,
                          pfx := indent }, [], none⟩
  | cur (gs : List Goroutine) (g g1 : Goroutine) (st1 : State) (err : Option Err) :
    s.goroutines = gs ++ [g] → CurStep s.state g st1 g1 err →
    Step s line ⟨{ s with goroutines := gs ++ [g1], state := st1 }, [], err⟩
  | fail (e : Err) :
    (s.state = State.gotRoutineHeader ∨ s.state = State.gotFunc ∨ s.state = State.gotCreated ∨
      s.state = State.gotUnavail) →
    (s.state = State.gotRoutineHeader →
      e.format = "expected a function after a goroutine header, got: %q") →
    Step s line ⟨s, [], some e⟩
  | blank :
    (s.state = State.gotFileFunc ∨ s.state = State.gotFileCreated ∨
      s.state = State.gotUnavail) →
    Step s line ⟨{ s with state := State.betweenRoutine }, [], none⟩

/-- The runs of the loop of `parseDump` from a state of the panic-trace
grammar: the state, the lines left to scan, the text written so far, and what
the loop leaves. -/
inductive Run : ScanningState → List Str → Str → LoopResult → Prop
  | done (s : ScanningState) (out : Str) : Run s [] out ⟨s, none, out⟩
  | stop (s : ScanningState) (line : Str) (rest : List Str) (out : Str) (r : ScanResult)
      (e : Err) :
    Inv s → Step s line r → r.err = some e →
    Run s (line :: rest) out ⟨r.s, some e, out ++ r.out⟩
  | next (s : ScanningState) (line : Str) (rest : List Str) (out : Str) (r : ScanResult)
      (l : LoopResult) :
    Inv s → Step s line r → r.err = none → Run r.s rest (out ++ r.out) l →
    Run s (line :: rest) out l

/-- The values of `First` along a list of `n` goroutines of which only the
one at index 0 is the first. -/
def firstFlags : Nat → List Bool
  | 0 => []
  | n + 1 => true :: List.replicate n false

/-- The goroutines whose stack has been filled: every goroutine but the last
has a call, and the last one has a call unless the state is
`gotRoutineHeader`. -/
def Sealed (s : ScanningState) : Prop :=
  (∀ g ∈ s.goroutines.dropLast, g.Stack.Calls ≠ []) ∧
    (∀ g, s.goroutines.getLast? = some g → g.Stack.Calls = [] →
      s.state = State.gotRoutineHeader)

/-- Two results of `scan`, on the lines `l1` and `l2`, that agree: both are
panics, or both return the same state and error and either both echo nothing
or each echoes the line it was given. -/
def SameScan (l1 l2 : Str) : Option ScanResult → Option ScanResult → Prop
  | none, none => True
  | some r1, some r2 =>
    r1.s = r2.s ∧ r1.err = r2.err ∧
      ((r1.out = [] ∧ r2.out = []) ∨ (r1.out = l1 ∧ r2.out = l2))
  | _, _ => False

/-- A goroutine header as the runtime prints it: the indentation, the text
`goroutine `, the digits of the ID, and the description between brackets,
followed by a colon. -/
def headerText (indent idText descr : Str) : Str :=
  indent ++ ("goroutine ".toList ++ (idText ++ (" [".toList ++ (descr ++ "]:".toList))))

/-- The number of minutes of the last field of the form `<n> minutes` among
the given fields of a header description; 0 when there is none. -/
def lastMinutes (fields : List Str) : Nat :=
  match (fields.filterMap reMinutes).getLast? with
  | none => 0
  | some m => decimalValue m

/-- The `int` that `strconv.Atoi` returns for a number that may not fit: the
number itself below `2 ^ 63`, the largest `int` otherwise. -/
def clampInt (n : Nat) : Int := if n < 2 ^ 63 then (n : Int) else 2 ^ 63 - 1

/-- The line as the switch of `scan` sees it: the line terminator is removed,
then the recorded indentation when the line is not empty; `none` when the line
does not start with the recorded indentation. -/
def strippedLine (s : ScanningState) (line : Str) : Option Str :=
  if chomp line ≠ [] ∧ s.pfx ≠ [] then
    (if HasPrefix (chomp line) s.pfx then some ((chomp line).drop s.pfx.length) else none)
  else some (chomp line)

/-- The states a scanning state can be in after any sequence of calls of `scan`
from `scanningState{}`, the initial state of `parseDump` (race detection
off), whatever the calls return. -/
inductive Reachable (rej : Reject) : ScanningState → Prop
  | init : Reachable rej {}
  | step (s : ScanningState) (line : Str) (r : ScanResult) :
    Reachable rej s → scan rej s line = some r → Reachable rej r.s

/-- The `Arg` that `parseFunc` records for the value `v`. -/
def argOf (v : Nat) : Arg :=
  { Value := v, IsPtr := decide (v > pointerFloor) && decide (v < pointerCeiling) }

/-- The token `...` of an argument list. -/
def dots : Str := "...".toList

/-- Whether the line `t`, as the switch of `scan` sees it, is one of the
continuations that a state inside a goroutine block accepts. -/
def accepts : State → Str → Bool
  | State.gotRoutineHeader, t => reUnavail t || (reFunc t).isSome
  | State.gotFunc, t => (reFile t).isSome
  | State.gotCreated, t => (reFile t).isSome
  | State.gotFileFunc, t =>
    (reCreated t).isSome || decide (elided = t) || (reFunc t).isSome || decide (t = [])
  | State.gotFileCreated, t => decide (t = [])
  | State.gotUnavail, t => decide (t = []) || (reCreated t).isSome
  | _, _ => false

/-- The scanning state after `scan` has been called on each of the lines in
turn, whatever the calls return; `none` when a call panics. -/
def scanMany (rej : Reject) : ScanningState → List Str → Option ScanningState
  | s, [] => some s
  | s, line :: rest =>
    match scan rej s line with
    | none => none
    | some r => scanMany rej r.s rest

/-- Whether the text is a goroutine header that `scan` accepts: it matches
`reRoutineHeader` and its ID fits an `int`. -/
def isHeader (t : Str) : Bool :=
  match reRoutineHeader t with
  | some (_, idText, _) => (Atoi idText).2
  | none => false

/-- The transitions of the panic-trace grammar: whether a step that returns no
error may lead from the first state to the second. -/
def allowed : State → State → Bool
  | State.normal, t => decide (t = State.normal) || decide (t = State.gotRoutineHeader)
  | State.betweenRoutine, t => decide (t = State.normal) || decide (t = State.gotRoutineHeader)
  | State.gotRoutineHeader, t => decide (t = State.gotUnavail) || decide (t = State.gotFunc)
  | State.gotFunc, t => decide (t = State.gotFileFunc)
  | State.gotFileFunc, t =>
    decide (t = State.gotFunc) || decide (t = State.gotCreated) ||
      decide (t = State.gotFileFunc) || decide (t = State.betweenRoutine) ||
      decide (t = State.normal)
  | State.gotCreated, t => decide (t = State.gotFileCreated)
  | State.gotFileCreated, t => decide (t = State.betweenRoutine) || decide (t = State.normal)
  | State.gotUnavail, t => decide (t = State.betweenRoutine) || decide (t = State.gotCreated)
  | _, _ => false

/-- A scanning state of the race-report grammar: race detection is on and no
indentation is recorded. -/
def raceState (st : State) (gs : List Goroutine) (races : Option RaceMap) (id : Int) :
    ScanningState :=
  { raceDetectionEnabled := true, goroutines := gs, state := st, races := races,
    goroutineID := id }

/-! ## The path resolver

In the path resolver the length of a path is counted in characters, which is
its length in bytes for an ASCII path. -/

/-- The file system as the path resolver reads it: whether a path is a regular
file (`isFile`, through `os.Stat`) and the content `ioutil.ReadFile` returns
for it (`none` for an error). -/
structure FileSystem where
  isFile : Str → Bool
  readFile : Str → Option Str

/-- Modelled from the spec: `pathJoin` is defined outside `context.go`. §4.G:
path separators are `/` internally and the file probed is
`<candidate-root>/<suffix>`: the elements are joined with `/`. -/
def pathJoin (elems : List Str) : Str := "/".toList.intercalate elems

/-- The slice expression `r[:len(r)-n]`; `none` when it is out of range. -/
def sliceEnd (r : Str) (n : Nat) : Option Str :=
  if n ≤ r.length then some (r.take (r.length - n)) else none

/-- Writing `m[k] = v` in a `map[string]string`, kept as an association list
with one entry per key. -/
def mapSet : List (Str × Str) → Str → Str → List (Str × Str)
  | [], k, v => [(k, v)]
  | (k1, v1) :: m, k, v => if k1 = k then (k, v) :: m else (k1, v1) :: mapSet m k v

/-- The function `hasSrcPrefix`. -/
def hasSrcPrefix (p : Str) (s : List (Str × Str)) : Bool :=
  s.any (fun e =>
    HasPrefix p (e.1 ++ "/src/".toList) || HasPrefix p (e.1 ++ "/pkg/mod/".toList))

/-- The order of `sort.Strings`: the first string is smaller than the second
(by code points, which is the byte order of UTF-8). -/
def strLt : Str → Str → Bool
  | [], [] => false
  | [], _ :: _ => true
  | _ :: _, [] => false
  | a :: as, b :: bs =>
    if a.toNat < b.toNat then true
    else if b.toNat < a.toNat then false
    else strLt as bs

/-- Adding a file to the sorted list of the files seen so far. -/
def insertFile (f : Str) : List Str → List Str
  | [] => [f]
  | g :: gs =>
    if f = g then g :: gs
    else if strLt f g then f :: g :: gs
    else g :: insertFile f gs

/-- The function `getFiles`: the source files of all the calls, deduped and
sorted. -/
def getFiles (goroutines : List Goroutine) : List Str :=
  ((goroutines.map (fun g => g.Stack.Calls.map (fun c => c.SrcPath))).flatten).foldl
    (fun acc f => insertFile f acc) []

/-- The loop of `splitPath`: `out` and `s` are the variables of the source. -/
def splitPathLoop : List Str → Str → Str → List Str
  | out, s, [] => if s ≠ [] then out ++ [s] else out
  | out, s, c :: cs =>
    if c ≠ '/' ∨ (out.length = 0 ∧ s.count '/' = s.length) then splitPathLoop out (s ++ [c]) cs
    else if s ≠ [] then splitPathLoop (out ++ [s]) [] cs
    else splitPathLoop out s cs

/-- The function `splitPath`. -/
def splitPath (p : Str) : List Str :=
  if p = [] then [] else splitPathLoop [] [] p

/-- The loop of `rootedIn`: `pre` is `parts[:i]` and the second list
`parts[i:]`. -/
def rootedInLoop (fs : FileSystem) (root : Str) : List Str → List Str → Str
  | _, [] => []
  | pre, p :: post =>
    if fs.isFile (pathJoin [root, pathJoin (p :: post)]) then pathJoin pre
    else rootedInLoop fs root (pre ++ [p]) post

/-- The function `rootedIn`. -/
def rootedIn (fs : FileSystem) (root : Str) (parts : List Str) : Str :=
  match parts with
  | [] => []
  | p :: rest => rootedInLoop fs root [p] rest

/-- The class `\s` of Go regular expressions. -/
def isReSpace (c : Char) : Bool :=
  c == '\t' || c == '\n' || c == '\x0c' || c == '\r' || c == ' '

/-- The ways `\s*` can match at the start of the text, longest first: the rest
of the text after each. -/
def starReSpace : Str → List Str
  | [] => [[]]
  | c :: r => if isReSpace c then starReSpace r ++ [c :: r] else [c :: r]

/-- The end `([^\n\r]+)\r?$` of `reModule` in multi-line mode: the submatch. A
shorter match of the group is followed by a character of its class, where
neither `\r` nor the end of a line is. -/
def reModuleName (s : Str) : Option Str :=
  let name := s.takeWhile (fun c => c != '\n' && c != '\r')
  if name.isEmpty then none
  else
    match s.dropWhile (fun c => c != '\n' && c != '\r') with
    | [] => some name
    | '\n' :: _ => some name
    | '\r' :: [] => some name
    | '\r' :: '\n' :: _ => some name
    | _ => none

/-- The regular expression `reModule` at a given start of line:
`module\s+([^\n\r]+)\r?$`. -/
def reModuleAt (s : Str) : Option Str :=
  match stripLit "module".toList s with
  | none => none
  | some [] => none
  | some (c :: r) => if isReSpace c then (starReSpace r).findSome? reModuleName else none

/-- The search of `reModule`, `(?m)^module\s+([^\n\r]+)\r?$`, from the left:
`lineStart` tells whether the text starts a line. -/
def reModuleFrom (lineStart : Bool) : Str → Option Str
  | [] => none
  | c :: cs =>
    match (if lineStart then reModuleAt (c :: cs) else none) with
    | some m => some m
    | none => reModuleFrom (c == '\n') cs

/-- The regular expression `reModule`: the submatch of the first match. -/
def reModule (b : Str) : Option Str := reModuleFrom true b

/-- The loop of `isGoModule`, for `i` from the given value down to 1. -/
def isGoModuleLoop (fs : FileSystem) (parts : List Str) : Nat → Str × Str
  | 0 => ([], [])
  | i + 1 =>
    if fs.isFile (pathJoin [pathJoin (parts.take (i + 1)), "go.sum".toList]) then
      match fs.readFile (pathJoin [pathJoin (parts.take (i + 1)), "go.mod".toList]) with
      | none => isGoModuleLoop fs parts i
      | some b =>
        match reModule b with
        | some m => (pathJoin (parts.take (i + 1)), m)
        | none => isGoModuleLoop fs parts i
    else isGoModuleLoop fs parts i

/-- The function `isGoModule`. -/
def isGoModule (fs : FileSystem) (parts : List Str) : Str × Str :=
  isGoModuleLoop fs parts parts.length

/-- The loop of `findRoots` over `c.localgopaths`: the key and value written
to `c.GOPATHs` when a root is found; the outer `none` is a slice out of
range. -/
def findGOPATH (fs : FileSystem) (parts : List Str) : List Str → Option (Option (Str × Str))
  | [] => some none
  | l :: ls =>
    if rootedIn fs (l ++ "/src".toList) parts ≠ [] then
      (sliceEnd (rootedIn fs (l ++ "/src".toList) parts) 4).map (fun k => some (k, l))
    else if rootedIn fs (l ++ "/pkg/mod".toList) parts ≠ [] then
      (sliceEnd (rootedIn fs (l ++ "/pkg/mod".toList) parts) 8).map (fun k => some (k, l))
    else findGOPATH fs parts ls

/-- The end of the body of the loop of `findRoots`, for a source that was not
found under a root: the module detection; the context and the count of missing
files after it. -/
def findModule (fs : FileSystem) (c : Context) (missing : Nat) (f : Str) (parts : List Str) :
    Context × Nat :=
  let c1 : Context :=
    if c.localGomoduleRoot = [] ∧ parts.length > 1 then
      { c with localGomoduleRoot := (isGoModule fs parts.dropLast).1,
               gomodImportPath := (isGoModule fs parts.dropLast).2 }
    else c
  if c1.localGomoduleRoot ≠ [] ∧ HasPrefix f (c1.localGomoduleRoot ++ "/".toList) = true then
    (c1, missing)
  else (c1, missing + 1)

/-- The body of the loop of `findRoots` for the file `f`: the context and the
count of missing files after it; `none` when a slice is out of range. -/
def findRootsFile (fs : FileSystem) (c : Context) (missing : Nat) (f : Str) :
    Option (Context × Nat) :=
  if c.GOROOT ≠ [] ∧ HasPrefix f (c.GOROOT ++ "/src/".toList) = true then some (c, missing)
  else if hasSrcPrefix f c.GOPATHs then some (c, missing)
  else if c.GOROOT = [] ∧ rootedIn fs (c.localgoroot ++ "/src".toList) (splitPath f) ≠ [] then
    (sliceEnd (rootedIn fs (c.localgoroot ++ "/src".toList) (splitPath f)) 4).map
      (fun r => ({ c with GOROOT := r }, missing))
  else
    match findGOPATH fs (splitPath f) c.localgopaths with
    | none => none
    | some (some (k, l)) => some ({ c with GOPATHs := mapSet c.GOPATHs k l }, missing)
    | some none => some (findModule fs c missing f (splitPath f))

/-- The loop of `findRoots` over the files. -/
def findRootsLoop (fs : FileSystem) : Context → Nat → List Str → Option (Context × Nat)
  | c, missing, [] => some (c, missing)
  | c, missing, f :: rest =>
    match findRootsFile fs c missing f with
    | none => none
    | some (c1, m1) => findRootsLoop fs c1 m1 rest

/-- The method `Context.findRoots`: the context after the call and the number
of missing files it returns; `none` when the call panics. -/
def findRoots (fs : FileSystem) (c : Context) : Option (Context × Nat) :=
  findRootsLoop fs { c with GOPATHs := [] } 0 (getFiles c.Goroutines)
/-- The `/`-separated segments of a text, the empty ones included. -/
def splitSlash : Str → List Str
  | [] => [[]]
  | c :: cs =>
    if c = '/' then [] :: splitSlash cs
    else
      match splitSlash cs with
      | [] => [[c]]
      | h :: t => (c :: h) :: t

/-- What `splitPath` is said to return: nothing for the empty path; otherwise
the non-empty `/`-separated segments of what follows the leading run of `/`,
with that run put before the first of them, or the run alone when there is no
such segment. -/
def splitPathSpec (p : Str) : List Str :=
  if p = [] then []
  else
    match (splitSlash (p.dropWhile (fun c => c == '/'))).filter (fun x => x ≠ []) with
    | [] => [p.takeWhile (fun c => c == '/')]
    | x :: xs => (p.takeWhile (fun c => c == '/') ++ x) :: xs

/-! # Properties -/

/-! ## The line scanner loses nothing -/

theorem IndexByte_lt {s : Str} {b : Char} {i : Nat} (h : IndexByte s b = some i) :
    i < s.length := by
  induction s generalizing i with
  | nil => simp [IndexByte] at h
  | cons c cs ih =>
    simp only [IndexByte] at h
    split at h
    · simp at h; subst h; simp
    · cases hcs : IndexByte cs b with
      | none => simp [hcs] at h
      | some j =>
        simp [hcs] at h
        subst h
        have := ih hcs
        simp; omega

theorem scanLines_token (data : Str) (atEOF : Bool) (hne : data ≠ [])
    (hfull : atEOF = true ∨ data.length ≥ maxScanTokenSize) :
    ∃ adv, scanLines data atEOF = (adv, some (data.take adv), none) ∧ 0 < adv ∧
      adv ≤ data.length := by
  have hlen : data.length ≠ 0 := fun h => hne (List.eq_nil_of_length_eq_zero h)
  unfold scanLines
  have h0 : (atEOF && data.length == 0) = false := by simp [hlen]
  rw [h0]
  simp only [Bool.false_eq_true, if_false]
  cases hidx : IndexByte data '\n' with
  | some i =>
    have hi := IndexByte_lt hidx
    exact ⟨i + 1, rfl, by omega, by omega⟩
  | none =>
    rcases hfull with h | h
    · subst h
      exact ⟨data.length, by simp, by omega, le_refl _⟩
    · cases atEOF
      · exact ⟨data.length, by simp [h], by omega, le_refl _⟩
      · exact ⟨data.length, by simp, by omega, le_refl _⟩

theorem scannerNext_nil : scannerNext [] = none := by
  simp [scannerNext, scanLines]

theorem scannerNext_cons (c : Char) (cs : Str) :
    ∃ tok rest1, scannerNext (c :: cs) = some (tok, rest1) ∧ tok ≠ [] ∧
      tok ++ rest1 = c :: cs := by
  have hmax : maxScanTokenSize = 65536 := by decide
  have hlen : ((c :: cs).take maxScanTokenSize).length = min maxScanTokenSize (cs.length + 1) := by
    simp
  have hne : (c :: cs).take maxScanTokenSize ≠ [] := by
    intro h
    have := congrArg List.length h
    rw [hlen, hmax] at this
    simp at this
  have hfull : decide ((c :: cs).length ≤ maxScanTokenSize) = true ∨
      ((c :: cs).take maxScanTokenSize).length ≥ maxScanTokenSize := by
    by_cases h : (c :: cs).length ≤ maxScanTokenSize
    · left; exact decide_eq_true h
    · right; rw [hlen]; simp at h; omega
  obtain ⟨adv, hsl, hpos, hle⟩ := scanLines_token _ _ hne hfull
  have htake : ((c :: cs).take maxScanTokenSize).take adv = (c :: cs).take adv := by
    rw [List.take_take]
    congr 1
    rw [hlen] at hle
    omega
  refine ⟨(c :: cs).take adv, (c :: cs).drop adv, ?_, ?_, List.take_append_drop _ _⟩
  · unfold scannerNext
    rw [hsl, htake]
  · intro h
    have := congrArg List.length h
    simp at this
    omega

theorem scanTokens_flatten (fuel : Nat) (rest : Str) (h : rest.length ≤ fuel) :
    (scanTokens fuel rest).flatten = rest := by
  induction fuel generalizing rest with
  | zero =>
    have : rest = [] := List.eq_nil_of_length_eq_zero (by omega)
    subst this; simp [scanTokens]
  | succ n ih =>
    cases rest with
    | nil => simp [scanTokens, scannerNext_nil]
    | cons c cs =>
      obtain ⟨tok, rest1, hnext, hne, happ⟩ := scannerNext_cons c cs
      simp only [scanTokens, hnext, List.flatten_cons]
      have hl : rest1.length ≤ n := by
        have := congrArg List.length happ
        have hpos : 0 < tok.length := List.length_pos.mpr hne
        simp at this h
        omega
      rw [ih rest1 hl, happ]
theorem scan_normal_junk (rej : Reject) (s : ScanningState) (line : Str)
    (hst : s.state = State.normal) (hpfx : s.pfx = []) (hrace : s.raceDetectionEnabled = false)
    (hno : reRoutineHeader (chomp line) = none) :
    scan rej s line = some ⟨s, line, none⟩ := by
  have key : ∀ t, reRoutineHeader t = none → scanIndent rej s line t = some ⟨s, line, none⟩ := by
    intro t ht
    simp only [scanIndent, hpfx, scanState, hst, scanHeader, ht, hrace]
    cases s
    simp_all
  unfold scan
  unfold chomp at hno
  split
  · rename_i h; rw [if_pos h] at hno; exact key _ hno
  · rename_i h
    rw [if_neg h] at hno
    split
    · rename_i h2; rw [if_pos h2] at hno; exact key _ hno
    · simp [hst]

theorem parseDumpLoop_junk (rej : Reject) (s : ScanningState) (lines : List Str) (out : Str)
    (hst : s.state = State.normal) (hpfx : s.pfx = []) (hrace : s.raceDetectionEnabled = false)
    (hno : ∀ l ∈ lines, reRoutineHeader (chomp l) = none) (rest : List Str) :
    parseDumpLoop rej s (lines ++ rest) out =
      parseDumpLoop rej s rest (out ++ lines.flatten) := by
  induction lines generalizing out with
  | nil => simp
  | cons l ls ih =>
    have hl := scan_normal_junk rej s l hst hpfx hrace (hno l (by simp))
    simp only [List.cons_append, parseDumpLoop, hl, List.flatten_cons]
    have := ih (out ++ l) (fun x hx => hno x (by simp [hx]))
    simp only [List.append_assoc] at this ⊢
    exact this

/-- C1: when no scanned line of the input, after removing its line terminator,
matches the routine-header pattern, `parseDump` writes exactly the input to the
sink and returns no goroutines and no error, and `ParseDump` returns a nil
context (with the same error and output). -/
theorem C1_junk_passthrough (rej : Reject) (input : Str)
    (hno : ∀ l ∈ scannedLines input, reRoutineHeader (chomp l) = none) :
    parseDump rej input = some ⟨[], none, input⟩ ∧
      ∀ build guesspaths, ParseDump rej build input guesspaths = some (none, none, input) := by
  have h1 : parseDump rej input = some ⟨[], none, input⟩ := by
    unfold parseDump
    have := parseDumpLoop_junk rej {} (scanTokens input.length input) [] rfl rfl rfl hno []
    rw [List.append_nil] at this
    rw [this]
    simp [parseDumpLoop, scanTokens_flatten input.length input (le_refl _)]
  refine ⟨h1, ?_⟩
  intro build guesspaths
  simp [ParseDump, h1]

/-- C1 at the input `panic: boom`, an empty line and an unterminated `bye`. -/
theorem C1_junk_passthrough_witness :
    parseDump (fun _ => none) "panic: boom\n\nbye".toList
      = some ⟨[], none, "panic: boom\n\nbye".toList⟩ ∧
    ∀ build guesspaths, ParseDump (fun _ => none) build "panic: boom\n\nbye".toList guesspaths
      = some (none, none, "panic: boom\n\nbye".toList) :=
  C1_junk_passthrough (fun _ => none) "panic: boom\n\nbye".toList (by decide)

/-! ## The steps of the state machine -/

theorem goroutines_concat (s : ScanningState) (h : s.goroutines ≠ []) :
    ∃ gs g, s.goroutines = gs ++ [g] := by
  rcases List.eq_nil_or_concat s.goroutines with h1 | ⟨gs, g, h1⟩
  · exact absurd h1 h
  · exact ⟨gs, g, by simpa using h1⟩

theorem scanHeader_step (s : ScanningState) (line t : Str)
    (hrace : s.raceDetectionEnabled = false)
    (hst : s.state = State.normal ∨ s.state = State.betweenRoutine) :
    Step s line (scanHeader s line t) := by
  have hecho : Step s line ⟨{ s with state := State.normal, pfx := [] }, line, none⟩ :=
    Step.echo (by tauto)
  have hf : (s.raceDetectionEnabled && decide (t = raceHeaderFooter)) = false := by
    simp [hrace]
  unfold scanHeader
  simp only [hf, Bool.false_eq_true, if_false]
  split
  · split
    · refine Step.header _ _ hst ?_ ?_ <;> rfl
    · exact hecho
  · exact hecho

theorem scanFunc_step (rej : Reject) (s : ScanningState) (line t : Str)
    (gs : List Goroutine) (g : Goroutine) (hgs : s.goroutines = gs ++ [g])
    (hst : s.state = State.gotRoutineHeader ∨ s.state = State.gotFileFunc) :
    scanFunc rej s t State.gotFunc = some none ∨
      ∃ r, scanFunc rej s t State.gotFunc = some (some r) ∧ Step s line r := by
  unfold scanFunc
  rcases hpf : parseFunc rej {} t with ⟨c, found, err⟩
  cases found
  · left; simp
  · right
    simp only [updateCur, hgs, List.getLast?_append, List.getLast?_singleton, Option.or_some,
      List.dropLast_concat]
    exact ⟨_, rfl, Step.cur gs g _ _ err hgs (CurStep.func _ g c err hst)⟩

theorem scanCreated_step (rej : Reject) (s : ScanningState) (line name : Str)
    (gs : List Goroutine) (g : Goroutine) (hgs : s.goroutines = gs ++ [g])
    (hst : s.state = State.gotFileFunc ∨ s.state = State.gotUnavail) :
    ∃ r, scanCreated rej s name = some r ∧ Step s line r := by
  unfold scanCreated
  simp only [updateCur, hgs, List.getLast?_append, List.getLast?_singleton, Option.or_some,
    List.dropLast_concat]
  cases hinit : (Func.Init rej name).2 with
  | none =>
    exact ⟨_, rfl, Step.cur gs g _ _ none hgs (CurStep.createdBy _ g _ hst)⟩
  | some e =>
    refine ⟨_, rfl, ?_⟩
    have := @Step.cur s line gs g _ _ (some e) hgs (CurStep.createdByErr _ g (Func.Init rej name).1 e hst)
    simpa [hgs] using this

theorem scanState_step (rej : Reject) (s : ScanningState) (line t : Str) (h : Inv s) :
    ∃ r, scanState rej s line t = some r ∧ Step s line r := by
  obtain ⟨hrace, htrace, hcur, hcalls, -⟩ := h
  unfold scanState
  cases hst : s.state <;> simp only [hst, State.isTrace] at htrace ⊢ <;>
    try (exact absurd htrace (by decide))
  · exact ⟨_, rfl, scanHeader_step s line t hrace (Or.inl hst)⟩
  · exact ⟨_, rfl, scanHeader_step s line t hrace (Or.inr hst)⟩
  · -- gotRoutineHeader
    obtain ⟨gs, g, hgs⟩ := goroutines_concat s (hcur (by simp [hst]))
    split
    · simp only [updateCur, hgs, List.getLast?_append, List.getLast?_singleton, Option.or_some,
        List.dropLast_concat]
      refine ⟨_, rfl, ?_⟩
      have := @Step.cur s line gs g _ _ none hgs (hst ▸ CurStep.unavail g)
      exact this
    · rcases scanFunc_step rej s line t gs g hgs (Or.inl hst) with h1 | ⟨r, h1, h2⟩
      · rw [h1]; exact ⟨_, rfl, Step.fail _ (by simp [hst]) (by simp [hst])⟩
      · rw [h1]; exact ⟨_, rfl, h2⟩
  · -- gotFunc
    obtain ⟨gs, g, hgs⟩ := goroutines_concat s (hcur (by simp [hst]))
    have hg : s.goroutines.getLast? = some g := by simp [hgs]
    have hc := hcalls hst g hg
    obtain ⟨cs, c, hcs⟩ : ∃ cs c, g.Stack.Calls = cs ++ [c] := by
      rcases List.eq_nil_or_concat g.Stack.Calls with h1 | ⟨cs, c, h1⟩
      · exact absurd h1 hc
      · exact ⟨cs, c, by simpa using h1⟩
    unfold scanFile
    simp only [hg]
    have hl : g.Stack.Calls.getLast? = some c := by simp [hcs]
    simp only [hl]
    rcases hpf : parseFile c t with ⟨c1, found, err⟩
    cases err with
    | some e => cases found <;> exact ⟨_, rfl, Step.fail _ (by simp [hst]) (by simp [hst])⟩
    | none =>
      cases found
      · exact ⟨_, rfl, Step.fail _ (by simp [hst]) (by simp [hst])⟩
      · refine ⟨_, rfl, ?_⟩
        have := @Step.cur s line gs g _ _ none hgs (hst ▸ CurStep.file g c1 hc)
        simpa [hgs] using this
  · -- gotCreated
    obtain ⟨gs, g, hgs⟩ := goroutines_concat s (hcur (by simp [hst]))
    have hg : s.goroutines.getLast? = some g := by simp [hgs]
    simp only [hg]
    rcases hpf : parseFile g.CreatedBy t with ⟨c1, found, err⟩
    cases err with
    | some e => cases found <;> exact ⟨_, rfl, Step.fail _ (by simp [hst]) (by simp [hst])⟩
    | none =>
      cases found
      · exact ⟨_, rfl, Step.fail _ (by simp [hst]) (by simp [hst])⟩
      · refine ⟨_, rfl, ?_⟩
        have := @Step.cur s line gs g _ _ none hgs (hst ▸ CurStep.createdFile g c1)
        simpa [hgs] using this
  · -- gotFileFunc
    obtain ⟨gs, g, hgs⟩ := goroutines_concat s (hcur (by simp [hst]))
    split
    · exact scanCreated_step rej s line _ gs g hgs (Or.inl hst)
    · split
      · simp only [updateCur, hgs, List.getLast?_append, List.getLast?_singleton, Option.or_some,
          List.dropLast_concat]
        refine ⟨_, rfl, ?_⟩
        have := @Step.cur s line gs g _ _ none hgs (hst ▸ CurStep.elided g)
        simpa [hst] using this
      · rcases scanFunc_step rej s line t gs g hgs (Or.inr hst) with h1 | ⟨r, h1, h2⟩
        · rw [h1]
          simp only
          split
          · exact ⟨_, rfl, Step.blank (by simp [hst])⟩
          · exact ⟨_, rfl, Step.echo (by simp [hst])⟩
        · rw [h1]; exact ⟨_, rfl, h2⟩
  · -- gotFileCreated
    split
    · exact ⟨_, rfl, Step.blank (by simp [hst])⟩
    · exact ⟨_, rfl, Step.echo (by simp [hst])⟩
  · -- gotUnavail
    obtain ⟨gs, g, hgs⟩ := goroutines_concat s (hcur (by simp [hst]))
    split
    · exact ⟨_, rfl, Step.blank (by simp [hst])⟩
    · split
      · exact scanCreated_step rej s line _ gs g hgs (Or.inr hst)
      · exact ⟨_, rfl, Step.fail _ (by simp [hst]) (by simp [hst])⟩

theorem scanIndent_step (rej : Reject) (s : ScanningState) (line t : Str) (h : Inv s) :
    ∃ r, scanIndent rej s line t = some r ∧ Step s line r := by
  unfold scanIndent
  split
  · rename_i hc
    split
    · exact ⟨_, rfl, Step.indentErr _ hc.2⟩
    · exact scanState_step rej s line _ h
  · exact scanState_step rej s line _ h

/-- From a state `parseDump` can be in, `scan` does not panic and takes one of
the shapes of `Step`. -/
theorem scan_step (rej : Reject) (s : ScanningState) (line : Str) (h : Inv s) :
    ∃ r, scan rej s line = some r ∧ Step s line r := by
  unfold scan
  split
  · exact scanIndent_step rej s line _ h
  · split
    · exact scanIndent_step rej s line _ h
    · split
      · rename_i hst
        refine ⟨_, rfl, ?_⟩
        have := @Step.echo s line (Or.inl hst)
        have hs : { s with state := State.normal, pfx := [] } = s := by
          have hp := h.pfx hst
          cases s
          simp_all
        rwa [hs] at this
      · exact scanIndent_step rej s line _ h

theorem CurStep_fields {st st1 : State} {g g1 : Goroutine} {err : Option Err}
    (h : CurStep st g st1 g1 err) :
    g1.First = g.First ∧ g1.ID = g.ID ∧ g1.State = g.State ∧ g1.SleepMin = g.SleepMin ∧
      g1.SleepMax = g.SleepMax ∧ g1.Locked = g.Locked := by
  cases h <;> simp

theorem CurStep_state {st st1 : State} {g g1 : Goroutine} {err : Option Err}
    (h : CurStep st g st1 g1 err) :
    st.isTrace = true → st ≠ State.normal →
      st1.isTrace = true ∧ st1 ≠ State.normal ∧ (st1 = State.gotFunc → g1.Stack.Calls ≠ []) := by
  intro h1 h2
  cases h <;>
    first
    | (simp_all [State.isTrace]; done)
    | (refine ⟨h1, h2, ?_⟩
       intro h0
       rename_i hst
       rcases hst with hst | hst <;> simp [hst] at h0)

/-- Every step keeps the invariant, whether or not it returns an error. -/
theorem Step_inv {s : ScanningState} {line : Str} {r : ScanResult} (h : Inv s)
    (hs : Step s line r) : Inv r.s := by
  obtain ⟨hrace, htrace, hcur, hcalls, hpfx⟩ := h
  cases hs with
  | echo _ => exact ⟨hrace, rfl, by simp, by simp, by simp⟩
  | indentErr _ _ => exact ⟨hrace, rfl, by simp, by simp, by simp⟩
  | header g indent _ _ _ => exact ⟨hrace, rfl, by simp, by simp, by simp⟩
  | cur gs g g1 st1 err hgs hc =>
    have hne : s.state ≠ State.normal := by
      intro h0; rw [h0] at hc; cases hc <;> simp_all
    obtain ⟨h1, h2, h3⟩ := CurStep_state hc htrace hne
    refine ⟨hrace, h1, by simp, ?_, fun h0 => absurd h0 h2⟩
    intro hst g2 hg2
    simp at hg2
    subst hg2
    exact h3 hst
  | fail _ _ _ => exact ⟨hrace, htrace, hcur, hcalls, hpfx⟩
  | blank hb =>
    refine ⟨hrace, rfl, ?_, by simp, by simp⟩
    intro _
    apply hcur
    rcases hb with hb | hb | hb <;> simp [hb]

/-- From a state of the panic-trace grammar the loop of `parseDump` never
panics: it is one of the runs of `Run`. -/
theorem parseDumpLoop_run (rej : Reject) (lines : List Str) (s : ScanningState) (out : Str)
    (h : Inv s) : ∃ l, parseDumpLoop rej s lines out = some l ∧ Run s lines out l := by
  induction lines generalizing s out with
  | nil => exact ⟨_, rfl, Run.done s out⟩
  | cons line rest ih =>
    obtain ⟨r, hr, hstep⟩ := scan_step rej s line h
    cases herr : r.err with
    | some e =>
      refine ⟨⟨r.s, some e, out ++ r.out⟩, ?_, Run.stop s line rest out r e h hstep herr⟩
      simp [parseDumpLoop, hr, herr]
    | none =>
      obtain ⟨l, hl, hrun⟩ := ih r.s (out ++ r.out) (Step_inv h hstep)
      refine ⟨l, ?_, Run.next s line rest out r l h hstep herr hrun⟩
      simp [parseDumpLoop, hr, herr, hl]

theorem Inv_init : Inv {} :=
  ⟨rfl, rfl, by simp, by simp, by simp⟩

/-- The function `parseDump` returns on every input, as a run from the initial
state over the scanned lines. -/
theorem parseDump_run (rej : Reject) (input : Str) :
    ∃ l, parseDump rej input = some ⟨l.s.goroutines, l.err, l.out⟩ ∧
      Run {} (scannedLines input) [] l := by
  obtain ⟨l, hl, hrun⟩ := parseDumpLoop_run rej (scannedLines input) {} [] Inv_init
  refine ⟨l, ?_, hrun⟩
  unfold parseDump
  unfold scannedLines at hl
  rw [hl]
  rfl
/-! ## The `First` flag -/

theorem firstFlags_succ (n : Nat) : firstFlags (n + 1) = firstFlags n ++ [n == 0] := by
  cases n with
  | zero => rfl
  | succ m =>
    simp only [firstFlags, List.cons_append]
    rw [List.replicate_succ']
    simp

theorem Step_first {s : ScanningState} {line : Str} {r : ScanResult} (hs : Step s line r)
    (h : s.goroutines.map (fun g => g.First) = firstFlags s.goroutines.length) :
    r.s.goroutines.map (fun g => g.First) = firstFlags r.s.goroutines.length := by
  cases hs with
  | echo _ => exact h
  | indentErr _ _ => exact h
  | header g indent _ hfirst _ =>
    simp only [List.map_append, List.length_append, List.length_singleton, List.map_cons,
      List.map_nil, firstFlags_succ, h, hfirst]
  | cur gs g g1 st1 err hgs hc =>
    rw [hgs] at h
    simp only [List.map_append, List.length_append, List.length_singleton, List.map_cons,
      List.map_nil] at h ⊢
    rw [(CurStep_fields hc).1]
    exact h
  | fail _ _ _ => exact h
  | blank _ => exact h

theorem Run_first {s : ScanningState} {lines : List Str} {out : Str} {l : LoopResult}
    (hrun : Run s lines out l)
    (h : s.goroutines.map (fun g => g.First) = firstFlags s.goroutines.length) :
    l.s.goroutines.map (fun g => g.First) = firstFlags l.s.goroutines.length := by
  induction hrun with
  | done s out => exact h
  | stop s line rest out r e _ hstep _ => exact Step_first hstep h
  | next s line rest out r l _ hstep _ _ ih => exact ih (Step_first hstep h)

theorem firstFlags_getElem? (n i : Nat) (b : Bool) (h : (firstFlags n)[i]? = some b) :
    b = decide (i = 0) := by
  cases n with
  | zero => simp [firstFlags] at h
  | succ m =>
    cases i with
    | zero => simp [firstFlags] at h; simp [h]
    | succ j =>
      simp only [firstFlags, List.getElem?_cons_succ] at h
      rw [List.getElem?_replicate] at h
      split at h <;> simp at h
      simp [← h]

/-- C4: in the list of goroutines `parseDump` returns (on every input, with or
without an error) the goroutine at index 0 has `First = true` and every
goroutine at a later index has `First = false`; so a non-empty list has
exactly one goroutine with `First = true`. -/
theorem C4_first_flag (rej : Reject) (input : Str) :
    ∃ d, parseDump rej input = some d ∧
      (∀ i g, d.goroutines[i]? = some g → g.First = decide (i = 0)) ∧
      (d.goroutines ≠ [] → d.goroutines.countP (fun g => g.First) = 1) := by
  obtain ⟨l, hl, hrun⟩ := parseDump_run rej input
  have hf := Run_first hrun rfl
  refine ⟨_, hl, ?_, ?_⟩
  · intro i g hg
    have h1 : (l.s.goroutines.map (fun g => g.First))[i]? = some g.First := by
      simp only [List.getElem?_map]
      simp only at hg
      rw [hg]; rfl
    rw [hf] at h1
    exact firstFlags_getElem? _ _ _ h1
  · intro hne
    simp only at hne ⊢
    have h2 : l.s.goroutines.countP (fun g => g.First) =
        (l.s.goroutines.map (fun g => g.First)).count true := by
      rw [List.count, List.countP_map]
      congr 1
      funext g
      simp
    rw [h2, hf]
    cases hlen : l.s.goroutines.length with
    | zero => exact absurd (List.eq_nil_of_length_eq_zero hlen) hne
    | succ m => simp [firstFlags, List.count_replicate]

/-! ## What is echoed -/

theorem scanHeader_out (s : ScanningState) (line t : Str) :
    (scanHeader s line t).out = [] ∨ (scanHeader s line t).out = line := by
  unfold scanHeader
  repeat' split
  all_goals simp

theorem scanFunc_out {rej : Reject} {s : ScanningState} {t : Str} {next : State}
    {r : ScanResult} (h : scanFunc rej s t next = some (some r)) : r.out = [] := by
  unfold scanFunc at h
  split at h
  · split at h
    · simp at h
    · simp at h; rw [← h]
  · simp at h

theorem scanFile_out {s : ScanningState} {t : Str} {next : State} {e : Err}
    {r : ScanResult} (h : scanFile s t next e = some r) : r.out = [] := by
  unfold scanFile at h
  repeat' split at h
  all_goals first | (simp at h; done) | (simp at h; rw [← h])

theorem scanCreated_out {rej : Reject} {s : ScanningState} {name : Str}
    {r : ScanResult} (h : scanCreated rej s name = some r) : r.out = [] := by
  unfold scanCreated at h
  repeat' split at h
  all_goals first | (simp at h; done) | (simp at h; rw [← h])

theorem scanRaceGoroutine_out (s : ScanningState) (t : Str) :
    (scanRaceGoroutine s t).out = [] := by
  unfold scanRaceGoroutine
  repeat' split
  all_goals rfl

theorem scanRaceCreate_out {rej : Reject} {s : ScanningState} {t : Str}
    {r : ScanResult} (h : scanRaceCreate rej s t = some r) : r.out = [] := by
  unfold scanRaceCreate at h
  repeat' split at h
  all_goals first | (simp at h; done) | (simp at h; rw [← h])

theorem scanState_out {rej : Reject} {s : ScanningState} {line t : Str} {r : ScanResult}
    (h : scanState rej s line t = some r) : r.out = [] ∨ r.out = line := by
  unfold scanState at h
  split at h
  case h_1 | h_2 =>
    simp at h; rw [← h]; exact scanHeader_out s line t
  all_goals
    repeat' split at h
  all_goals
    first
    | exact Or.inl (scanFile_out h)
    | exact Or.inl (scanCreated_out h)
    | exact Or.inl (scanRaceCreate_out h)
    | (simp only [Option.some.injEq] at h
       subst h
       first
       | exact Or.inl rfl
       | exact Or.inr rfl
       | exact Or.inl (scanFunc_out (by assumption))
       | exact Or.inl (scanRaceGoroutine_out _ _))
    | (simp at h)

theorem scanIndent_out {rej : Reject} {s : ScanningState} {line t : Str} {r : ScanResult}
    (h : scanIndent rej s line t = some r) : r.out = [] ∨ r.out = line := by
  unfold scanIndent at h
  repeat' split at h
  · simp only [Option.some.injEq] at h; subst h; exact Or.inl rfl
  · exact scanState_out h
  · exact scanState_out h

/-- Whatever the state, `scan` returns for echoing either nothing or the line
it was given. -/
theorem scan_out {rej : Reject} {s : ScanningState} {line : Str} {r : ScanResult}
    (h : scan rej s line = some r) : r.out = [] ∨ r.out = line := by
  unfold scan at h
  repeat' split at h
  · exact scanIndent_out h
  · exact scanIndent_out h
  · simp only [Option.some.injEq] at h; subst h; exact Or.inr rfl
  · exact scanIndent_out h

theorem Step_out {s : ScanningState} {line : Str} {r : ScanResult} (hs : Step s line r) :
    r.out = [] ∨ r.out = line := by
  cases hs <;> simp

theorem Run_out {s : ScanningState} {lines : List Str} {out : Str} {l : LoopResult}
    (hrun : Run s lines out l) :
    ∃ sub, List.Sublist sub lines ∧ l.out = out ++ sub.flatten := by
  induction hrun with
  | done s out => exact ⟨[], List.Sublist.slnil, by simp⟩
  | stop s line rest out r e _ hstep _ =>
    rcases Step_out hstep with h | h
    · exact ⟨[], List.nil_sublist _, by simp [h]⟩
    · exact ⟨[line], by simp, by simp [h]⟩
  | next s line rest out r l _ hstep _ _ ih =>
    obtain ⟨sub, hsub, hout⟩ := ih
    rcases Step_out hstep with h | h
    · exact ⟨sub, List.Sublist.cons _ hsub, by simp [hout, h]⟩
    · exact ⟨line :: sub, List.Sublist.cons₂ _ hsub, by simp [hout, h]⟩

/-- C9: for every parser state and line, the text `scan` returns for echoing
(whenever it returns at all: `none` is a panic of the Go code, which can only
happen from states `parseDump` never reaches) is either empty or exactly the
line it was given, terminator included; and for every input
`parseDump` returns, and what it writes to the sink is the concatenation, in
input order, of a sub-collection of the scanned input lines. -/
theorem C9_echo_is_line_or_nothing (rej : Reject) :
    (∀ s line r, scan rej s line = some r → r.out = [] ∨ r.out = line) ∧
    (∀ input, ∃ d sub, parseDump rej input = some d ∧
      List.Sublist sub (scannedLines input) ∧ d.out = sub.flatten) := by
  refine ⟨fun s line r h => scan_out h, ?_⟩
  intro input
  obtain ⟨l, hl, hrun⟩ := parseDump_run rej input
  obtain ⟨sub, hsub, hout⟩ := Run_out hrun
  exact ⟨_, sub, hl, hsub, by simpa using hout⟩

/-- C9 at the initial state and the line `hello`, which is echoed, and at the
input of scenario S1. -/
theorem C9_echo_is_line_or_nothing_witness :
    ((⟨{}, "hello\n".toList, none⟩ : ScanResult).out = [] ∨
      (⟨{}, "hello\n".toList, none⟩ : ScanResult).out = "hello\n".toList) ∧
    ∃ d sub, parseDump (fun _ => none)
        "panic: boom\n\ngoroutine 1 [running]:\nmain.main()\n\t/app/main.go:12 +0x20\n".toList
        = some d ∧
      List.Sublist sub (scannedLines
        "panic: boom\n\ngoroutine 1 [running]:\nmain.main()\n\t/app/main.go:12 +0x20\n".toList) ∧
      d.out = sub.flatten :=
  ⟨(C9_echo_is_line_or_nothing (fun _ => none)).1 {} "hello\n".toList
      ⟨{}, "hello\n".toList, none⟩ (by decide),
   (C9_echo_is_line_or_nothing (fun _ => none)).2 _⟩

/-! ## Goroutines without a call -/

theorem Sealed_all {s : ScanningState} (h : Sealed s) (hst : s.state ≠ State.gotRoutineHeader) :
    ∀ g ∈ s.goroutines, g.Stack.Calls ≠ [] := by
  intro g hg
  rcases List.eq_nil_or_concat s.goroutines with h1 | ⟨gs, g0, h1⟩
  · rw [h1] at hg; simp at hg
  · have h1' : s.goroutines = gs ++ [g0] := by simpa using h1
    rw [h1'] at hg
    simp only [List.mem_append, List.mem_singleton] at hg
    rcases hg with hg | hg
    · exact h.1 g (by rw [h1']; simpa using hg)
    · subst hg
      intro hc
      exact hst (h.2 g (by rw [h1']; simp) hc)

theorem CurStep_calls {st st1 : State} {g g1 : Goroutine} {err : Option Err}
    (h : CurStep st g st1 g1 err) (hg : st ≠ State.gotRoutineHeader → g.Stack.Calls ≠ []) :
    g1.Stack.Calls ≠ [] := by
  cases h <;> first | (simp; done) | (apply hg; rename_i hst; rcases hst with hst | hst <;> simp [hst]) | (apply hg; simp)

/-- A step without an error keeps the goroutines sealed. -/
theorem Step_sealed {s : ScanningState} {line : Str} {r : ScanResult} (hs : Step s line r)
    (h : Sealed s) (herr : r.err = none) : Sealed r.s := by
  cases hs with
  | echo hst =>
    refine ⟨h.1, ?_⟩
    intro g hg hc
    have : s.state ≠ State.gotRoutineHeader := by
      rcases hst with hst | hst | hst | hst <;> simp [hst]
    exact absurd hc (Sealed_all h this g (List.mem_of_mem_getLast? hg))
  | indentErr _ _ => simp at herr
  | header g indent hst _ hcalls =>
    have : s.state ≠ State.gotRoutineHeader := by
      rcases hst with hst | hst <;> simp [hst]
    refine ⟨?_, ?_⟩
    · intro g0 hg0
      simp only [List.dropLast_concat] at hg0
      exact Sealed_all h this g0 hg0
    · intro _ _ _; rfl
  | cur gs g g1 st1 err hgs hc =>
    refine ⟨?_, ?_⟩
    · intro g0 hg0
      simp only [List.dropLast_concat] at hg0
      exact h.1 g0 (by rw [hgs]; simpa using hg0)
    · intro g2 hg2 hc2
      simp at hg2
      subst hg2
      exact absurd hc2 (CurStep_calls hc (fun hst hc0 =>
        hst (h.2 g (by rw [hgs]; simp) hc0)))
  | fail _ _ _ => simp at herr
  | blank hst =>
    refine ⟨h.1, ?_⟩
    intro g hg hc
    have : s.state ≠ State.gotRoutineHeader := by
      rcases hst with hst | hst | hst <;> simp [hst]
    exact absurd hc (Sealed_all h this g (List.mem_of_mem_getLast? hg))

/-- What a step that returns an error leaves of sealed goroutines. -/
theorem Step_sealed_err {s : ScanningState} {line : Str} {r : ScanResult} (hs : Step s line r)
    (h : Sealed s) (e : Err) (herr : r.err = some e) :
    (∀ g ∈ r.s.goroutines.dropLast, g.Stack.Calls ≠ []) ∧
    (∀ g, r.s.goroutines.getLast? = some g → g.Stack.Calls = [] →
      e.format = "expected a function after a goroutine header, got: %q" ∨
      e.format = "inconsistent indentation: %q, expected %q") := by
  cases hs with
  | echo hst => simp at herr
  | indentErr t _ =>
    refine ⟨h.1, ?_⟩
    intro g hg hc
    simp at herr
    right; rw [← herr]
  | header g indent hst _ hcalls => simp at herr
  | cur gs g g1 st1 err hgs hc =>
    refine ⟨?_, ?_⟩
    · intro g0 hg0
      simp only [List.dropLast_concat] at hg0
      exact h.1 g0 (by rw [hgs]; simpa using hg0)
    · intro g2 hg2 hc2
      simp at hg2
      subst hg2
      exact absurd hc2 (CurStep_calls hc (fun hst hc0 =>
        hst (h.2 g (by rw [hgs]; simp) hc0)))
  | fail e0 _ hfmt =>
    refine ⟨h.1, ?_⟩
    intro g hg hc
    simp at herr
    left; rw [← herr]
    exact hfmt (h.2 g hg hc)
  | blank hst => simp at herr

theorem Run_sealed {s : ScanningState} {lines : List Str} {out : Str} {l : LoopResult}
    (hrun : Run s lines out l) (h : Sealed s) :
    (∀ g ∈ l.s.goroutines.dropLast, g.Stack.Calls ≠ []) ∧
    (∀ g, l.s.goroutines.getLast? = some g → g.Stack.Calls = [] →
      (l.err = none ∧ l.s.state = State.gotRoutineHeader) ∨
      (∃ e, l.err = some e ∧
        (e.format = "expected a function after a goroutine header, got: %q" ∨
         e.format = "inconsistent indentation: %q, expected %q"))) := by
  induction hrun with
  | done s out => exact ⟨h.1, fun g hg hc => Or.inl ⟨rfl, h.2 g hg hc⟩⟩
  | stop s line rest out r e _ hstep herr =>
    obtain ⟨h1, h2⟩ := Step_sealed_err hstep h e herr
    exact ⟨h1, fun g hg hc => Or.inr ⟨e, rfl, h2 g hg hc⟩⟩
  | next s line rest out r l _ hstep herr _ ih => exact ih (Step_sealed hstep h herr)

/-- C10, as stated, fails: on the input made of the single header line
`goroutine 1 [running]:`, `parseDump` returns one goroutine whose stack has no
call. -/
theorem C10_counterexample :
    ¬ ∀ (rej : Reject) (input : Str) (d : DumpResult), parseDump rej input = some d →
      ∀ g ∈ d.goroutines, 1 ≤ g.Stack.Calls.length := by
  intro h
  have h1 : parseDump (fun _ => none) "goroutine 1 [running]:\n".toList =
      some ⟨[{ State := "running".toList, ID := 1, First := true }], none, []⟩ := by decide
  have := h _ _ _ h1 _ (List.mem_singleton.mpr rfl)
  simp at this

/-- C10, amended: on every input `parseDump` returns, and every goroutine it
returns other than the last one has a stack with at least one call; the last
one has a call too, except when the input ends right after its header (no
error, the loop stops in the state `gotRoutineHeader`) or the line after its
header is rejected with one of the errors `expected a function after a
goroutine header` and `inconsistent indentation`. -/
theorem C10_stack_nonempty_amended (rej : Reject) (input : Str) :
    ∃ l, parseDumpLoop rej {} (scannedLines input) [] = some l ∧
      parseDump rej input = some ⟨l.s.goroutines, l.err, l.out⟩ ∧
      (∀ g ∈ l.s.goroutines.dropLast, 1 ≤ g.Stack.Calls.length) ∧
      (∀ g, l.s.goroutines.getLast? = some g → g.Stack.Calls.length = 0 →
        (l.err = none ∧ l.s.state = State.gotRoutineHeader) ∨
        (∃ e, l.err = some e ∧
          (e.format = "expected a function after a goroutine header, got: %q" ∨
           e.format = "inconsistent indentation: %q, expected %q"))) := by
  obtain ⟨l, hl, hrun⟩ := parseDumpLoop_run rej (scannedLines input) {} [] Inv_init
  have hsealed : Sealed ({} : ScanningState) := ⟨by simp, by simp⟩
  obtain ⟨h1, h2⟩ := Run_sealed hrun hsealed
  refine ⟨l, hl, ?_, ?_, ?_⟩
  · unfold parseDump
    unfold scannedLines at hl
    rw [hl]; rfl
  · intro g hg
    exact List.length_pos.mpr (h1 g hg)
  · intro g hg hc
    exact h2 g hg (List.eq_nil_of_length_eq_zero hc)

/-! ## Line terminators and indentation -/

theorem scan_eq_scanIndent (rej : Reject) (s : ScanningState) (line : Str)
    (h : s.state ≠ State.normal ∨ HasSuffix line "\n".toList = true) :
    scan rej s line = scanIndent rej s line (chomp line) := by
  unfold scan chomp
  split
  · rfl
  · split
    · rfl
    · rename_i h1 h2
      rcases h with h | h
      · simp [h]
      · exact absurd h h2

/-- The indentation check of `scan`: when the line is terminated by a line feed
or scanned in a state other than `normal`, the recorded prefix is not empty,
and the line without its terminator is not empty and does not start with the
prefix, `scan` returns the error `inconsistent indentation`, and the loop of
`parseDump` stops there. -/
theorem scan_inconsistent_indentation (rej : Reject) (s : ScanningState) (line : Str)
    (hterm : s.state ≠ State.normal ∨ HasSuffix line "\n".toList = true)
    (hpfx : s.pfx ≠ []) (hne : chomp line ≠ [])
    (hno : HasPrefix (chomp line) s.pfx = false) :
    scan rej s line = some
      ⟨{ s with state := State.normal, pfx := [] }, [],
        some ⟨"inconsistent indentation: %q, expected %q", [chomp line, s.pfx]⟩⟩ ∧
    ∀ rest out, parseDumpLoop rej s (line :: rest) out = some
      ⟨{ s with state := State.normal, pfx := [] },
        some ⟨"inconsistent indentation: %q, expected %q", [chomp line, s.pfx]⟩, out⟩ := by
  have h1 : scan rej s line = some
      ⟨{ s with state := State.normal, pfx := [] }, [],
        some ⟨"inconsistent indentation: %q, expected %q", [chomp line, s.pfx]⟩⟩ := by
    rw [scan_eq_scanIndent rej s line hterm]
    unfold scanIndent
    simp [hne, hpfx, hno]
  refine ⟨h1, ?_⟩
  intro rest out
  simp [parseDumpLoop, h1]

theorem SameScan_refl_nil (l1 l2 : Str) (o : Option ScanResult)
    (h : ∀ r, o = some r → r.out = []) : SameScan l1 l2 o o := by
  cases o with
  | none => trivial
  | some r => exact ⟨rfl, rfl, Or.inl ⟨h r rfl, h r rfl⟩⟩

theorem scanHeader_same (s : ScanningState) (l1 l2 t : Str) :
    SameScan l1 l2 (some (scanHeader s l1 t)) (some (scanHeader s l2 t)) := by
  unfold scanHeader
  repeat' split
  all_goals simp [SameScan]

theorem scanState_same (rej : Reject) (s : ScanningState) (l1 l2 t : Str) :
    SameScan l1 l2 (scanState rej s l1 t) (scanState rej s l2 t) := by
  unfold scanState
  cases hst : s.state <;> simp only
  case normal | betweenRoutine => exact scanHeader_same s l1 l2 t
  case gotFunc | gotRaceOperationFunc =>
    exact SameScan_refl_nil _ _ _ (fun r h => scanFile_out h)
  case gotRaceGoroutineHeader =>
    exact SameScan_refl_nil _ _ _ (fun r h => scanRaceCreate_out h)
  all_goals
    repeat' split
  all_goals
    first
    | (simp_all [SameScan]; done)
    | exact SameScan_refl_nil _ _ _ (fun r h => scanCreated_out h)
    | exact SameScan_refl_nil _ _ _ (fun r h => scanRaceCreate_out h)
    | (have h1 := scanFunc_out (by assumption)
       simp_all [SameScan])
    | exact ⟨rfl, rfl, Or.inl ⟨scanRaceGoroutine_out _ _, scanRaceGoroutine_out _ _⟩⟩

theorem scanIndent_same (rej : Reject) (s : ScanningState) (l1 l2 t : Str) :
    SameScan l1 l2 (scanIndent rej s l1 t) (scanIndent rej s l2 t) := by
  unfold scanIndent
  repeat' split
  · simp [SameScan]
  · exact scanState_same rej s l1 l2 _
  · exact scanState_same rej s l1 l2 _

theorem chomp_crlf (t : Str) :
    HasSuffix (t ++ "\r\n".toList) "\r\n".toList = true ∧
      (t ++ "\r\n".toList).take ((t ++ "\r\n".toList).length - 2) = t := by
  constructor
  · simp [HasSuffix]
  · simp

theorem chomp_lf (t : Str) (h : t.getLast? ≠ some '\r') :
    HasSuffix (t ++ "\n".toList) "\r\n".toList = false ∧
      HasSuffix (t ++ "\n".toList) "\n".toList = true ∧
      (t ++ "\n".toList).take ((t ++ "\n".toList).length - 1) = t := by
  refine ⟨?_, ?_, ?_⟩
  · rw [Bool.eq_false_iff]
    intro hs
    simp only [HasSuffix, List.isSuffixOf_iff_suffix] at hs
    obtain ⟨u, hu⟩ := hs
    have h1 : u ++ ['\r'] ++ ['\n'] = t ++ ['\n'] := by simpa using hu
    have h2 := List.append_inj_left' h1 rfl
    apply h
    rw [← h2]
    simp
  · simp [HasSuffix]
  · simp

theorem scan_crlf_same (rej : Reject) (s : ScanningState) (t : Str)
    (h : t.getLast? ≠ some '\r') :
    SameScan (t ++ "\r\n".toList) (t ++ "\n".toList)
      (scan rej s (t ++ "\r\n".toList)) (scan rej s (t ++ "\n".toList)) := by
  obtain ⟨h1, h2⟩ := chomp_crlf t
  obtain ⟨h3, h4, h5⟩ := chomp_lf t h
  have e1 : scan rej s (t ++ "\r\n".toList) = scanIndent rej s (t ++ "\r\n".toList) t := by
    unfold scan
    rw [if_pos h1, h2]
  have e2 : scan rej s (t ++ "\n".toList) = scanIndent rej s (t ++ "\n".toList) t := by
    unfold scan
    rw [if_neg (by rw [h3]; simp), if_pos h4, h5]
  rw [e1, e2]
  exact scanIndent_same rej s _ _ t

theorem parseDumpLoop_crlf (rej : Reject) (bodies : List Str)
    (h : ∀ t ∈ bodies, t.getLast? ≠ some '\r') (s : ScanningState) (out1 out2 : Str) :
    (parseDumpLoop rej s (bodies.map (fun t => t ++ "\r\n".toList)) out1).map
        (fun l => (l.s, l.err)) =
      (parseDumpLoop rej s (bodies.map (fun t => t ++ "\n".toList)) out2).map
        (fun l => (l.s, l.err)) := by
  induction bodies generalizing s out1 out2 with
  | nil => simp [parseDumpLoop]
  | cons t ts ih =>
    have hs := scan_crlf_same rej s t (h t (by simp))
    simp only [List.map_cons, parseDumpLoop]
    cases h1 : scan rej s (t ++ "\r\n".toList) with
    | none =>
      cases h2 : scan rej s (t ++ "\n".toList) with
      | none => rfl
      | some r2 => rw [h1, h2] at hs; exact absurd hs (by simp [SameScan])
    | some r1 =>
      cases h2 : scan rej s (t ++ "\n".toList) with
      | none => rw [h1, h2] at hs; exact absurd hs (by simp [SameScan])
      | some r2 =>
        rw [h1, h2] at hs
        obtain ⟨hs1, hs2, -⟩ := hs
        simp only
        rw [← hs1, ← hs2]
        cases r1.err with
        | some e => rfl
        | none => exact ih (fun x hx => h x (by simp [hx])) _ _ _

/-- C8: for every parser state and every line body `t` that does not end in a
carriage return, `scan` on `t` followed by CR LF and `scan` on `t` followed by
LF agree: both panic, or both return the same parser state and the same error
and either both echo nothing or each echoes the line it was given. Hence the
input of scenario S1 with every LF replaced by CR LF parses to the same
goroutines (and the same error) as S1. -/
theorem C8_crlf_tolerance (rej : Reject) (s : ScanningState) (t : Str)
    (h : t.getLast? ≠ some '\r') :
    SameScan (t ++ "\r\n".toList) (t ++ "\n".toList)
      (scan rej s (t ++ "\r\n".toList)) (scan rej s (t ++ "\n".toList)) ∧
    (parseDump rej
        "panic: boom\r\n\r\ngoroutine 1 [running]:\r\nmain.main()\r\n\t/app/main.go:12 +0x20\r\n".toList).map
        (fun d => (d.goroutines, d.err)) =
      (parseDump rej
        "panic: boom\n\ngoroutine 1 [running]:\nmain.main()\n\t/app/main.go:12 +0x20\n".toList).map
        (fun d => (d.goroutines, d.err)) := by
  refine ⟨scan_crlf_same rej s t h, ?_⟩
  have hb : ∀ t ∈ ["panic: boom".toList, [], "goroutine 1 [running]:".toList,
      "main.main()".toList, "\t/app/main.go:12 +0x20".toList], t.getLast? ≠ some '\r' := by
    decide
  have key := parseDumpLoop_crlf rej _ hb {} [] []
  have t1 : scanTokens
      "panic: boom\r\n\r\ngoroutine 1 [running]:\r\nmain.main()\r\n\t/app/main.go:12 +0x20\r\n".toList.length
      "panic: boom\r\n\r\ngoroutine 1 [running]:\r\nmain.main()\r\n\t/app/main.go:12 +0x20\r\n".toList =
      ["panic: boom".toList, [], "goroutine 1 [running]:".toList,
        "main.main()".toList, "\t/app/main.go:12 +0x20".toList].map
        (fun t => t ++ "\r\n".toList) := by decide
  have t2 : scanTokens
      "panic: boom\n\ngoroutine 1 [running]:\nmain.main()\n\t/app/main.go:12 +0x20\n".toList.length
      "panic: boom\n\ngoroutine 1 [running]:\nmain.main()\n\t/app/main.go:12 +0x20\n".toList =
      ["panic: boom".toList, [], "goroutine 1 [running]:".toList,
        "main.main()".toList, "\t/app/main.go:12 +0x20".toList].map
        (fun t => t ++ "\n".toList) := by decide
  unfold parseDump
  rw [t1, t2]
  simp only [Option.map_map]
  have := congrArg (Option.map (fun p : ScanningState × Option Err => (p.1.goroutines, p.2))) key
  simpa [Option.map_map, Function.comp_def] using this

/-- C8 at the state after a goroutine header and the function line
`main.main()`. -/
theorem C8_crlf_tolerance_witness :
    SameScan ("main.main()".toList ++ "\r\n".toList) ("main.main()".toList ++ "\n".toList)
      (scan (fun _ => none)
        { goroutines := [{ State := "running".toList, ID := 1, First := true }],
          state := State.gotRoutineHeader }
        ("main.main()".toList ++ "\r\n".toList))
      (scan (fun _ => none)
        { goroutines := [{ State := "running".toList, ID := 1, First := true }],
          state := State.gotRoutineHeader }
        ("main.main()".toList ++ "\n".toList)) ∧
    (parseDump (fun _ => none)
        "panic: boom\r\n\r\ngoroutine 1 [running]:\r\nmain.main()\r\n\t/app/main.go:12 +0x20\r\n".toList).map
        (fun d => (d.goroutines, d.err)) =
      (parseDump (fun _ => none)
        "panic: boom\n\ngoroutine 1 [running]:\nmain.main()\n\t/app/main.go:12 +0x20\n".toList).map
        (fun d => (d.goroutines, d.err)) :=
  C8_crlf_tolerance (fun _ => none)
    { goroutines := [{ State := "running".toList, ID := 1, First := true }],
      state := State.gotRoutineHeader }
    "main.main()".toList (by decide)

/-! ## The pointer heuristic -/

theorem parseUintLoop_lt (base : Nat) (base0 : Bool) (s : Str) (n v : Nat)
    (hn : n < 2 ^ 64) (h : parseUintLoop base base0 s n = some v) : v < 2 ^ 64 := by
  induction s generalizing n with
  | nil => simp [parseUintLoop] at h; omega
  | cons c cs ih =>
    simp only [parseUintLoop] at h
    split at h
    · exact ih n hn h
    · split at h
      · simp at h
      · split at h
        · simp at h
        · split at h
          · simp at h
          · split at h
            · simp at h
            · rename_i hle
              exact ih _ (by omega) h

theorem ParseUint_lt (s : Str) (v : Nat) (h : ParseUint s = some v) : v < 2 ^ 64 := by
  unfold ParseUint at h
  split at h
  · simp at h
  · simp only at h
    split at h
    · simp at h
    · rename_i n hn
      split at h
      · simp at h
      · simp only [Option.some.injEq] at h
        subst h
        split at hn
        · repeat' split at hn
          all_goals exact parseUintLoop_lt _ _ _ _ _ (by norm_num) hn
        · exact parseUintLoop_lt _ _ _ _ _ (by norm_num) hn
        · exact parseUintLoop_lt _ _ _ _ _ (by norm_num) hn

theorem parseArgs_values (line : Str) (P : Arg → Prop) (toks : List Str) (a0 : Args)
    (h0 : ∀ a ∈ a0.Values, P a)
    (hP : ∀ t ∈ toks, ∀ v, ParseUint t = some v →
      P { Value := v, IsPtr := decide (v > pointerFloor) && decide (v < pointerCeiling) }) :
    ∀ a ∈ (parseArgs line toks a0).1.Values, P a := by
  induction toks generalizing a0 with
  | nil => simpa [parseArgs] using h0
  | cons t ts ih =>
    simp only [parseArgs]
    split
    · exact ih _ h0 (fun x hx => hP x (by simp [hx]))
    · split
      · exact h0
      · split
        · exact h0
        · rename_i v hv
          apply ih
          · intro a ha
            simp only [List.mem_append, List.mem_singleton] at ha
            rcases ha with ha | ha
            · exact h0 a ha
            · subst ha
              exact hP t (by simp) v hv
          · exact fun x hx => hP x (by simp [hx])

/-- C5: every `Arg` that `parseFunc` records comes from a token of the
`", "`-split argument list that parses as an unsigned 64-bit value `v`; it has
`Value = v` and `IsPtr = true` exactly when `pointerFloor < v < pointerCeiling`,
both bounds exclusive. The values `pointerFloor` and `pointerCeiling` give
`IsPtr = false`, `pointerFloor + 1` gives `IsPtr = true`, and the argument list
`(0x11000000, 2)` yields `[{0x11000000, IsPtr true}, {2, IsPtr false}]`. -/
theorem C5_pointer_heuristic (rej : Reject) (line : Str) :
    (∀ a ∈ (parseFunc rej {} line).1.Args.Values,
      ∃ name args t, reFunc line = some (name, args) ∧ t ∈ splitCommaSpace args ∧
        ParseUint t = some a.Value ∧ a.Value < 2 ^ 64 ∧
        (a.IsPtr = true ↔ pointerFloor < a.Value ∧ a.Value < pointerCeiling)) ∧
    pointerFloor = 0x01000000 ∧ pointerCeiling = 0xFFFFFFFFFFFFFFFF ∧
    (parseArgs line
        ["16777216".toList, "18446744073709551615".toList, "16777217".toList] {}).1.Values =
      [{ Value := 0x01000000, IsPtr := false }, { Value := 0xFFFFFFFFFFFFFFFF, IsPtr := false },
       { Value := 0x01000001, IsPtr := true }] ∧
    (parseArgs line (splitCommaSpace "0x11000000, 2".toList) {}).1.Values =
      [{ Value := 0x11000000, IsPtr := true }, { Value := 2, IsPtr := false }] ∧
    (parseFunc (fun _ => none) {} "main.func·001(0x11000000, 2)".toList).1.Args =
      { Values := [{ Value := 0x11000000, IsPtr := true }, { Value := 2, IsPtr := false }],
        Elided := false } := by
  refine ⟨?_, rfl, rfl, ?_, ?_, by decide⟩
  · unfold parseFunc
    cases hre : reFunc line with
    | none => simp
    | some p =>
      obtain ⟨name, args⟩ := p
      simp only
      cases hinit : Func.Init rej name with
      | mk f e =>
        cases e with
        | some e => simp
        | none =>
          simp only
          apply parseArgs_values line
            (fun a => ∃ name1 args1 t, some (name, args) = some (name1, args1) ∧
              t ∈ splitCommaSpace args1 ∧
              ParseUint t = some a.Value ∧ a.Value < 2 ^ 64 ∧
              (a.IsPtr = true ↔ pointerFloor < a.Value ∧ a.Value < pointerCeiling))
          · simp
          · intro t ht v hv
            exact ⟨name, args, t, rfl, ht, hv, ParseUint_lt t v hv, by simp⟩
  · simp [parseArgs, ParseUint, parseUintLoop, digitValue, pointerFloor, pointerCeiling]
  · simp [parseArgs, splitCommaSpace, ParseUint, parseUintLoop, digitValue, pointerFloor,
      pointerCeiling]

/-! ## Goroutine headers -/

theorem takeWhile_append_stop (p : Char → Bool) (a b : Str) (ha : ∀ c ∈ a, p c = true)
    (hb : ∀ c, b.head? = some c → p c = false) :
    (a ++ b).takeWhile p = a ∧ (a ++ b).dropWhile p = b := by
  induction a with
  | nil =>
    cases b with
    | nil => simp
    | cons c cs =>
      have := hb c rfl
      simp [List.takeWhile, List.dropWhile, this]
  | cons x xs ih =>
    have hx := ha x (by simp)
    have := ih (fun c hc => ha c (by simp [hc]))
    simp [List.takeWhile, List.dropWhile, hx, this]

theorem stripLit_append (lit rest : Str) : stripLit lit (lit ++ rest) = some rest := by
  induction lit with
  | nil => cases rest <;> rfl
  | cons c cs ih => simp [stripLit, ih]

theorem reRoutineHeader_headerText (indent idText descr : Str)
    (hindent : ∀ c ∈ indent, c = ' ' ∨ c = '\t')
    (hid : idText ≠ []) (hdigits : ∀ c ∈ idText, isDigit c = true)
    (hdescr : descr ≠ []) (hbr : ∀ c ∈ descr, c ≠ ']') :
    reRoutineHeader (headerText indent idText descr) = some (indent, idText, descr) := by
  have h1 := takeWhile_append_stop (fun c => c == ' ' || c == '\t') indent
    ("goroutine ".toList ++ (idText ++ (" [".toList ++ (descr ++ "]:".toList))))
    (by intro c hc; rcases hindent c hc with h | h <;> simp [h])
    (by intro c hc; simp at hc; subst hc; decide)
  have h2 := takeWhile_append_stop isDigit idText (" [".toList ++ (descr ++ "]:".toList))
    hdigits (by intro c hc; simp at hc; subst hc; decide)
  have h3 := takeWhile_append_stop (fun c => c != ']') descr "]:".toList
    (by intro c hc; simpa using hbr c hc) (by intro c hc; simp at hc; subst hc; decide)
  unfold reRoutineHeader headerText
  simp only [h1.1, h1.2, stripLit_append, h2.1, h2.2, h3.1, h3.2]
  simp [hid, hdescr]

theorem isDigit_not_sign (c : Char) (h : isDigit c = true) : c ≠ '-' ∧ c ≠ '+' := by
  constructor <;> (intro hc; subst hc; exact absurd h (by decide))

theorem Atoi_digits (m : Str) (hne : m ≠ []) (hd : ∀ c ∈ m, isDigit c = true) :
    Atoi m = (clampInt (decimalValue m), decide (decimalValue m < 2 ^ 63)) := by
  cases m with
  | nil => exact absurd rfl hne
  | cons c cs =>
    obtain ⟨h1, h2⟩ := isDigit_not_sign c (hd c (by simp))
    have hall : (c :: cs).all isDigit = true := by
      rw [List.all_eq_true]; exact hd
    have hd1 := hd c (by simp)
    have hd2 : ∀ x ∈ cs, isDigit x = true := fun x hx => hd x (by simp [hx])
    have hex : ¬ ∃ x ∈ cs, isDigit x = false := by
      rintro ⟨x, hx, hx2⟩
      rw [hd2 x hx] at hx2
      exact absurd hx2 (by decide)
    unfold Atoi clampInt
    by_cases hlt : decimalValue (c :: cs) < 9223372036854775808 <;>
      simp [h1, h2, hlt, hd1, hex]

theorem reMinutes_digits (it m : Str) (h : reMinutes it = some m) :
    m ≠ [] ∧ ∀ c ∈ m, isDigit c = true := by
  unfold reMinutes at h
  simp only at h
  split at h
  · simp at h
  · split at h
    · simp only [Option.some.injEq] at h
      subst h
      rename_i hne _
      refine ⟨by simpa using hne, ?_⟩
      intro c hc
      exact (List.mem_takeWhile_imp hc)
    · simp at h

theorem headerItems_spec (items : List Str) (sleep : Int) (locked : Bool) :
    headerItems items sleep locked =
      ((((items.filterMap reMinutes).getLast?).map (fun m => clampInt (decimalValue m))).getD sleep,
        locked || decide (lockedToThread ∈ items)) := by
  induction items generalizing sleep locked with
  | nil => simp [headerItems]
  | cons it rest ih =>
    simp only [headerItems]
    split
    · rename_i hit
      subst hit
      have : reMinutes lockedToThread = none := by decide
      rw [ih]
      simp [List.filterMap_cons, this]
    · rename_i hit
      have hmem : decide (lockedToThread ∈ it :: rest) = decide (lockedToThread ∈ rest) := by
        simp [List.mem_cons, Ne.symm hit]
      cases hm : reMinutes it with
      | none =>
        simp only
        rw [ih, hmem]
        simp [List.filterMap_cons, hm]
      | some m =>
        simp only
        obtain ⟨hne, hd⟩ := reMinutes_digits it m hm
        rw [ih, hmem, Atoi_digits m hne hd]
        simp only [List.filterMap_cons, hm]
        cases hl : (List.filterMap reMinutes rest).getLast? with
        | none =>
          have : List.filterMap reMinutes rest = [] := List.getLast?_eq_none_iff.mp hl
          simp [this]
        | some x =>
          have : (m :: List.filterMap reMinutes rest).getLast? = some x := by
            rw [List.getLast?_cons, hl]; rfl
          simp [this]

theorem headerText_getLast (pre indent idText descr : Str) :
    (pre ++ headerText indent idText descr).getLast? = some ':' := by
  unfold headerText
  have : pre ++ (indent ++ ("goroutine ".toList ++ (idText ++ (" [".toList ++
      (descr ++ "]:".toList))))) =
      (pre ++ indent ++ "goroutine ".toList ++ idText ++ " [".toList ++ descr ++ [']']) ++ [':'] := by
    simp
  rw [this, List.getLast?_append]
  simp

theorem HasSuffix_lf_false (body : Str) (h : body.getLast? = some ':') :
    HasSuffix body "\r\n".toList = false ∧ HasSuffix body "\n".toList = false := by
  constructor <;>
  · rw [Bool.eq_false_iff]
    intro hs
    simp only [HasSuffix, List.isSuffixOf_iff_suffix] at hs
    obtain ⟨u, hu⟩ := hs
    rw [← hu] at h
    simp at h

theorem scan_header_line (rej : Reject) (s : ScanningState) (body term : Str)
    (hlast : body.getLast? = some ':')
    (hterm : term = "\n".toList ∨ term = "\r\n".toList ∨
      (term = [] ∧ s.state ≠ State.normal)) :
    scan rej s (body ++ term) = scanIndent rej s (body ++ term) body := by
  have hcr : body.getLast? ≠ some '\r' := by rw [hlast]; decide
  rcases hterm with h | h | ⟨h, hst⟩
  · subst h
    obtain ⟨h3, h4, h5⟩ := chomp_lf body hcr
    unfold scan
    rw [if_neg (by rw [h3]; simp), if_pos h4, h5]
  · subst h
    obtain ⟨h1, h2⟩ := chomp_crlf body
    unfold scan
    rw [if_pos h1, h2]
  · subst h
    obtain ⟨h1, h2⟩ := HasSuffix_lf_false body hlast
    unfold scan
    simp only [List.append_nil]
    rw [if_neg (by rw [h1]; simp), if_neg (by rw [h2]; simp), if_neg hst]

theorem scanIndent_strip (rej : Reject) (s : ScanningState) (line t : Str) (ht : t ≠ []) :
    scanIndent rej s line (s.pfx ++ t) = scanState rej s line t := by
  unfold scanIndent
  by_cases hp : s.pfx = []
  · simp [hp]
  · have h1 : s.pfx ++ t ≠ [] := by simp [ht]
    have h2 : HasPrefix (s.pfx ++ t) s.pfx = true := by
      simp [HasPrefix]
    simp [h1, hp, h2]

/-- C3, as stated, fails. For the header
`goroutine 1 [sleep, 9223372036854775808 minutes]:` the field has
`n = 9223372036854775808`, and the goroutine appended has
`SleepMin = SleepMax = 9223372036854775807`. And in the state `normal` a
header without a line terminator is not recognised: it is returned for
echoing and no goroutine is appended. -/
theorem C3_counterexample :
    (scan (fun _ => none) {}
        "goroutine 1 [sleep, 9223372036854775808 minutes]:\n".toList).map
        (fun r => r.s.goroutines.map (fun g => (g.SleepMin, g.SleepMax)))
      = some [(9223372036854775807, 9223372036854775807)] ∧
    (reMinutes "9223372036854775808 minutes".toList).map decimalValue
      = some 9223372036854775808 ∧
    reRoutineHeader "goroutine 1 [running]:".toList
      = some ([], "1".toList, "running".toList) ∧
    scan (fun _ => none) {} "goroutine 1 [running]:".toList
      = some ⟨{}, "goroutine 1 [running]:".toList, none⟩ := by
  decide

/-- C3, amended: when `scan` is in state `normal` or `betweenRoutine` and the
line, after the recorded prefix, is a routine header
`<blanks>goroutine <id> [<descr>]:` whose id fits an `int` (the line being
terminated, or scanned in `betweenRoutine`), it appends exactly one goroutine
with that ID, whose `State` is the first field of `descr` split on `", "`,
whose `Locked` flag is true iff one of the later fields equals
`locked to thread`, and whose `SleepMin` and `SleepMax` are both the number
`n` of the last later field of the form `<n> minutes` when `n` fits an `int`
(`n < 2 ^ 63`), the largest `int` `2 ^ 63 - 1` when it does not, and 0 when
there is no such field, so `0 ≤ SleepMin = SleepMax`; the state becomes
`gotRoutineHeader`, nothing is echoed and no error is returned. -/
theorem C3_routine_header_amended (rej : Reject) (s : ScanningState)
    (indent idText descr term : Str)
    (hst : s.state = State.normal ∨ s.state = State.betweenRoutine)
    (hindent : ∀ c ∈ indent, c = ' ' ∨ c = '\t')
    (hid : idText ≠ []) (hdigits : ∀ c ∈ idText, isDigit c = true)
    (hfit : decimalValue idText < 2 ^ 63)
    (hdescr : descr ≠ []) (hbr : ∀ c ∈ descr, c ≠ ']')
    (hterm : term = "\n".toList ∨ term = "\r\n".toList ∨
      (term = [] ∧ s.state = State.betweenRoutine)) :
    scan rej s (s.pfx ++ headerText indent idText descr ++ term) = some
      ⟨{ s with
          goroutines := s.goroutines ++
            [{ State := (splitCommaSpace descr).headD [],
               SleepMin := clampInt (lastMinutes (splitCommaSpace descr).tail),
               SleepMax := clampInt (lastMinutes (splitCommaSpace descr).tail),
               Locked := decide (lockedToThread ∈ (splitCommaSpace descr).tail),
               ID := (decimalValue idText : Int),
               First := s.goroutines.length == 0 }],
          state := State.gotRoutineHeader,
          pfx := indent }, [], none⟩ ∧
    0 ≤ clampInt (lastMinutes (splitCommaSpace descr).tail) := by
  constructor
  · have hterm1 : term = "\n".toList ∨ term = "\r\n".toList ∨
        (term = [] ∧ s.state ≠ State.normal) := by
      rcases hterm with h | h | ⟨h, h1⟩
      · exact Or.inl h
      · exact Or.inr (Or.inl h)
      · exact Or.inr (Or.inr ⟨h, by simp [h1]⟩)
    have hne : headerText indent idText descr ≠ [] := by
      intro h
      have := headerText_getLast [] indent idText descr
      simp [h] at this
    rw [scan_header_line rej s _ term (headerText_getLast _ _ _ _) hterm1,
      scanIndent_strip rej s _ _ hne]
    have hatoi := Atoi_digits idText hid hdigits
    have hclamp : clampInt (decimalValue idText) = (decimalValue idText : Int) := by
      unfold clampInt
      rw [if_pos hfit]
    have hlast : ((((splitCommaSpace descr).tail.filterMap reMinutes).getLast?).map
        (fun m => clampInt (decimalValue m))).getD 0 =
        clampInt (lastMinutes (splitCommaSpace descr).tail) := by
      unfold lastMinutes
      cases ((splitCommaSpace descr).tail.filterMap reMinutes).getLast? <;> simp [clampInt]
    unfold scanState
    rcases hst with h | h <;>
      simp only [h, scanHeader,
        reRoutineHeader_headerText indent idText descr hindent hid hdigits hdescr hbr,
        hatoi, hfit, decide_True, if_true, headerItems_spec, hclamp, hlast] <;>
      simp
  · unfold clampInt
    split <;> omega

/-- C3 (amended) at the header of scenario S3,
`goroutine 7 [chan receive, 42 minutes, locked to thread]:`, scanned from the
initial state. -/
theorem C3_routine_header_amended_witness :
    scan (fun _ => none) {}
        "goroutine 7 [chan receive, 42 minutes, locked to thread]:\n".toList = some
      ⟨{ goroutines := [{ State := "chan receive".toList, SleepMin := 42, SleepMax := 42,
                          Locked := true, ID := 7, First := true }],
         state := State.gotRoutineHeader, pfx := [] }, [], none⟩ ∧
    (0 : Int) ≤ 42 :=
  C3_routine_header_amended (fun _ => none) {} [] "7".toList
    "chan receive, 42 minutes, locked to thread".toList "\n".toList
    (Or.inl rfl) (by decide) (by decide) (by decide) (by decide) (by decide) (by decide)
    (Or.inl rfl)

/-! ## The minimal panic of scenario S1 -/

theorem S1_header (rej : Reject) :
    scan rej {} "goroutine 1 [running]:\n".toList = some
      ⟨{ goroutines := [{ State := "running".toList, ID := 1, First := true }],
         state := State.gotRoutineHeader }, [], none⟩ := by
  rfl

theorem S1_func (rej : Reject) (hacc : rej "main.main".toList = none) :
    scan rej
        { goroutines := [{ State := "running".toList, ID := 1, First := true }],
          state := State.gotRoutineHeader }
        "main.main()\n".toList = some
      ⟨{ goroutines := [{ State := "running".toList, ID := 1, First := true,
                          Stack := { Calls := [{ Func := { Raw := "main.main".toList } }] } }],
         state := State.gotFunc }, [], none⟩ := by
  have h1 : reFunc "main.main()".toList = some ("main.main".toList, []) := by decide
  have h2 : reUnavail "main.main()".toList = false := by decide
  have h3 : ∀ s : ScanningState, s.pfx = [] → s.state ≠ State.normal →
      scan rej s "main.main()\n".toList =
        scanState rej s "main.main()\n".toList "main.main()".toList := by
    intro s hp hs
    have e1 : HasSuffix "main.main()\n".toList "\r\n".toList = false := by decide
    have e2 : HasSuffix "main.main()\n".toList "\n".toList = true := by decide
    unfold scan
    rw [if_neg (by rw [e1]; simp), if_pos e2]
    unfold scanIndent
    rw [if_neg (by simp [hp])]
    rfl
  rw [h3 _ rfl (by decide)]
  simp only [scanState, h2, scanFunc, parseFunc, h1, Func.Init, hacc]
  rfl

theorem S1_file (rej : Reject) (term : Str)
    (hterm : term = [] ∨ term = "\n".toList ∨ term = "\r\n".toList) :
    scan rej
        { goroutines := [{ State := "running".toList, ID := 1, First := true,
                           Stack := { Calls := [{ Func := { Raw := "main.main".toList } }] } }],
          state := State.gotFunc }
        ("\t/app/main.go:12 +0x20".toList ++ term) = some
      ⟨{ goroutines := [{ State := "running".toList, ID := 1, First := true,
                          Stack := { Calls := [{ Func := { Raw := "main.main".toList },
                                                  SrcPath := "/app/main.go".toList,
                                                  Line := 12 }] } }],
         state := State.gotFileFunc }, [], none⟩ := by
  rcases hterm with h | h | h <;> subst h <;> rfl

theorem IndexByte_append_lf (body rest : Str) (h : '\n' ∉ body) :
    IndexByte (body ++ '\n' :: rest) '\n' = some body.length := by
  induction body with
  | nil => simp [IndexByte]
  | cons c cs ih =>
    have hc : c ≠ '\n' := fun hc => h (by simp [hc])
    have := ih (fun hm => h (by simp [hm]))
    simp [IndexByte, hc, this]

theorem scannerNext_line (body rest : Str) (h : '\n' ∉ body)
    (hlen : body.length < maxScanTokenSize) :
    scannerNext (body ++ '\n' :: rest) = some (body ++ ['\n'], rest) := by
  have hwin : (body ++ '\n' :: rest).take maxScanTokenSize =
      body ++ '\n' :: rest.take (maxScanTokenSize - body.length - 1) := by
    rw [List.take_append_eq_append_take, List.take_of_length_le (by omega)]
    congr 1
    obtain ⟨k, hk⟩ : ∃ k, maxScanTokenSize - body.length = k + 1 :=
      ⟨maxScanTokenSize - body.length - 1, by omega⟩
    rw [hk, List.take_succ_cons]
    simp
  unfold scannerNext scanLines
  rw [hwin, IndexByte_append_lf body _ h]
  have h0 : (decide ((body ++ '\n' :: rest).length ≤ maxScanTokenSize) &&
      (body ++ '\n' :: List.take (maxScanTokenSize - body.length - 1) rest).length == 0) = false := by
    simp
  rw [h0]
  have htk : List.take (body.length + 1)
      (body ++ '\n' :: List.take (maxScanTokenSize - body.length - 1) rest) = body ++ ['\n'] := by
    rw [List.take_append_eq_append_take, List.take_of_length_le (by omega)]
    simp
  have hdr : List.drop (body.length + 1) (body ++ '\n' :: rest) = rest := by
    rw [List.drop_append_eq_append_drop, List.drop_of_length_le (by omega)]
    simp
  simp only [Bool.false_eq_true, if_false, htk, hdr]

theorem scanTokens_fuel (fuel : Nat) (rest : Str) (h : rest.length ≤ fuel) :
    scanTokens fuel rest = scanTokens rest.length rest := by
  induction fuel using Nat.strong_induction_on generalizing rest with
  | _ fuel ih =>
    cases rest with
    | nil => cases fuel <;> simp [scanTokens, scannerNext_nil]
    | cons c cs =>
      obtain ⟨tok, rest1, hnext, hne, happ⟩ := scannerNext_cons c cs
      have hl : rest1.length < (c :: cs).length := by
        have := congrArg List.length happ
        have hpos : 0 < tok.length := List.length_pos.mpr hne
        simp at this ⊢
        omega
      cases fuel with
      | zero => simp at h
      | succ n =>
        simp only [List.length_cons] at hl h ⊢
        simp only [scanTokens, hnext]
        rw [ih n (by omega) rest1 (by omega), ih cs.length (by omega) rest1 (by omega)]

theorem scannedLines_append (junk : List Str) (tail : Str)
    (hjunk : ∀ l ∈ junk, ∃ body, l = body ++ "\n".toList ∧ '\n' ∉ body ∧
      body.length < maxScanTokenSize) :
    scannedLines (junk.flatten ++ tail) = junk ++ scannedLines tail := by
  induction junk with
  | nil => simp
  | cons l ls ih =>
    obtain ⟨body, hl, hnl, hlen⟩ := hjunk l (by simp)
    have ih1 := ih (fun x hx => hjunk x (by simp [hx]))
    subst hl
    unfold scannedLines at ih1 ⊢
    have hshape : ((body ++ "\n".toList) :: ls).flatten ++ tail =
        body ++ '\n' :: (ls.flatten ++ tail) := by simp
    rw [hshape]
    have hlen2 : (body ++ '\n' :: (ls.flatten ++ tail)).length =
        (body.length + (ls.flatten ++ tail).length) + 1 := by
      simp; omega
    rw [hlen2]
    simp only [scanTokens, scannerNext_line body _ hnl hlen]
    rw [scanTokens_fuel _ _ (by omega), ih1]
    simp

/-- C2, amended: for every sequence `junk` of newline-terminated lines, each
of at most `bufio.MaxScanTokenSize` (65536) bytes with its line feed (a body
without line feed, shorter than that size, followed by a line feed), none of
which is recognised as a goroutine header, and the function name `main.main`
being accepted by `Func.Init`, `parseDump` on `junk` followed by the lines
`goroutine 1 [running]:`, `main.main()` and `<tab>/app/main.go:12 +0x20` (the
last one with or without a line terminator) returns no error and exactly one
goroutine, with ID 1, State `running`, `First = true` and a stack of exactly
one call: function `main.main`, no argument values, `SrcPath` `/app/main.go`,
line 12; the sink receives exactly `junk`. -/
theorem C2_minimal_panic (rej : Reject) (junk : List Str) (term : Str)
    (hacc : rej "main.main".toList = none)
    (hjunk : ∀ l ∈ junk, ∃ body, l = body ++ "\n".toList ∧ '\n' ∉ body ∧
      body.length < maxScanTokenSize)
    (hno : ∀ l ∈ junk, reRoutineHeader (chomp l) = none)
    (hterm : term = [] ∨ term = "\n".toList ∨ term = "\r\n".toList) :
    parseDump rej (junk.flatten ++
        ("goroutine 1 [running]:\nmain.main()\n\t/app/main.go:12 +0x20".toList ++ term)) = some
      ⟨[{ State := "running".toList, ID := 1, First := true,
          Stack := { Calls := [{ Func := { Raw := "main.main".toList },
                                  Args := { Values := [], Elided := false },
                                  SrcPath := "/app/main.go".toList,
                                  Line := 12 }] } }],
        none, junk.flatten⟩ := by
  have htoks : scannedLines
      ("goroutine 1 [running]:\nmain.main()\n\t/app/main.go:12 +0x20".toList ++ term) =
      ["goroutine 1 [running]:\n".toList, "main.main()\n".toList,
        "\t/app/main.go:12 +0x20".toList ++ term] := by
    rcases hterm with h | h | h <;> subst h <;> decide
  have hlines := scannedLines_append junk
    ("goroutine 1 [running]:\nmain.main()\n\t/app/main.go:12 +0x20".toList ++ term) hjunk
  unfold scannedLines at hlines htoks
  unfold parseDump
  rw [hlines, htoks, parseDumpLoop_junk rej {} junk [] rfl rfl rfl hno]
  simp only [parseDumpLoop, S1_header rej, S1_func rej hacc, S1_file rej term hterm]
  simp

/-- C2 (amended) at scenario S1: the junk is `panic: boom` and an empty line,
every function name is accepted, and the last line has no line feed. -/
theorem C2_minimal_panic_witness :
    parseDump (fun _ => none)
        "panic: boom\n\ngoroutine 1 [running]:\nmain.main()\n\t/app/main.go:12 +0x20".toList
      = some
      ⟨[{ State := "running".toList, ID := 1, First := true,
          Stack := { Calls := [{ Func := { Raw := "main.main".toList },
                                  Args := { Values := [], Elided := false },
                                  SrcPath := "/app/main.go".toList,
                                  Line := 12 }] } }],
        none, "panic: boom\n\n".toList⟩ :=
  C2_minimal_panic (fun _ => none) ["panic: boom\n".toList, "\n".toList] [] rfl
    (by
      intro l hl
      simp only [List.mem_cons, List.mem_singleton, List.not_mem_nil, or_false] at hl
      rcases hl with h | h
      · exact ⟨"panic: boom".toList, h, by decide, by decide⟩
      · exact ⟨[], h, by decide, by decide⟩)
    (by decide) (Or.inl rfl)

/-! ## Indented traces -/

set_option maxRecDepth 100000 in
/-- C6 at a failing input: a trace of two goroutine blocks, as printed and with
two spaces before every non-empty line, every function name being accepted.
Unindented, the second goroutine has the call `main.worker` at
`/app/main.go:30` and is created by `main.main`. Indented, its function is
`  main.worker`, its source path starts with a tab, its `created by` is lost
and two lines are echoed: the header of the second block is matched after the
recorded prefix has been removed, so the prefix recorded for that block is
empty (for every behaviour of `Func.Init`). -/
theorem C6_indentation_lost_in_second_block :
    parseDump (fun _ => none)
        "goroutine 1 [running]:\nmain.main()\n\t/app/main.go:12 +0x20\n\ngoroutine 2 [chan receive]:\nmain.worker()\n\t/app/main.go:30 +0x10\ncreated by main.main\n\t/app/main.go:10 +0x5\n".toList
      = some
      ⟨[{ State := "running".toList, ID := 1, First := true,
          Stack := { Calls := [{ Func := { Raw := "main.main".toList },
                                  SrcPath := "/app/main.go".toList, Line := 12 }] } },
        { State := "chan receive".toList, ID := 2, First := false,
          Stack := { Calls := [{ Func := { Raw := "main.worker".toList },
                                  SrcPath := "/app/main.go".toList, Line := 30 }] },
          CreatedBy := { Func := { Raw := "main.main".toList },
                         SrcPath := "/app/main.go".toList, Line := 10 } }],
        none, []⟩ ∧
    parseDump (fun _ => none)
        "  goroutine 1 [running]:\n  main.main()\n  \t/app/main.go:12 +0x20\n\n  goroutine 2 [chan receive]:\n  main.worker()\n  \t/app/main.go:30 +0x10\n  created by main.main\n  \t/app/main.go:10 +0x5\n".toList
      = some
      ⟨[{ State := "running".toList, ID := 1, First := true,
          Stack := { Calls := [{ Func := { Raw := "main.main".toList },
                                  SrcPath := "/app/main.go".toList, Line := 12 }] } },
        { State := "chan receive".toList, ID := 2, First := false,
          Stack := { Calls := [{ Func := { Raw := "  main.worker".toList },
                                  SrcPath := "\t/app/main.go".toList, Line := 30 }] } }],
        none, "  created by main.main\n  \t/app/main.go:10 +0x5\n".toList⟩ ∧
    ∀ rej : Reject,
      scan rej
          { goroutines := [{ State := "running".toList, ID := 1, First := true,
                             Stack := { Calls := [{ Func := { Raw := "main.main".toList },
                                                     SrcPath := "/app/main.go".toList,
                                                     Line := 12 }] } }],
            state := State.betweenRoutine, pfx := "  ".toList }
          "  goroutine 2 [chan receive]:\n".toList
        = some
        ⟨{ goroutines := [{ State := "running".toList, ID := 1, First := true,
                            Stack := { Calls := [{ Func := { Raw := "main.main".toList },
                                                    SrcPath := "/app/main.go".toList,
                                                    Line := 12 }] } },
                          { State := "chan receive".toList, ID := 2, First := false }],
           state := State.gotRoutineHeader, pfx := [] }, [], none⟩ := by
  refine ⟨by decide, by decide, fun rej => rfl⟩

/-! ## Lines as the switch of `scan` sees them -/

theorem scan_stripped (rej : Reject) (s : ScanningState) (line t : Str)
    (hst : s.state ≠ State.normal) (ht : strippedLine s line = some t) :
    scan rej s line = scanState rej s line t := by
  rw [scan_eq_scanIndent rej s line (Or.inl hst)]
  unfold strippedLine at ht
  unfold scanIndent
  split at ht
  · rename_i hc
    rw [if_pos hc]
    split at ht
    · rename_i hp
      simp only [Option.some.injEq] at ht
      subst ht
      simp [hp]
    · simp at ht
  · rename_i hc
    rw [if_neg hc]
    simp only [Option.some.injEq] at ht
    subst ht
    rfl

theorem Reachable_inv {rej : Reject} {s : ScanningState} (h : Reachable rej s) : Inv s := by
  induction h with
  | init => exact Inv_init
  | step s line r _ hr ih =>
    obtain ⟨r1, hr1, hstep⟩ := scan_step rej s line ih
    rw [hr] at hr1
    simp only [Option.some.injEq] at hr1
    subst hr1
    exact Step_inv ih hstep

/-! ## Lines that no continuation matches -/

theorem parseFunc_none (rej : Reject) (c : Call) (t : Str) (h : reFunc t = none) :
    parseFunc rej c t = (c, false, none) := by
  simp [parseFunc, h]

theorem parseFile_none (c : Call) (t : Str) (h : reFile t = none) :
    parseFile c t = (c, false, none) := by
  simp [parseFile, h]

/-- C11, as stated, fails: in the state `gotRoutineHeader` the line `hello`,
which is neither the unavailable marker nor a function call, makes `scan`
return the error `expected a function after a goroutine header`; nothing is
echoed and the state stays `gotRoutineHeader`. -/
theorem C11_counterexample :
    accepts State.gotRoutineHeader "hello".toList = false ∧
    scan (fun _ => none)
        { goroutines := [{ State := "running".toList, ID := 1, First := true }],
          state := State.gotRoutineHeader }
        "hello\n".toList = some
      ⟨{ goroutines := [{ State := "running".toList, ID := 1, First := true }],
         state := State.gotRoutineHeader }, [],
        some ⟨"expected a function after a goroutine header, got: %q", ["hello".toList]⟩⟩ := by
  decide

/-- C11, amended: when the correctly indented line matches none of the
continuations the state accepts, `scan` returns no error, returns the line for
echoing and sets the state to `normal` (clearing the prefix) in the states
`gotFileFunc` and `gotFileCreated`; in the states `gotRoutineHeader`,
`gotUnavail`, `gotFunc` and `gotCreated` (the last two with a current
goroutine, which has a call in `gotFunc`) it returns an error naming the line
(`expected a function after a goroutine header`, `expected empty line after
unavailable stack`, `expected a file after a function`, `expected a file after
a created line`), echoes nothing and leaves the scanning state as it was. -/
theorem C11_mismatch_amended (rej : Reject) (s : ScanningState) (line t : Str)
    (ht : strippedLine s line = some t) (hno : accepts s.state t = false) :
    ((s.state = State.gotFileFunc ∨ s.state = State.gotFileCreated) →
      scan rej s line = some ⟨{ s with state := State.normal, pfx := [] }, line, none⟩) ∧
    (s.state = State.gotRoutineHeader →
      scan rej s line = some ⟨s, [],
        some ⟨"expected a function after a goroutine header, got: %q", [TrimSpace t]⟩⟩) ∧
    (s.state = State.gotUnavail →
      scan rej s line = some ⟨s, [],
        some ⟨"expected empty line after unavailable stack, got: %q", [TrimSpace t]⟩⟩) ∧
    (s.state = State.gotFunc →
      (∃ g, s.goroutines.getLast? = some g ∧ g.Stack.Calls ≠ []) →
      scan rej s line = some ⟨s, [],
        some ⟨"expected a file after a function, got: %q", [TrimSpace t]⟩⟩) ∧
    (s.state = State.gotCreated → s.goroutines ≠ [] →
      scan rej s line = some ⟨s, [],
        some ⟨"expected a file after a created line, got: %q", [t]⟩⟩) := by
  refine ⟨?_, ?_, ?_, ?_, ?_⟩
  · intro hst
    rcases hst with hst | hst
    · rw [scan_stripped rej s line t (by simp [hst]) ht]
      simp only [hst, accepts, Bool.or_eq_false_iff, decide_eq_false_iff_not] at hno
      obtain ⟨⟨⟨h1, h2⟩, h3⟩, h4⟩ := hno
      have h1' : reCreated t = none := by simpa using h1
      have h3' : reFunc t = none := by simpa using h3
      simp only [scanState, hst, h1', if_neg h2, scanFunc, parseFunc_none rej _ t h3', if_neg h4]
    · rw [scan_stripped rej s line t (by simp [hst]) ht]
      simp only [hst, accepts, decide_eq_false_iff_not] at hno
      simp only [scanState, hst, if_neg hno]
  · intro hst
    rw [scan_stripped rej s line t (by simp [hst]) ht]
    simp only [hst, accepts, Bool.or_eq_false_iff] at hno
    have h2 : reFunc t = none := by simpa using hno.2
    simp only [scanState, hst, hno.1, Bool.false_eq_true, if_false, scanFunc,
      parseFunc_none rej _ t h2]
  · intro hst
    rw [scan_stripped rej s line t (by simp [hst]) ht]
    simp only [hst, accepts, Bool.or_eq_false_iff, decide_eq_false_iff_not] at hno
    have h2 : reCreated t = none := by simpa using hno.2
    simp only [scanState, hst, if_neg hno.1, h2]
  · intro hst hg
    obtain ⟨g, hg, hc⟩ := hg
    rw [scan_stripped rej s line t (by simp [hst]) ht]
    simp only [hst, accepts] at hno
    have h2 : reFile t = none := by simpa using hno
    obtain ⟨c, hcl⟩ : ∃ c, g.Stack.Calls.getLast? = some c := by
      cases h : g.Stack.Calls.getLast? with
      | none => exact absurd (List.getLast?_eq_none_iff.mp h) hc
      | some c => exact ⟨c, rfl⟩
    simp only [scanState, hst, scanFile, hg, hcl, parseFile_none _ t h2]
  · intro hst hg
    rw [scan_stripped rej s line t (by simp [hst]) ht]
    simp only [hst, accepts] at hno
    have h2 : reFile t = none := by simpa using hno
    obtain ⟨g, hgl⟩ : ∃ g, s.goroutines.getLast? = some g := by
      cases h : s.goroutines.getLast? with
      | none => exact absurd (List.getLast?_eq_none_iff.mp h) hg
      | some g => exact ⟨g, rfl⟩
    simp only [scanState, hst, hgl, parseFile_none _ t h2]

/-- C11 (amended) at the line `hello`, indented by a tab as recorded, in the
state `gotFileFunc` (echoed, back to `normal`) and in the state `gotUnavail`
(an error). -/
theorem C11_mismatch_amended_witness :
    scan (fun _ => none)
        { goroutines := [{ State := "running".toList, ID := 1, First := true,
                           Stack := { Calls := [{ Func := { Raw := "main.main".toList },
                                                   SrcPath := "/app/main.go".toList,
                                                   Line := 12 }] } }],
          state := State.gotFileFunc, pfx := "\t".toList }
        "\thello\n".toList = some
      ⟨{ goroutines := [{ State := "running".toList, ID := 1, First := true,
                          Stack := { Calls := [{ Func := { Raw := "main.main".toList },
                                                  SrcPath := "/app/main.go".toList,
                                                  Line := 12 }] } }],
         state := State.normal, pfx := [] }, "\thello\n".toList, none⟩ ∧
    scan (fun _ => none)
        { goroutines := [{ State := "running".toList, ID := 1, First := true,
                           Stack := { Calls := [{ SrcPath := "<unavailable>".toList }] } }],
          state := State.gotUnavail, pfx := "\t".toList }
        "\thello\n".toList = some
      ⟨{ goroutines := [{ State := "running".toList, ID := 1, First := true,
                          Stack := { Calls := [{ SrcPath := "<unavailable>".toList }] } }],
         state := State.gotUnavail, pfx := "\t".toList }, [],
        some ⟨"expected empty line after unavailable stack, got: %q", ["hello".toList]⟩⟩ :=
  ⟨(C11_mismatch_amended (fun _ => none)
      { goroutines := [{ State := "running".toList, ID := 1, First := true,
                         Stack := { Calls := [{ Func := { Raw := "main.main".toList },
                                                 SrcPath := "/app/main.go".toList,
                                                 Line := 12 }] } }],
        state := State.gotFileFunc, pfx := "\t".toList }
      "\thello\n".toList "hello".toList (by decide) (by decide)).1 (Or.inl rfl),
   (C11_mismatch_amended (fun _ => none)
      { goroutines := [{ State := "running".toList, ID := 1, First := true,
                         Stack := { Calls := [{ SrcPath := "<unavailable>".toList }] } }],
        state := State.gotUnavail, pfx := "\t".toList }
      "\thello\n".toList "hello".toList (by decide) (by decide)).2.2.1 rfl⟩

/-! ## Errors stop the parse -/

theorem scanHeader_err (s : ScanningState) (line t : Str) : (scanHeader s line t).err = none := by
  unfold scanHeader
  repeat' split
  all_goals rfl

theorem scanState_err_out {rej : Reject} {s : ScanningState} {line t : Str} {r : ScanResult}
    (h : scanState rej s line t = some r) (he : r.err ≠ none) : r.out = [] := by
  unfold scanState at h
  split at h
  case h_1 | h_2 =>
    simp only [Option.some.injEq] at h
    subst h
    exact absurd (scanHeader_err s line t) he
  all_goals
    repeat' split at h
  all_goals
    first
    | exact scanFile_out h
    | exact scanCreated_out h
    | exact scanRaceCreate_out h
    | (simp only [Option.some.injEq] at h
       subst h
       first
       | rfl
       | exact absurd rfl he
       | exact scanFunc_out (by assumption)
       | exact scanRaceGoroutine_out _ _)
    | (simp at h)

/-- Whatever the state, a call of `scan` that returns an error returns nothing
for echoing. -/
theorem scan_err_out {rej : Reject} {s : ScanningState} {line : Str} {r : ScanResult}
    (h : scan rej s line = some r) (he : r.err ≠ none) : r.out = [] := by
  unfold scan at h
  have hind : ∀ t, scanIndent rej s line t = some r → r.out = [] := by
    intro t ht
    unfold scanIndent at ht
    repeat' split at ht
    · simp only [Option.some.injEq] at ht; subst ht; rfl
    · exact scanState_err_out ht he
    · exact scanState_err_out ht he
  repeat' split at h
  · exact hind _ h
  · exact hind _ h
  · simp only [Option.some.injEq] at h; subst h; exact absurd rfl he
  · exact hind _ h

set_option maxRecDepth 100000 in
/-- C12, as stated, fails: on the input `goroutine 1 [running]:`, `hello`,
`bye`, `goroutine 2 [running]:`, `main.main()`, `<tab>/app/main.go:12 +0x20`
the line `hello` makes `scan` return an error, and `parseDump` returns at once
with goroutine 1 alone: `bye` is not written to the sink and goroutine 2 is
not parsed. -/
theorem C12_counterexample :
    parseDump (fun _ => none)
        "goroutine 1 [running]:\nhello\nbye\ngoroutine 2 [running]:\nmain.main()\n\t/app/main.go:12 +0x20\n".toList
      = some
      ⟨[{ State := "running".toList, ID := 1, First := true }],
        some ⟨"expected a function after a goroutine header, got: %q", ["hello".toList]⟩,
        []⟩ := by
  decide

/-- C12, amended: after a call of `scan` returns a parse error, `parseDump`
stops. Its loop returns the scanning state that call left (so the goroutines
parsed so far) with that error, whatever lines follow: the offending line and
the lines after it are not written to the sink, and the headers that follow
are not parsed. -/
theorem C12_stops_at_first_error (rej : Reject) (s : ScanningState) (line : Str)
    (r : ScanResult) (e : Err) (rest : List Str) (out : Str)
    (hr : scan rej s line = some r) (he : r.err = some e) :
    parseDumpLoop rej s (line :: rest) out = some ⟨r.s, some e, out⟩ := by
  have hout : r.out = [] := scan_err_out hr (by simp [he])
  simp [parseDumpLoop, hr, he, hout]

/-- C12 (amended) at the state after the header of goroutine 1, the line
`hello` and a following header of goroutine 2, with `junk` already written. -/
theorem C12_stops_at_first_error_witness :
    parseDumpLoop (fun _ => none)
        { goroutines := [{ State := "running".toList, ID := 1, First := true }],
          state := State.gotRoutineHeader }
        ["hello\n".toList, "goroutine 2 [running]:\n".toList] "junk\n".toList = some
      ⟨{ goroutines := [{ State := "running".toList, ID := 1, First := true }],
         state := State.gotRoutineHeader },
        some ⟨"expected a function after a goroutine header, got: %q", ["hello".toList]⟩,
        "junk\n".toList⟩ :=
  C12_stops_at_first_error (fun _ => none)
    { goroutines := [{ State := "running".toList, ID := 1, First := true }],
      state := State.gotRoutineHeader }
    "hello\n".toList
    ⟨{ goroutines := [{ State := "running".toList, ID := 1, First := true }],
       state := State.gotRoutineHeader }, [],
      some ⟨"expected a function after a goroutine header, got: %q", ["hello".toList]⟩⟩
    ⟨"expected a function after a goroutine header, got: %q", ["hello".toList]⟩
    ["goroutine 2 [running]:\n".toList] "junk\n".toList
    (by decide) rfl

/-! ## Function-call lines -/

theorem ParseUint_nil : ParseUint [] = none := by decide

theorem ParseUint_dots : ParseUint dots = none := by decide

theorem parseFunc_accepted (rej : Reject) (c : Call) (t name args : Str)
    (hre : reFunc t = some (name, args)) (hacc : rej name = none) :
    parseFunc rej c t =
      ({ c with Func := { Raw := name },
                Args := (parseArgs t (splitCommaSpace args) c.Args).1 }, true,
        (parseArgs t (splitCommaSpace args) c.Args).2) := by
  simp [parseFunc, hre, Func.Init, hacc]

/-- The step of `scan` on a function-call line whose name is accepted, in the
states that give the line to `parseFunc`: the call is appended to the stack of
the current goroutine and the state becomes `gotFunc`, whether or not the
arguments parse; the error is the one of the arguments. -/
theorem scanState_func (rej : Reject) (s : ScanningState) (line t name args : Str)
    (gs : List Goroutine) (g : Goroutine) (hgs : s.goroutines = gs ++ [g])
    (hst : (s.state = State.gotRoutineHeader ∧ reUnavail t = false) ∨
      (s.state = State.gotFileFunc ∧ reCreated t = none))
    (hre : reFunc t = some (name, args)) (hacc : rej name = none) :
    scanState rej s line t = some
      ⟨{ s with
          goroutines := gs ++
            [{ g with Stack := { g.Stack with Calls := g.Stack.Calls ++
                [{ Func := { Raw := name },
                   Args := (parseArgs t (splitCommaSpace args) {}).1 }] } }],
          state := State.gotFunc }, [], (parseArgs t (splitCommaSpace args) {}).2⟩ := by
  have hsf : scanFunc rej s t State.gotFunc = some (some
      ⟨{ s with
          goroutines := gs ++
            [{ g with Stack := { g.Stack with Calls := g.Stack.Calls ++
                [{ Func := { Raw := name },
                   Args := (parseArgs t (splitCommaSpace args) {}).1 }] } }],
          state := State.gotFunc }, [], (parseArgs t (splitCommaSpace args) {}).2⟩) := by
    simp only [scanFunc, parseFunc_accepted rej {} t name args hre hacc, updateCur, hgs,
      List.getLast?_append, List.getLast?_singleton, Option.or_some, List.dropLast_concat]
  rcases hst with ⟨hst, hun⟩ | ⟨hst, hcr⟩
  · simp only [scanState, hst, hun, Bool.false_eq_true, if_false, hsf]
  · have hel : ¬ elided = t := by
      intro h
      have : reFunc elided = none := by decide
      rw [h, hre] at this
      exact absurd this (by simp)
    simp only [scanState, hst, hcr, if_neg hel, hsf]

theorem parseArgs_bad (line : Str) (pre post : List Str) (bad : Str) (a : Args)
    (hpre : [] ∉ pre) (hne : bad ≠ []) (hdots : bad ≠ dots) (hbad : ParseUint bad = none) :
    ∃ a1, parseArgs line (pre ++ bad :: post) a =
      (a1, some ⟨"failed to parse int on line: %q", [TrimSpace line]⟩) := by
  induction pre generalizing a with
  | nil =>
    refine ⟨a, ?_⟩
    simp only [List.nil_append, parseArgs]
    rw [if_neg (by simpa [dots] using hdots), if_neg hne, hbad]
  | cons t ts ih =>
    have hts : [] ∉ ts := fun h => hpre (by simp [h])
    have ht : t ≠ [] := fun h => hpre (by simp [h])
    simp only [List.cons_append, parseArgs]
    by_cases hd : t = "...".toList
    · rw [if_pos hd]; exact ih _ hts
    · rw [if_neg hd, if_neg ht]
      cases hp : ParseUint t with
      | none => exact ⟨a, rfl⟩
      | some v => exact ih _ hts

/-- The loop of `parseFunc` over tokens that are `...` or parse as numbers:
their values are recorded in order and `Elided` is set if `...` is among
them; the loop goes on with the tokens that follow. -/
theorem parseArgs_numeric (line : Str) (pre rest : List Str) (a : Args)
    (hpre : ∀ t ∈ pre, t = dots ∨ (ParseUint t).isSome = true) :
    parseArgs line (pre ++ rest) a =
      parseArgs line rest
        { Values := a.Values ++ (pre.filterMap ParseUint).map argOf,
          Elided := a.Elided || decide (dots ∈ pre) } := by
  induction pre generalizing a with
  | nil => simp
  | cons t ts ih =>
    have hts : ∀ x ∈ ts, x = dots ∨ (ParseUint x).isSome = true :=
      fun x hx => hpre x (by simp [hx])
    simp only [List.cons_append, parseArgs]
    by_cases hd : t = "...".toList
    · rw [if_pos hd]
      simp only [List.append_eq]
      rw [ih _ hts]
      have h1 : ParseUint t = none := by rw [hd]; exact ParseUint_dots
      have h2 : dots = t := hd.symm
      simp [List.filterMap_cons, h1, h2]
    · have hsome : (ParseUint t).isSome = true := by
        rcases hpre t (by simp) with h | h
        · exact absurd h hd
        · exact h
      have hne : t ≠ [] := by
        intro h
        rw [h, ParseUint_nil] at hsome
        simp at hsome
      rw [if_neg hd, if_neg hne]
      cases hp : ParseUint t with
      | none => rw [hp] at hsome; simp at hsome
      | some v =>
        simp only [List.append_eq]
        rw [ih _ hts]
        have h2 : ¬ dots = t := fun h => hd h.symm
        simp [List.filterMap_cons, hp, h2, argOf]

/-- C13: for every function-call line `t` (`reFunc` matches it) whose function
name is accepted and whose `", "`-split argument list has, before any empty
token, a token other than `...` that does not parse as an unsigned 64-bit
integer in base 0, `parseFunc` returns found = true with the error `failed to
parse int on line` naming the line trimmed of surrounding whitespace; and in
the states that give the line to `parseFunc` (`gotRoutineHeader` when the line
is not the unavailable marker, `gotFileFunc` when it is not a `created by`
line), `scan` returns that error, echoing nothing, and `parseDump` stops and
returns it. -/
theorem C13_bad_argument (rej : Reject) (t name args : Str) (pre post : List Str) (bad : Str)
    (hre : reFunc t = some (name, args)) (hacc : rej name = none)
    (hsplit : splitCommaSpace args = pre ++ bad :: post)
    (hpre : [] ∉ pre) (hne : bad ≠ []) (hdots : bad ≠ dots) (hbad : ParseUint bad = none) :
    (parseFunc rej {} t).2 =
      (true, some ⟨"failed to parse int on line: %q", [TrimSpace t]⟩) ∧
    ∀ (s : ScanningState) (line : Str) (gs : List Goroutine) (g : Goroutine),
      s.goroutines = gs ++ [g] → strippedLine s line = some t →
      ((s.state = State.gotRoutineHeader ∧ reUnavail t = false) ∨
        (s.state = State.gotFileFunc ∧ reCreated t = none)) →
      ∃ r, scan rej s line = some r ∧ r.out = [] ∧
        r.err = some ⟨"failed to parse int on line: %q", [TrimSpace t]⟩ ∧
        ∀ rest out, parseDumpLoop rej s (line :: rest) out =
          some ⟨r.s, some ⟨"failed to parse int on line: %q", [TrimSpace t]⟩, out⟩ := by
  obtain ⟨a1, ha1⟩ := parseArgs_bad t pre post bad {} hpre hne hdots hbad
  have herr : (parseArgs t (splitCommaSpace args) {}).2 =
      some ⟨"failed to parse int on line: %q", [TrimSpace t]⟩ := by
    rw [hsplit, ha1]
  constructor
  · rw [parseFunc_accepted rej {} t name args hre hacc]
    simp only [herr]
  · intro s line gs g hgs hstr hst
    have hnn : s.state ≠ State.normal := by
      rcases hst with ⟨h, -⟩ | ⟨h, -⟩ <;> simp [h]
    have hscan := scanState_func rej s line t name args gs g hgs hst hre hacc
    rw [← scan_stripped rej s line t hnn hstr, herr] at hscan
    refine ⟨_, hscan, rfl, rfl, ?_⟩
    intro rest out
    simp [parseDumpLoop, hscan]

/-- C13 at the line `main.f(1, zz)`, scanned after the header of goroutine
1. -/
theorem C13_bad_argument_witness :
    (parseFunc (fun _ => none) {} "main.f(1, zz)".toList).2 =
      (true, some ⟨"failed to parse int on line: %q", ["main.f(1, zz)".toList]⟩) ∧
    ∃ r, scan (fun _ => none)
        { goroutines := [{ State := "running".toList, ID := 1, First := true }],
          state := State.gotRoutineHeader }
        "main.f(1, zz)\n".toList = some r ∧ r.out = [] ∧
      r.err = some ⟨"failed to parse int on line: %q", ["main.f(1, zz)".toList]⟩ ∧
      ∀ rest out, parseDumpLoop (fun _ => none)
          { goroutines := [{ State := "running".toList, ID := 1, First := true }],
            state := State.gotRoutineHeader }
          ("main.f(1, zz)\n".toList :: rest) out =
        some ⟨r.s, some ⟨"failed to parse int on line: %q", ["main.f(1, zz)".toList]⟩, out⟩ :=
  ⟨(C13_bad_argument (fun _ => none) "main.f(1, zz)".toList "main.f".toList "1, zz".toList
      ["1".toList] [] "zz".toList (by decide) rfl (by decide) (by decide) (by decide)
      (by decide) (by decide)).1,
   (C13_bad_argument (fun _ => none) "main.f(1, zz)".toList "main.f".toList "1, zz".toList
      ["1".toList] [] "zz".toList (by decide) rfl (by decide) (by decide) (by decide)
      (by decide) (by decide)).2
      { goroutines := [{ State := "running".toList, ID := 1, First := true }],
        state := State.gotRoutineHeader }
      "main.f(1, zz)\n".toList []
      { State := "running".toList, ID := 1, First := true } rfl (by decide)
      (Or.inl ⟨rfl, by decide⟩)⟩

/-- C14, as stated, fails: in the state `gotRoutineHeader`, where the stack of
the current goroutine has no call, the line `main.f(1, zz)` makes `scan` return
the error `failed to parse int on line`, and after the call the stack holds
the partially built call (function `main.f`, the value 1) and the state is
`gotFunc`. -/
theorem C14_counterexample :
    scan (fun _ => none)
        { goroutines := [{ State := "running".toList, ID := 1, First := true,
                           Stack := { Calls := [] } }],
          state := State.gotRoutineHeader }
        "main.f(1, zz)\n".toList = some
      ⟨{ goroutines := [{ State := "running".toList, ID := 1, First := true,
                          Stack := { Calls := [{ Func := { Raw := "main.f".toList },
                                                  Args := { Values := [{ Value := 1 }] } }] } }],
         state := State.gotFunc }, [],
        some ⟨"failed to parse int on line: %q", ["main.f(1, zz)".toList]⟩⟩ := by
  decide

/-- C14, amended: when an argument of a function-call line (with an accepted
function name) fails numeric parsing in state `gotRoutineHeader` or
`gotFileFunc`, the tokens before it being numbers or `...`, the partially
built call is kept: `scan` appends to the stack of the current goroutine the
call with the function name and the values parsed before the failing token
(`Elided` set if `...` is among those tokens), sets the state to `gotFunc`,
echoes nothing and returns the error; the earlier calls and everything else
are unchanged. -/
theorem C14_partial_call_kept (rej : Reject) (s : ScanningState) (line t name args : Str)
    (pre post : List Str) (bad : Str) (gs : List Goroutine) (g : Goroutine)
    (hgs : s.goroutines = gs ++ [g]) (hstr : strippedLine s line = some t)
    (hst : (s.state = State.gotRoutineHeader ∧ reUnavail t = false) ∨
      (s.state = State.gotFileFunc ∧ reCreated t = none))
    (hre : reFunc t = some (name, args)) (hacc : rej name = none)
    (hsplit : splitCommaSpace args = pre ++ bad :: post)
    (hpre : ∀ x ∈ pre, x = dots ∨ (ParseUint x).isSome = true)
    (hne : bad ≠ []) (hdots : bad ≠ dots) (hbad : ParseUint bad = none) :
    scan rej s line = some
      ⟨{ s with
          goroutines := gs ++
            [{ g with Stack := { g.Stack with Calls := g.Stack.Calls ++
                [{ Func := { Raw := name },
                   Args := { Values := (pre.filterMap ParseUint).map argOf,
                             Elided := decide (dots ∈ pre) } }] } }],
          state := State.gotFunc }, [],
        some ⟨"failed to parse int on line: %q", [TrimSpace t]⟩⟩ := by
  have hnn : s.state ≠ State.normal := by
    rcases hst with ⟨h, -⟩ | ⟨h, -⟩ <;> simp [h]
  have hargs : parseArgs t (splitCommaSpace args) {} =
      ({ Values := (pre.filterMap ParseUint).map argOf, Elided := decide (dots ∈ pre) },
        some ⟨"failed to parse int on line: %q", [TrimSpace t]⟩) := by
    rw [hsplit, parseArgs_numeric t pre (bad :: post) {} hpre]
    simp only [parseArgs]
    rw [if_neg (by simpa [dots] using hdots), if_neg hne, hbad]
    simp
  have hscan := scanState_func rej s line t name args gs g hgs hst hre hacc
  rw [← scan_stripped rej s line t hnn hstr, hargs] at hscan
  exact hscan

/-- C14 (amended) at the line `main.f(1, zz)`, scanned after the header of
goroutine 1. -/
theorem C14_partial_call_kept_witness :
    scan (fun _ => none)
        { goroutines := [{ State := "running".toList, ID := 1, First := true }],
          state := State.gotRoutineHeader }
        "main.f(1, zz)\n".toList = some
      ⟨{ goroutines := [{ State := "running".toList, ID := 1, First := true,
                          Stack := { Calls := [{ Func := { Raw := "main.f".toList },
                                                  Args := { Values := [{ Value := 1 }] } }] } }],
         state := State.gotFunc }, [],
        some ⟨"failed to parse int on line: %q", ["main.f(1, zz)".toList]⟩⟩ :=
  C14_partial_call_kept (fun _ => none)
    { goroutines := [{ State := "running".toList, ID := 1, First := true }],
      state := State.gotRoutineHeader }
    "main.f(1, zz)\n".toList "main.f(1, zz)".toList "main.f".toList "1, zz".toList
    ["1".toList] [] "zz".toList [] { State := "running".toList, ID := 1, First := true }
    rfl (by decide) (Or.inl ⟨rfl, by decide⟩) (by decide) rfl (by decide) (by decide)
    (by decide) (by decide) (by decide)

/-! ## The tokens `...` and the empty token -/

theorem parseArgs_elided (line : Str) (toks : List Str) (a : Args) (h : a.Elided = true) :
    (parseArgs line toks a).1.Elided = true := by
  induction toks generalizing a with
  | nil => simpa [parseArgs] using h
  | cons t ts ih =>
    simp only [parseArgs]
    repeat' split
    · exact ih _ rfl
    · exact h
    · exact h
    · exact ih _ h

/-- C15, as stated, fails: for the line `f(1, ..., 2)` `parseFunc` records the
values 1 and 2 (with `Elided = true`), not the value 1 alone; and for the line
`f(..., zz)` the token after `...` makes it return the error `failed to parse
int on line`. -/
theorem C15_counterexample :
    parseFunc (fun _ => none) {} "f(1, ..., 2)".toList =
      ({ Func := { Raw := "f".toList },
         Args := { Values := [{ Value := 1 }, { Value := 2 }], Elided := true } },
        true, none) ∧
    parseFunc (fun _ => none) {} "f(..., zz)".toList =
      ({ Func := { Raw := "f".toList }, Args := { Values := [], Elided := true } },
        true, some ⟨"failed to parse int on line: %q", ["f(..., zz)".toList]⟩) := by
  decide

/-- C15, amended: for every function-call line with an accepted name, when
`parseFunc` meets the token `...` in the `", "`-split argument list (the
tokens before it being numbers or `...`), it sets `Args.Elided = true` and
goes on with the next token: the tokens after `...` are parsed by the same
loop, their values are added to `Args.Values` after the ones recorded before
`...`, and a token among them that does not parse makes `parseFunc` return its
error (so `f(1, ..., 2)` yields `Values = [1, 2]` with `Elided = true`). -/
theorem C15_dots_continue (rej : Reject) (t name args : Str) (pre post : List Str)
    (hre : reFunc t = some (name, args)) (hacc : rej name = none)
    (hsplit : splitCommaSpace args = pre ++ dots :: post)
    (hpre : ∀ x ∈ pre, x = dots ∨ (ParseUint x).isSome = true) :
    parseFunc rej {} t =
      ({ Func := { Raw := name },
         Args := (parseArgs t post
           { Values := (pre.filterMap ParseUint).map argOf, Elided := true }).1 },
        true,
        (parseArgs t post
           { Values := (pre.filterMap ParseUint).map argOf, Elided := true }).2) ∧
    (parseFunc rej {} t).1.Args.Elided = true ∧
    (parseFunc (fun _ => none) {} "f(1, ..., 2)".toList).1.Args =
      { Values := [{ Value := 1 }, { Value := 2 }], Elided := true } := by
  have hstep : ∀ a : Args, parseArgs t (dots :: post) a =
      parseArgs t post { a with Elided := true } := by
    intro a
    simp [parseArgs, dots]
  have hargs : parseArgs t (splitCommaSpace args) {} =
      parseArgs t post { Values := (pre.filterMap ParseUint).map argOf, Elided := true } := by
    rw [hsplit, parseArgs_numeric t pre (dots :: post) {} hpre, hstep]
    simp
  refine ⟨?_, ?_, by decide⟩
  · rw [parseFunc_accepted rej {} t name args hre hacc]
    simp only [hargs]
  · rw [parseFunc_accepted rej {} t name args hre hacc]
    simp only [hargs]
    exact parseArgs_elided t post _ rfl

/-- C15 (amended) at the line `f(1, ..., 2, zz)`: the value 2 is recorded
after `...` and the token `zz` makes `parseFunc` return an error. -/
theorem C15_dots_continue_witness :
    parseFunc (fun _ => none) {} "f(1, ..., 2, zz)".toList =
      ({ Func := { Raw := "f".toList },
         Args := { Values := [{ Value := 1 }, { Value := 2 }], Elided := true } },
        true, some ⟨"failed to parse int on line: %q", ["f(1, ..., 2, zz)".toList]⟩) ∧
    (parseFunc (fun _ => none) {} "f(1, ..., 2, zz)".toList).1.Args.Elided = true ∧
    (parseFunc (fun _ => none) {} "f(1, ..., 2)".toList).1.Args =
      { Values := [{ Value := 1 }, { Value := 2 }], Elided := true } :=
  C15_dots_continue (fun _ => none) "f(1, ..., 2, zz)".toList "f".toList
    "1, ..., 2, zz".toList ["1".toList] ["2".toList, "zz".toList]
    (by decide) rfl (by decide) (by decide)

/-- C16: for every function-call line with an accepted name, `parseFunc` stops
silently at the first empty token of the `", "`-split argument list (the
tokens before it being numbers or `...`): `Args.Values` holds, in order, the
values of the numeric tokens that precede it, the tokens after it are ignored
whatever they are, and no error is returned. In particular `main.main()`
yields no values, `Elided = false` and no error. -/
theorem C16_empty_token_stops (rej : Reject) (t name args : Str) (pre post : List Str)
    (hre : reFunc t = some (name, args)) (hacc : rej name = none)
    (hsplit : splitCommaSpace args = pre ++ [] :: post)
    (hpre : ∀ x ∈ pre, x = dots ∨ (ParseUint x).isSome = true) :
    parseFunc rej {} t =
      ({ Func := { Raw := name },
         Args := { Values := (pre.filterMap ParseUint).map argOf,
                   Elided := decide (dots ∈ pre) } },
        true, none) ∧
    (rej "main.main".toList = none →
      parseFunc rej {} "main.main()".toList =
        ({ Func := { Raw := "main.main".toList }, Args := { Values := [], Elided := false } },
          true, none)) := by
  constructor
  · have hargs : parseArgs t (splitCommaSpace args) {} =
        ({ Values := (pre.filterMap ParseUint).map argOf, Elided := decide (dots ∈ pre) },
          none) := by
      rw [hsplit, parseArgs_numeric t pre ([] :: post) {} hpre]
      simp [parseArgs]
    rw [parseFunc_accepted rej {} t name args hre hacc]
    simp only [hargs]
  · intro h
    have h1 : reFunc "main.main()".toList = some ("main.main".toList, []) := by decide
    rw [parseFunc_accepted rej {} _ _ _ h1 h]
    rfl

/-- C16 at the line `f(1, 2, , zz, 3)`: the values 1 and 2 are recorded, the
tokens after the empty one are ignored, and no error is returned. -/
theorem C16_empty_token_stops_witness :
    parseFunc (fun _ => none) {} "f(1, 2, , zz, 3)".toList =
      ({ Func := { Raw := "f".toList },
         Args := { Values := [{ Value := 1 }, { Value := 2 }], Elided := false } },
        true, none) ∧
    ((fun _ => none : Reject) "main.main".toList = none →
      parseFunc (fun _ => none) {} "main.main()".toList =
        ({ Func := { Raw := "main.main".toList }, Args := { Values := [], Elided := false } },
          true, none)) :=
  C16_empty_token_stops (fun _ => none) "f(1, 2, , zz, 3)".toList "f".toList
    "1, 2, , zz, 3".toList ["1".toList, "2".toList] ["zz".toList, "3".toList]
    (by decide) rfl (by decide) (by decide)

/-! ## The `created by` trailer -/

theorem reCreated_text (F : Str) (hF : F ≠ []) (hnl : '\n' ∉ F) :
    reCreated ("created by ".toList ++ F) = some F := by
  unfold reCreated
  rw [stripLit_append]
  have h1 : F.isEmpty = false := by
    cases F with
    | nil => exact absurd rfl hF
    | cons c cs => rfl
  have h2 : F.contains '\n' = false := by
    rw [Bool.eq_false_iff]
    intro h
    exact hnl (by simpa using h)
  simp [h1, hnl]

/-- C17: in state `gotFileFunc` or `gotUnavail`, a correctly indented line
`created by F` (with `F` accepted by `Func.Init`) records `F` as the function
of the current goroutine's `CreatedBy` and moves to `gotCreated`; the
file-location line that follows (its line number fitting an `int`) sets the
source path and line number of `CreatedBy` and moves to `gotFileCreated`.
Neither step echoes anything or returns an error, and neither changes the
goroutine's `Stack`, its `ID`, `State`, `SleepMin`, `SleepMax`, `Locked` or
`First`, or any earlier goroutine. -/
theorem C17_created_by (rej : Reject) (s : ScanningState) (line1 line2 F t2 path num : Str)
    (gs : List Goroutine) (g : Goroutine) (hgs : s.goroutines = gs ++ [g])
    (hst : s.state = State.gotFileFunc ∨ s.state = State.gotUnavail)
    (hF : F ≠ []) (hnl : '\n' ∉ F) (hacc : rej F = none)
    (h1 : strippedLine s line1 = some ("created by ".toList ++ F))
    (h2 : strippedLine s line2 = some t2)
    (hfile : reFile t2 = some (path, num)) (hnum : (Atoi num).2 = true) :
    scan rej s line1 = some
      ⟨{ s with
          goroutines := gs ++ [{ g with CreatedBy := { g.CreatedBy with Func := { Raw := F } } }],
          state := State.gotCreated }, [], none⟩ ∧
    scan rej
        { s with
          goroutines := gs ++ [{ g with CreatedBy := { g.CreatedBy with Func := { Raw := F } } }],
          state := State.gotCreated }
        line2 = some
      ⟨{ s with
          goroutines := gs ++
            [{ g with CreatedBy := { Func := { Raw := F }, Args := g.CreatedBy.Args,
                                     SrcPath := path, Line := (Atoi num).1 } }],
          state := State.gotFileCreated }, [], none⟩ := by
  have hnn : s.state ≠ State.normal := by
    rcases hst with h | h <;> simp [h]
  have hre := reCreated_text F hF hnl
  have hcr : scanCreated rej s F = some
      ⟨{ s with
          goroutines := gs ++ [{ g with CreatedBy := { g.CreatedBy with Func := { Raw := F } } }],
          state := State.gotCreated }, [], none⟩ := by
    simp [scanCreated, updateCur, hgs, Func.Init, hacc]
  constructor
  · rw [scan_stripped rej s line1 _ hnn h1]
    rcases hst with h | h
    · simp only [scanState, h, hre, hcr]
    · have hne : ¬ ("created by ".toList ++ F = []) := by simp
      simp only [scanState, h, if_neg hne, hre, hcr]
  · have h2' : strippedLine
        { s with
          goroutines := gs ++ [{ g with CreatedBy := { g.CreatedBy with Func := { Raw := F } } }],
          state := State.gotCreated } line2 = some t2 := h2
    rw [scan_stripped rej _ line2 t2 (by simp) h2']
    simp [scanState, parseFile, hfile, hnum, Call.init]

/-- C17 at the state after the frame `main.worker` of goroutine 2 and the lines
`created by main.main` and `<tab>/app/main.go:10 +0x5`. -/
theorem C17_created_by_witness :
    scan (fun _ => none)
        { goroutines := [{ State := "chan receive".toList, ID := 2, First := true,
                           Stack := { Calls := [{ Func := { Raw := "main.worker".toList },
                                                   SrcPath := "/app/main.go".toList,
                                                   Line := 30 }] } }],
          state := State.gotFileFunc }
        "created by main.main\n".toList = some
      ⟨{ goroutines := [{ State := "chan receive".toList, ID := 2, First := true,
                          Stack := { Calls := [{ Func := { Raw := "main.worker".toList },
                                                  SrcPath := "/app/main.go".toList,
                                                  Line := 30 }] },
                          CreatedBy := { Func := { Raw := "main.main".toList } } }],
         state := State.gotCreated }, [], none⟩ ∧
    scan (fun _ => none)
        { goroutines := [{ State := "chan receive".toList, ID := 2, First := true,
                           Stack := { Calls := [{ Func := { Raw := "main.worker".toList },
                                                   SrcPath := "/app/main.go".toList,
                                                   Line := 30 }] },
                           CreatedBy := { Func := { Raw := "main.main".toList } } }],
          state := State.gotCreated }
        "\t/app/main.go:10 +0x5\n".toList = some
      ⟨{ goroutines := [{ State := "chan receive".toList, ID := 2, First := true,
                          Stack := { Calls := [{ Func := { Raw := "main.worker".toList },
                                                  SrcPath := "/app/main.go".toList,
                                                  Line := 30 }] },
                          CreatedBy := { Func := { Raw := "main.main".toList },
                                         SrcPath := "/app/main.go".toList, Line := 10 } }],
         state := State.gotFileCreated }, [], none⟩ :=
  C17_created_by (fun _ => none)
    { goroutines := [{ State := "chan receive".toList, ID := 2, First := true,
                       Stack := { Calls := [{ Func := { Raw := "main.worker".toList },
                                               SrcPath := "/app/main.go".toList,
                                               Line := 30 }] } }],
      state := State.gotFileFunc }
    "created by main.main\n".toList "\t/app/main.go:10 +0x5\n".toList "main.main".toList
    "\t/app/main.go:10 +0x5".toList "/app/main.go".toList "10".toList []
    { State := "chan receive".toList, ID := 2, First := true,
      Stack := { Calls := [{ Func := { Raw := "main.worker".toList },
                              SrcPath := "/app/main.go".toList,
                              Line := 30 }] } }
    rfl (Or.inl rfl) (by decide) (by decide) rfl (by decide) (by decide) (by decide)
    (by decide)

/-! ## The unavailable stack -/

theorem starSpace_self (r : Str) : r ∈ starSpace r := by
  cases r with
  | nil => simp [starSpace]
  | cons c cs =>
    simp only [starSpace]
    split <;> simp

theorem starSpace_spaces (sp r : Str) (h : ∀ c ∈ sp, c = ' ') : r ∈ starSpace (sp ++ r) := by
  induction sp with
  | nil => exact starSpace_self r
  | cons c cs ih =>
    have hc : c = ' ' := h c (by simp)
    have := ih (fun x hx => h x (by simp [hx]))
    simp only [List.cons_append, starSpace, hc, if_true, List.mem_append]
    exact Or.inl this

theorem reUnavail_marker (indent : Str)
    (hindent : indent = ['\t'] ∨ (indent ≠ [] ∧ ∀ c ∈ indent, c = ' ')) :
    reUnavail (indent ++ unavailText) = true := by
  have hself : HasPrefix unavailText unavailText = true := by decide
  unfold reUnavail
  rw [List.any_eq_true]
  refine ⟨unavailText, ?_, hself⟩
  rcases hindent with h | ⟨hne, hsp⟩
  · subst h
    simp [reIndent]
  · cases indent with
    | nil => exact absurd rfl hne
    | cons c cs =>
      have hc : c = ' ' := hsp c (by simp)
      subst hc
      have : (' ' : Char) ≠ '\t' := by decide
      simp only [List.cons_append, reIndent, this, if_false, if_true]
      exact starSpace_spaces cs unavailText (fun x hx => hsp x (by simp [hx]))

/-- C18: in state `gotRoutineHeader`, a correctly indented line made of one
tab or one or more spaces followed by
`goroutine running on other thread; stack unavailable` sets the `Stack.Calls`
of the current goroutine to exactly one call whose `SrcPath` is
`<unavailable>` and whose other fields are zero, moves to `gotUnavail`, echoes
nothing and returns no error; an empty line that follows moves to
`betweenRoutine` without error. So a header followed by the unavailable line
and an empty line parses to one goroutine with that single call. -/
theorem C18_unavailable (rej : Reject) (s : ScanningState) (line indent : Str)
    (gs : List Goroutine) (g : Goroutine) (hgs : s.goroutines = gs ++ [g])
    (hst : s.state = State.gotRoutineHeader)
    (hindent : indent = ['\t'] ∨ (indent ≠ [] ∧ ∀ c ∈ indent, c = ' '))
    (h1 : strippedLine s line = some (indent ++ unavailText)) :
    scan rej s line = some
      ⟨{ s with
          goroutines := gs ++
            [{ g with Stack := { g.Stack with Calls :=
                [{ Func := { Raw := [] }, Args := { Values := [], Elided := false },
                   SrcPath := "<unavailable>".toList, Line := 0 }] } }],
          state := State.gotUnavail }, [], none⟩ ∧
    (∀ line2, strippedLine s line2 = some [] →
      scan rej
          { s with
            goroutines := gs ++
              [{ g with Stack := { g.Stack with Calls :=
                  [{ SrcPath := "<unavailable>".toList }] } }],
            state := State.gotUnavail }
          line2 = some
        ⟨{ s with
            goroutines := gs ++
              [{ g with Stack := { g.Stack with Calls :=
                  [{ SrcPath := "<unavailable>".toList }] } }],
            state := State.betweenRoutine }, [], none⟩) ∧
    parseDump rej
        "goroutine 1 [running]:\n\tgoroutine running on other thread; stack unavailable\n\n".toList
      = some
      ⟨[{ State := "running".toList, ID := 1, First := true,
          Stack := { Calls := [{ SrcPath := "<unavailable>".toList }] } }], none, []⟩ := by
  refine ⟨?_, ?_, rfl⟩
  · rw [scan_stripped rej s line _ (by simp [hst]) h1]
    simp [scanState, hst, reUnavail_marker indent hindent, updateCur, hgs]
  · intro line2 h2
    have h2' : strippedLine
        { s with
          goroutines := gs ++
            [{ g with Stack := { g.Stack with Calls :=
                [{ SrcPath := "<unavailable>".toList }] } }],
          state := State.gotUnavail } line2 = some [] := h2
    rw [scan_stripped rej _ line2 [] (by simp) h2']
    simp [scanState]

/-- C18 at the state after the header of goroutine 1 and the unavailable line
indented by three spaces (scenario S4). -/
theorem C18_unavailable_witness :
    scan (fun _ => none)
        { goroutines := [{ State := "running".toList, ID := 1, First := true }],
          state := State.gotRoutineHeader }
        "   goroutine running on other thread; stack unavailable\n".toList = some
      ⟨{ goroutines := [{ State := "running".toList, ID := 1, First := true,
                          Stack := { Calls := [{ SrcPath := "<unavailable>".toList }] } }],
         state := State.gotUnavail }, [], none⟩ ∧
    (∀ line2,
      strippedLine
          { goroutines := [{ State := "running".toList, ID := 1, First := true }],
            state := State.gotRoutineHeader } line2 = some [] →
      scan (fun _ => none)
          { goroutines := [{ State := "running".toList, ID := 1, First := true,
                             Stack := { Calls := [{ SrcPath := "<unavailable>".toList }] } }],
            state := State.gotUnavail }
          line2 = some
        ⟨{ goroutines := [{ State := "running".toList, ID := 1, First := true,
                            Stack := { Calls := [{ SrcPath := "<unavailable>".toList }] } }],
           state := State.betweenRoutine }, [], none⟩) ∧
    parseDump (fun _ => none)
        "goroutine 1 [running]:\n\tgoroutine running on other thread; stack unavailable\n\n".toList
      = some
      ⟨[{ State := "running".toList, ID := 1, First := true,
          Stack := { Calls := [{ SrcPath := "<unavailable>".toList }] } }], none, []⟩ :=
  C18_unavailable (fun _ => none)
    { goroutines := [{ State := "running".toList, ID := 1, First := true }],
      state := State.gotRoutineHeader }
    "   goroutine running on other thread; stack unavailable\n".toList "   ".toList []
    { State := "running".toList, ID := 1, First := true } rfl rfl
    (Or.inr ⟨by decide, by decide⟩) (by decide)

/-! ## The list of goroutines only grows at its end -/

theorem Step_goroutines {s : ScanningState} {line : Str} {r : ScanResult}
    (hs : Step s line r) :
    (∃ g, r.s.goroutines = s.goroutines ++ [g]) ∨
      (r.s.goroutines.length = s.goroutines.length ∧
        r.s.goroutines.dropLast = s.goroutines.dropLast) := by
  cases hs with
  | echo _ => exact Or.inr ⟨rfl, rfl⟩
  | indentErr _ _ => exact Or.inr ⟨rfl, rfl⟩
  | header g indent _ _ _ => exact Or.inl ⟨g, rfl⟩
  | cur gs g g1 st1 err hgs hc =>
    right
    rw [hgs]
    simp
  | fail _ _ _ => exact Or.inr ⟨rfl, rfl⟩
  | blank _ => exact Or.inr ⟨rfl, rfl⟩

theorem scanMany_goroutines (rej : Reject) (lines : List Str) (s : ScanningState)
    (h : Reachable rej s) :
    ∃ s1, scanMany rej s lines = some s1 ∧
      List.IsPrefix s.goroutines.dropLast s1.goroutines.dropLast := by
  induction lines generalizing s with
  | nil => exact ⟨s, rfl, List.prefix_refl _⟩
  | cons line rest ih =>
    obtain ⟨r, hr, hstep⟩ := scan_step rej s line (Reachable_inv h)
    obtain ⟨s1, hs1, hpre⟩ := ih r.s (Reachable.step s line r h hr)
    refine ⟨s1, by simp [scanMany, hr, hs1], ?_⟩
    refine List.IsPrefix.trans ?_ hpre
    rcases Step_goroutines hstep with ⟨g, hg⟩ | ⟨-, hd⟩
    · rw [hg, List.dropLast_concat]
      exact List.dropLast_prefix _
    · rw [hd]

/-- C19: for every call of `scan` from a state reachable from the initial
state of `parseDump`, the call returns, and the goroutine list after it is the
list before it with one goroutine appended at the end, or a list of the same
length in which every goroutine other than the last one is unchanged. So over
any further sequence of calls the goroutines other than the last one stay, in
order, at the front of the list: goroutines come out in the order of their
headers and one is not modified once a later header has been recognised. -/
theorem C19_goroutines_append_only (rej : Reject) (s : ScanningState) (line : Str)
    (h : Reachable rej s) :
    (∃ r, scan rej s line = some r ∧
      ((∃ g, r.s.goroutines = s.goroutines ++ [g]) ∨
        (r.s.goroutines.length = s.goroutines.length ∧
          r.s.goroutines.dropLast = s.goroutines.dropLast))) ∧
    ∀ lines, ∃ s1, scanMany rej s lines = some s1 ∧
      List.IsPrefix s.goroutines.dropLast s1.goroutines.dropLast := by
  constructor
  · obtain ⟨r, hr, hstep⟩ := scan_step rej s line (Reachable_inv h)
    exact ⟨r, hr, Step_goroutines hstep⟩
  · intro lines
    exact scanMany_goroutines rej lines s h

/-- C19 at the state reached after the header of goroutine 1, for the line
`main.main()`. -/
theorem C19_goroutines_append_only_witness :
    (∃ r, scan (fun _ => none)
        { goroutines := [{ State := "running".toList, ID := 1, First := true }],
          state := State.gotRoutineHeader }
        "main.main()\n".toList = some r ∧
      ((∃ g, r.s.goroutines = [{ State := "running".toList, ID := 1, First := true }] ++ [g]) ∨
        (r.s.goroutines.length = [({ State := "running".toList, ID := 1, First := true } :
            Goroutine)].length ∧
          r.s.goroutines.dropLast =
            [({ State := "running".toList, ID := 1, First := true } : Goroutine)].dropLast))) ∧
    ∀ lines, ∃ s1, scanMany (fun _ => none)
        { goroutines := [{ State := "running".toList, ID := 1, First := true }],
          state := State.gotRoutineHeader } lines = some s1 ∧
      List.IsPrefix
        [({ State := "running".toList, ID := 1, First := true } : Goroutine)].dropLast
        s1.goroutines.dropLast :=
  C19_goroutines_append_only (fun _ => none)
    { goroutines := [{ State := "running".toList, ID := 1, First := true }],
      state := State.gotRoutineHeader }
    "main.main()\n".toList
    (Reachable.step {} "goroutine 1 [running]:\n".toList
      ⟨{ goroutines := [{ State := "running".toList, ID := 1, First := true }],
         state := State.gotRoutineHeader }, [], none⟩
      Reachable.init (by decide))

/-! ## Headers whose ID does not fit an `int` -/

/-- C20, as stated, fails: the line `goroutine 9223372036854775808 [running]:`
matches the routine-header pattern and its ID does not fit an `int`; `scan`
returns no error, returns the line for echoing and appends no goroutine, and
`parseDump` writes the line to the sink and returns no goroutine and no
error. -/
theorem C20_counterexample :
    reRoutineHeader "goroutine 9223372036854775808 [running]:".toList =
      some ([], "9223372036854775808".toList, "running".toList) ∧
    (Atoi "9223372036854775808".toList).2 = false ∧
    scan (fun _ => none) {} "goroutine 9223372036854775808 [running]:\n".toList =
      some ⟨{}, "goroutine 9223372036854775808 [running]:\n".toList, none⟩ ∧
    parseDump (fun _ => none) "goroutine 9223372036854775808 [running]:\n".toList =
      some ⟨[], none, "goroutine 9223372036854775808 [running]:\n".toList⟩ := by
  decide

/-- C20, amended: in state `normal` or `betweenRoutine`, a line that, after the
recorded prefix, matches the routine-header pattern but whose goroutine ID is
a digit string that does not fit an `int` is treated as ordinary text: `scan`
returns no error, returns the line for echoing, appends no goroutine, and sets
the state to `normal` with an empty prefix. -/
theorem C20_header_id_overflow (rej : Reject) (s : ScanningState)
    (indent idText descr term : Str)
    (hst : s.state = State.normal ∨ s.state = State.betweenRoutine)
    (hindent : ∀ c ∈ indent, c = ' ' ∨ c = '\t')
    (hid : idText ≠ []) (hdigits : ∀ c ∈ idText, isDigit c = true)
    (hbig : 2 ^ 63 ≤ decimalValue idText)
    (hdescr : descr ≠ []) (hbr : ∀ c ∈ descr, c ≠ ']')
    (hterm : term = "\n".toList ∨ term = "\r\n".toList ∨
      (term = [] ∧ s.state = State.betweenRoutine)) :
    scan rej s (s.pfx ++ headerText indent idText descr ++ term) = some
      ⟨{ s with state := State.normal, pfx := [] },
        s.pfx ++ headerText indent idText descr ++ term, none⟩ := by
  have hterm1 : term = "\n".toList ∨ term = "\r\n".toList ∨
      (term = [] ∧ s.state ≠ State.normal) := by
    rcases hterm with h | h | ⟨h, h1⟩
    · exact Or.inl h
    · exact Or.inr (Or.inl h)
    · exact Or.inr (Or.inr ⟨h, by simp [h1]⟩)
  have hne : headerText indent idText descr ≠ [] := by
    intro h
    have := headerText_getLast [] indent idText descr
    simp [h] at this
  have hfoot : ¬ headerText indent idText descr = raceHeaderFooter := by
    intro h
    have h1 := headerText_getLast [] indent idText descr
    rw [List.nil_append, h] at h1
    exact absurd h1 (by decide)
  rw [scan_header_line rej s _ term (headerText_getLast _ _ _ _) hterm1,
    scanIndent_strip rej s _ _ hne]
  have hatoi : (Atoi idText).2 = false := by
    rw [Atoi_digits idText hid hdigits]
    simp only [decide_eq_false_iff_not, not_lt]
    exact hbig
  have hhead : scanHeader s (s.pfx ++ headerText indent idText descr ++ term)
      (headerText indent idText descr) =
      ⟨{ s with state := State.normal, pfx := [] },
        s.pfx ++ headerText indent idText descr ++ term, none⟩ := by
    unfold scanHeader
    simp only [reRoutineHeader_headerText indent idText descr hindent hid hdigits hdescr hbr,
      hatoi, Bool.false_eq_true, if_false]
    rw [if_neg (by simp [hfoot])]
  unfold scanState
  rcases hst with h | h <;> simp only [h, hhead]

/-- C20 (amended) at the header `goroutine 9223372036854775808 [running]:`
scanned from the initial state. -/
theorem C20_header_id_overflow_witness :
    scan (fun _ => none) {} "goroutine 9223372036854775808 [running]:\n".toList = some
      ⟨{}, "goroutine 9223372036854775808 [running]:\n".toList, none⟩ :=
  C20_header_id_overflow (fun _ => none) {} [] "9223372036854775808".toList
    "running".toList "\n".toList (Or.inl rfl) (by decide) (by decide) (by decide)
    (by decide) (by decide) (by decide) (Or.inl rfl)

/-! ## The split function -/

theorem IndexByte_none (s : Str) (b : Char) : IndexByte s b = none ↔ b ∉ s := by
  induction s with
  | nil => simp [IndexByte]
  | cons c cs ih =>
    simp only [IndexByte]
    by_cases h : c = b
    · simp [h]
    · rw [if_neg h]
      simp only [Option.map_eq_none', List.mem_cons, not_or]
      rw [ih]
      exact ⟨fun h1 => ⟨fun h2 => h h2.symm, h1⟩, fun h1 => h1.2⟩

theorem IndexByte_first (s : Str) (b : Char) (i : Nat) :
    IndexByte s b = some i ↔ s[i]? = some b ∧ ∀ j, j < i → s[j]? ≠ some b := by
  induction s generalizing i with
  | nil => simp [IndexByte]
  | cons c cs ih =>
    simp only [IndexByte]
    by_cases h : c = b
    · rw [if_pos h]
      constructor
      · intro h1
        simp only [Option.some.injEq] at h1
        subst h1
        exact ⟨by simp [h], fun j hj => absurd hj (Nat.not_lt_zero j)⟩
      · rintro ⟨_, h2⟩
        cases i with
        | zero => rfl
        | succ k => exact absurd (by simp [h]) (h2 0 (Nat.succ_pos k))
    · rw [if_neg h]
      cases i with
      | zero =>
        simp only [Option.map_eq_some', List.getElem?_cons_zero, Option.some.injEq]
        constructor
        · rintro ⟨a, _, ha⟩
          omega
        · rintro ⟨h1, _⟩
          exact absurd h1 h
      | succ k =>
        simp only [Option.map_eq_some', List.getElem?_cons_succ]
        constructor
        · rintro ⟨a, ha, hk⟩
          have hak : a = k := by omega
          subst hak
          refine ⟨((ih a).1 ha).1, fun j hj => ?_⟩
          cases j with
          | zero => simp [h]
          | succ m =>
            simp only [List.getElem?_cons_succ]
            exact ((ih a).1 ha).2 m (by omega)
        · rintro ⟨h1, h2⟩
          refine ⟨k, (ih k).2 ⟨h1, fun j hj => ?_⟩, rfl⟩
          have := h2 (j + 1) (by omega)
          simpa using this

theorem take_succ_lf (data : Str) (i j : Nat) (hi : IndexByte data '\n' = some i)
    (hj : (data.take (i + 1))[j]? = some '\n') : j + 1 = (data.take (i + 1)).length := by
  have hlt := IndexByte_lt hi
  have h1 := (IndexByte_first data '\n' i).1 hi
  rw [List.getElem?_take] at hj
  split at hj
  · rename_i hji
    rw [List.length_take]
    by_cases hji2 : j < i
    · exact absurd hj (h1.2 j hji2)
    · omega
  · simp at hj

/-- C21: `scanLines` always returns a nil error. When `data` contains a line
feed, with first occurrence at index `i`, it returns the advance `i + 1` and
the token `data[0..i]`, line feed included. Otherwise, when `data` is not empty
and `atEOF` holds or `data` has at least `bufio.MaxScanTokenSize` bytes, it
returns the advance `len(data)` and the token `data`; otherwise it returns the
advance 0 and no token. Hence the token is `data[:advance]`, and a line feed
can only be the last byte of a token. -/
theorem C21_scanLines (data : Str) (atEOF : Bool) :
    (scanLines data atEOF).2.2 = none ∧
    (∀ i, data[i]? = some '\n' → (∀ j, j < i → data[j]? ≠ some '\n') →
      scanLines data atEOF = (i + 1, some (data.take (i + 1)), none)) ∧
    ('\n' ∉ data → data ≠ [] → (atEOF = true ∨ data.length ≥ maxScanTokenSize) →
      scanLines data atEOF = (data.length, some data, none)) ∧
    ('\n' ∉ data → (data = [] ∨ (atEOF = false ∧ data.length < maxScanTokenSize)) →
      scanLines data atEOF = (0, none, none)) ∧
    (scanLines data atEOF).2.1.getD [] = data.take (scanLines data atEOF).1 ∧
    (∀ tok, (scanLines data atEOF).2.1 = some tok →
      ∀ j, tok[j]? = some '\n' → j + 1 = tok.length) := by
  refine ⟨?_, ?_, ?_, ?_, ?_, ?_⟩
  · unfold scanLines
    split
    · rfl
    · split
      · rfl
      · split
        · rfl
        · split <;> rfl
  · intro i hi hfirst
    have h1 := (IndexByte_first data '\n' i).2 ⟨hi, hfirst⟩
    have hne : data.length ≠ 0 := by
      have := IndexByte_lt h1
      omega
    unfold scanLines
    simp [h1, hne]
  · intro hno hne hfull
    have h1 := (IndexByte_none data '\n').2 hno
    have hlen : data.length ≠ 0 := by
      intro h
      exact hne (List.length_eq_zero.1 h)
    unfold scanLines
    rcases hfull with h | h
    · simp [h1, hlen, h]
    · simp only [h1, hlen]
      cases atEOF <;> simp [h, hne]
  · intro hno h
    have h1 := (IndexByte_none data '\n').2 hno
    unfold scanLines
    rcases h with h | ⟨h2, h3⟩
    · subst h
      cases atEOF <;> simp [IndexByte, maxScanTokenSize]
    · simp [h1, h2, Nat.not_le.2 h3]
  · unfold scanLines
    split
    · simp
    · split
      · simp
      · split
        · simp
        · split <;> simp
  · intro tok htok j hj
    unfold scanLines at htok
    split at htok
    · simp at htok
    · split at htok
      · rename_i i hi
        simp only [Option.some.injEq] at htok
        subst htok
        exact take_succ_lf data i j hi hj
      · rename_i hnone
        have hno := (IndexByte_none data '\n').1 hnone
        have hmem : '\n' ∈ tok := List.getElem?_mem hj
        split at htok
        · simp only [Option.some.injEq] at htok
          subst htok
          exact absurd hmem hno
        · split at htok
          · simp only [Option.some.injEq] at htok
            subst htok
            exact absurd hmem hno
          · simp at htok

/-- C21 at the buffer `ab`, line feed, `cd`, not at the end of the input. -/
theorem C21_scanLines_witness :
    scanLines "ab\ncd".toList false = (3, some "ab\n".toList, none) :=
  (C21_scanLines "ab\ncd".toList false).2.1 2 (by decide) (by decide)

/-! ## Between two goroutines -/

theorem scanHeader_text (s : ScanningState) (line t : Str)
    (hrace : s.raceDetectionEnabled = false) (hno : isHeader t = false) :
    scanHeader s line t = ⟨{ s with state := State.normal, pfx := [] }, line, none⟩ := by
  have hfb : (s.raceDetectionEnabled && decide (t = raceHeaderFooter)) = false := by
    rw [hrace]
    rfl
  unfold isHeader at hno
  unfold scanHeader
  cases hre : reRoutineHeader t with
  | none => simp only [hfb, Bool.false_eq_true, if_false]
  | some m =>
    obtain ⟨indent, idText, descr⟩ := m
    rw [hre] at hno
    simp only at hno
    simp only [hno, hfb, Bool.false_eq_true, if_false]

theorem scan_indent_error (rej : Reject) (s : ScanningState) (line : Str)
    (hst : s.state ≠ State.normal) (hno : strippedLine s line = none) :
    scan rej s line = some
      ⟨{ s with state := State.normal, pfx := [] }, [],
        some ⟨"inconsistent indentation: %q, expected %q", [chomp line, s.pfx]⟩⟩ := by
  rw [scan_eq_scanIndent rej s line (Or.inl hst)]
  unfold strippedLine at hno
  unfold scanIndent
  split at hno
  · rename_i h1
    split at hno
    · simp at hno
    · rename_i h2
      rw [if_pos h1]
      simp [h2]
  · simp at hno

set_option maxRecDepth 100000 in
/-- C23, as stated, fails after an indented goroutine block: the header
`goroutine 1 [running]:` indented by two spaces, the unavailable-stack line and
an empty line lead to the state `betweenRoutine` with the prefix of two spaces
still recorded; the non-empty line `hello`, which is no goroutine header, is
then not echoed: `scan` returns the error `inconsistent indentation`, and
`parseDump` on the four lines returns that error and writes nothing to the
sink. -/
theorem C23_counterexample :
    scanMany (fun _ => none) {}
        ["  goroutine 1 [running]:\n".toList,
         "   goroutine running on other thread; stack unavailable\n".toList,
         "\n".toList] = some
      { goroutines := [{ State := "running".toList, ID := 1, First := true,
                         Stack := { Calls := [{ SrcPath := "<unavailable>".toList }] } }],
        state := State.betweenRoutine, pfx := "  ".toList } ∧
    reRoutineHeader "hello".toList = none ∧
    scan (fun _ => none)
        { goroutines := [{ State := "running".toList, ID := 1, First := true,
                           Stack := { Calls := [{ SrcPath := "<unavailable>".toList }] } }],
          state := State.betweenRoutine, pfx := "  ".toList }
        "hello\n".toList = some
      ⟨{ goroutines := [{ State := "running".toList, ID := 1, First := true,
                          Stack := { Calls := [{ SrcPath := "<unavailable>".toList }] } }],
         state := State.normal, pfx := [] }, [],
        some ⟨"inconsistent indentation: %q, expected %q", ["hello".toList, "  ".toList]⟩⟩ ∧
    parseDump (fun _ => none)
        "  goroutine 1 [running]:\n   goroutine running on other thread; stack unavailable\n\nhello\n".toList
      = some
      ⟨[{ State := "running".toList, ID := 1, First := true,
          Stack := { Calls := [{ SrcPath := "<unavailable>".toList }] } }],
        some ⟨"inconsistent indentation: %q, expected %q", ["hello".toList, "  ".toList]⟩,
        []⟩ := by
  decide

/-- C23, amended: in every state reachable from the initial state of
`parseDump` in which the state is `betweenRoutine`, a line that starts with
the recorded prefix (every line, when no prefix is recorded, and every empty
line) and that, once the prefix is removed, is not a goroutine header is
echoed verbatim, no error is returned, and the state becomes `normal` with the
prefix cleared. A non-empty line that does not start with the recorded prefix
(after an indented goroutine block) is not echoed: `scan` returns the error
`inconsistent indentation`, and the state becomes `normal` with the prefix
cleared. -/
theorem C23_between_routine_amended (rej : Reject) (s : ScanningState) (line : Str)
    (h : Reachable rej s) (hst : s.state = State.betweenRoutine) :
    (∀ t, strippedLine s line = some t → isHeader t = false →
      scan rej s line = some ⟨{ s with state := State.normal, pfx := [] }, line, none⟩) ∧
    (strippedLine s line = none →
      scan rej s line = some
        ⟨{ s with state := State.normal, pfx := [] }, [],
          some ⟨"inconsistent indentation: %q, expected %q", [chomp line, s.pfx]⟩⟩) := by
  have hne : s.state ≠ State.normal := by simp [hst]
  refine ⟨fun t ht hno => ?_, fun hnone => scan_indent_error rej s line hne hnone⟩
  rw [scan_stripped rej s line t hne ht]
  unfold scanState
  simp only [hst]
  rw [scanHeader_text s line t (Reachable_inv h).race hno]

set_option maxRecDepth 100000 in
/-- C23 (amended) at the state after the header of goroutine 1 indented by two
spaces, the unavailable-stack line and an empty line, and the line `hello`
indented by two spaces. -/
theorem C23_between_routine_amended_witness :
    scan (fun _ => none)
        { goroutines := [{ State := "running".toList, ID := 1, First := true,
                           Stack := { Calls := [{ SrcPath := "<unavailable>".toList }] } }],
          state := State.betweenRoutine, pfx := "  ".toList }
        "  hello\n".toList = some
      ⟨{ goroutines := [{ State := "running".toList, ID := 1, First := true,
                          Stack := { Calls := [{ SrcPath := "<unavailable>".toList }] } }],
         state := State.normal, pfx := [] }, "  hello\n".toList, none⟩ :=
  (C23_between_routine_amended (fun _ => none)
    { goroutines := [{ State := "running".toList, ID := 1, First := true,
                       Stack := { Calls := [{ SrcPath := "<unavailable>".toList }] } }],
      state := State.betweenRoutine, pfx := "  ".toList }
    "  hello\n".toList
    (Reachable.step
      { goroutines := [{ State := "running".toList, ID := 1, First := true,
                         Stack := { Calls := [{ SrcPath := "<unavailable>".toList }] } }],
        state := State.gotUnavail, pfx := "  ".toList }
      "\n".toList
      ⟨{ goroutines := [{ State := "running".toList, ID := 1, First := true,
                          Stack := { Calls := [{ SrcPath := "<unavailable>".toList }] } }],
         state := State.betweenRoutine, pfx := "  ".toList }, [], none⟩
      (Reachable.step
        { goroutines := [{ State := "running".toList, ID := 1, First := true }],
          state := State.gotRoutineHeader, pfx := "  ".toList }
        "   goroutine running on other thread; stack unavailable\n".toList
        ⟨{ goroutines := [{ State := "running".toList, ID := 1, First := true,
                            Stack := { Calls := [{ SrcPath := "<unavailable>".toList }] } }],
           state := State.gotUnavail, pfx := "  ".toList }, [], none⟩
        (Reachable.step {} "  goroutine 1 [running]:\n".toList
          ⟨{ goroutines := [{ State := "running".toList, ID := 1, First := true }],
             state := State.gotRoutineHeader, pfx := "  ".toList }, [], none⟩
          Reachable.init (by decide))
        (by decide))
      (by decide))
    rfl).1 "hello".toList (by decide) (by decide)

/-! ## After a file line of the stack -/

/-- C24: in the state `gotFileFunc`, a correctly indented line that is no
`created by` line, not the marker `...additional frames elided...`, no
function-call line and not empty is returned unchanged for echoing, with no
error; the state becomes `normal`, the prefix is cleared and the goroutines
are unchanged. The marker instead sets `Stack.Elided` of the current
goroutine, echoes nothing, returns no error and changes nothing else: the
state stays `gotFileFunc`. -/
theorem C24_file_func_other (rej : Reject) (s : ScanningState) (line t : Str)
    (hst : s.state = State.gotFileFunc) (ht : strippedLine s line = some t) :
    (reCreated t = none → t ≠ elided → reFunc t = none → t ≠ [] →
      scan rej s line = some ⟨{ s with state := State.normal, pfx := [] }, line, none⟩) ∧
    (∀ gs g, s.goroutines = gs ++ [g] → t = elided →
      scan rej s line = some
        ⟨{ s with goroutines := gs ++ [{ g with Stack := { g.Stack with Elided := true } }] },
          [], none⟩) := by
  have hne : s.state ≠ State.normal := by simp [hst]
  rw [scan_stripped rej s line t hne ht]
  refine ⟨fun h1 h2 h3 h4 => ?_, fun gs g hgs h2 => ?_⟩
  · simp only [scanState, hst, h1, if_neg (Ne.symm h2), scanFunc, parseFunc_none rej _ t h3,
      if_neg h4]
  · subst h2
    have h1 : reCreated elided = none := by decide
    simp [scanState, hst, h1, updateCur, hgs]

/-- C24 at the state after the frame `main.main` of goroutine 1 and the line
`exit status 2`. -/
theorem C24_file_func_other_witness :
    scan (fun _ => none)
        { goroutines := [{ State := "running".toList, ID := 1, First := true,
                           Stack := { Calls := [{ Func := { Raw := "main.main".toList },
                                                   SrcPath := "/app/main.go".toList,
                                                   Line := 12 }] } }],
          state := State.gotFileFunc }
        "exit status 2\n".toList = some
      ⟨{ goroutines := [{ State := "running".toList, ID := 1, First := true,
                          Stack := { Calls := [{ Func := { Raw := "main.main".toList },
                                                  SrcPath := "/app/main.go".toList,
                                                  Line := 12 }] } }],
         state := State.normal, pfx := [] }, "exit status 2\n".toList, none⟩ :=
  (C24_file_func_other (fun _ => none)
    { goroutines := [{ State := "running".toList, ID := 1, First := true,
                       Stack := { Calls := [{ Func := { Raw := "main.main".toList },
                                               SrcPath := "/app/main.go".toList,
                                               Line := 12 }] } }],
      state := State.gotFileFunc }
    "exit status 2\n".toList "exit status 2".toList rfl (by decide)).1
    (by decide) (by decide) (by decide) (by decide)

/-! ## The state machine -/

theorem Step_allowed {s : ScanningState} {line : Str} {r : ScanResult} (hs : Step s line r)
    (herr : r.err = none) : allowed s.state r.s.state = true := by
  cases hs with
  | echo h =>
    rcases h with h | h | h | h <;> simp [h, allowed]
  | indentErr t h => simp at herr
  | header g indent h =>
    rcases h with h | h <;> simp [h, allowed]
  | cur gs g g1 st1 err hgs hc =>
    simp only at herr
    subst herr
    generalize hst : s.state = st at hc
    simp only [hst]
    cases hc
    all_goals first
      | rfl
      | (rename_i hh; rcases hh with hh | hh <;> subst hh <;> rfl)
  | fail e h1 h2 => simp at herr
  | blank h =>
    rcases h with h | h | h <;> simp [h, allowed]

/-- C25: from every state reachable from the initial state of `parseDump`, the
state is one of the panic-trace grammar (no race-detector state, and not a
value for which `scan` takes the `internal error` branch), `scan` returns, the
state it leaves is again one of the panic-trace grammar, and when it returns
no error the pair (state before, state after) is one of the allowed
transitions. -/
theorem C25_state_machine (rej : Reject) (s : ScanningState) (line : Str)
    (h : Reachable rej s) :
    s.state.isTrace = true ∧
    ∃ r, scan rej s line = some r ∧ r.s.state.isTrace = true ∧
      (r.err = none → allowed s.state r.s.state = true) := by
  have hinv := Reachable_inv h
  obtain ⟨r, hr, hstep⟩ := scan_step rej s line hinv
  exact ⟨hinv.trace, r, hr, (Step_inv hinv hstep).trace, fun herr => Step_allowed hstep herr⟩

/-- C25 at the state after the header of goroutine 1 and the line
`main.main()`. -/
theorem C25_state_machine_witness :
    State.gotRoutineHeader.isTrace = true ∧
    ∃ r, scan (fun _ => none)
        { goroutines := [{ State := "running".toList, ID := 1, First := true }],
          state := State.gotRoutineHeader }
        "main.main()\n".toList = some r ∧ r.s.state.isTrace = true ∧
      (r.err = none → allowed State.gotRoutineHeader r.s.state = true) :=
  C25_state_machine (fun _ => none)
    { goroutines := [{ State := "running".toList, ID := 1, First := true }],
      state := State.gotRoutineHeader }
    "main.main()\n".toList
    (Reachable.step {} "goroutine 1 [running]:\n".toList
      ⟨{ goroutines := [{ State := "running".toList, ID := 1, First := true }],
         state := State.gotRoutineHeader }, [], none⟩
      Reachable.init (by decide))

/-- C26: in every state reachable from the initial state of `parseDump`, the
goroutine list is not empty whenever the state is not `normal`, and the last
goroutine has at least one call whenever the state is `gotFunc`; and `scan`
returns on every line: its use of the current goroutine and of the last call
does not panic. -/
theorem C26_current_goroutine (rej : Reject) (s : ScanningState) (h : Reachable rej s) :
    (s.state ≠ State.normal → s.goroutines ≠ []) ∧
    (s.state = State.gotFunc →
      ∃ g, s.goroutines.getLast? = some g ∧ g.Stack.Calls ≠ []) ∧
    ∀ line, ∃ r, scan rej s line = some r := by
  have hinv := Reachable_inv h
  refine ⟨hinv.cur, fun hst => ?_, fun line => ?_⟩
  · have hne := hinv.cur (by simp [hst])
    cases hg : s.goroutines.getLast? with
    | none => exact absurd (List.getLast?_eq_none_iff.mp hg) hne
    | some g => exact ⟨g, rfl, hinv.calls hst g hg⟩
  · obtain ⟨r, hr, -⟩ := scan_step rej s line hinv
    exact ⟨r, hr⟩

/-- C26 at the state after the header of goroutine 1 and the line
`main.main()`. -/
theorem C26_current_goroutine_witness :
    (State.gotFunc ≠ State.normal →
      [({ State := "running".toList, ID := 1, First := true,
          Stack := { Calls := [{ Func := { Raw := "main.main".toList } }] } } : Goroutine)]
        ≠ []) ∧
    (State.gotFunc = State.gotFunc →
      ∃ g, [({ State := "running".toList, ID := 1, First := true,
               Stack := { Calls := [{ Func := { Raw := "main.main".toList } }] } } :
             Goroutine)].getLast? = some g ∧ g.Stack.Calls ≠ []) ∧
    ∀ line, ∃ r, scan (fun _ => none)
        { goroutines := [{ State := "running".toList, ID := 1, First := true,
                           Stack := { Calls := [{ Func := { Raw := "main.main".toList } }] } }],
          state := State.gotFunc } line = some r :=
  C26_current_goroutine (fun _ => none)
    { goroutines := [{ State := "running".toList, ID := 1, First := true,
                       Stack := { Calls := [{ Func := { Raw := "main.main".toList } }] } }],
      state := State.gotFunc }
    (Reachable.step
      { goroutines := [{ State := "running".toList, ID := 1, First := true }],
        state := State.gotRoutineHeader }
      "main.main()\n".toList
      ⟨{ goroutines := [{ State := "running".toList, ID := 1, First := true,
                          Stack := { Calls := [{ Func := { Raw := "main.main".toList } }] } }],
         state := State.gotFunc }, [], none⟩
      (Reachable.step {} "goroutine 1 [running]:\n".toList
        ⟨{ goroutines := [{ State := "running".toList, ID := 1, First := true }],
           state := State.gotRoutineHeader }, [], none⟩
        Reachable.init (by decide))
      (by decide))

/-- C27: in every state reachable from the initial state of `parseDump`, a
non-empty recorded prefix implies that the state is not `normal`;
equivalently, in the state `normal` the prefix is empty. -/
theorem C27_prefix_only_in_trace (rej : Reject) (s : ScanningState) (h : Reachable rej s) :
    (s.pfx ≠ [] → s.state ≠ State.normal) ∧ (s.state = State.normal → s.pfx = []) := by
  have hinv := Reachable_inv h
  exact ⟨fun hp hst => hp (hinv.pfx hst), hinv.pfx⟩

/-- C27 at the state after the header of goroutine 1 indented by a tab. -/
theorem C27_prefix_only_in_trace_witness :
    ("\t".toList ≠ [] → State.gotRoutineHeader ≠ State.normal) ∧
    (State.gotRoutineHeader = State.normal → "\t".toList = []) :=
  C27_prefix_only_in_trace (fun _ => none)
    { goroutines := [{ State := "running".toList, ID := 1, First := true }],
      state := State.gotRoutineHeader, pfx := "\t".toList }
    (Reachable.step {} "\tgoroutine 1 [running]:\n".toList
      ⟨{ goroutines := [{ State := "running".toList, ID := 1, First := true }],
         state := State.gotRoutineHeader, pfx := "\t".toList }, [], none⟩
      Reachable.init (by decide))

/-! ## Lines without a line terminator -/

theorem HasSuffix_no_lf (t : Str) (h : t.getLast? ≠ some '\n') :
    HasSuffix t "\r\n".toList = false ∧ HasSuffix t "\n".toList = false := by
  constructor <;>
  · rw [Bool.eq_false_iff]
    intro hs
    simp only [HasSuffix, List.isSuffixOf_iff_suffix] at hs
    obtain ⟨u, hu⟩ := hs
    rw [← hu] at h
    simp at h

theorem scan_unterminated (rej : Reject) (s : ScanningState) (t : Str)
    (h : t.getLast? ≠ some '\n') :
    scan rej s t = if s.state = State.normal then some ⟨s, t, none⟩ else scanIndent rej s t t := by
  obtain ⟨h1, h2⟩ := HasSuffix_no_lf t h
  unfold scan
  rw [if_neg (by rw [h1]; simp), if_neg (by rw [h2]; simp)]

set_option maxRecDepth 100000 in
/-- C29, as stated, fails for an unterminated line that ends in a carriage
return: in the state `gotUnavail` the unterminated line made of a carriage
return is not empty, and `scan` returns the error `expected empty line after
unavailable stack`; the same text followed by a line feed is an empty line
with the terminator CR LF, and `scan` moves to `betweenRoutine` without
error. So `parseDump` returns an error on the first input and none on the
second. -/
theorem C29_counterexample :
    scan (fun _ => none)
        { goroutines := [{ State := "running".toList, ID := 1, First := true,
                           Stack := { Calls := [{ SrcPath := "<unavailable>".toList }] } }],
          state := State.gotUnavail }
        "\r".toList = some
      ⟨{ goroutines := [{ State := "running".toList, ID := 1, First := true,
                          Stack := { Calls := [{ SrcPath := "<unavailable>".toList }] } }],
         state := State.gotUnavail }, [],
        some ⟨"expected empty line after unavailable stack, got: %q", [[]]⟩⟩ ∧
    scan (fun _ => none)
        { goroutines := [{ State := "running".toList, ID := 1, First := true,
                           Stack := { Calls := [{ SrcPath := "<unavailable>".toList }] } }],
          state := State.gotUnavail }
        "\r\n".toList = some
      ⟨{ goroutines := [{ State := "running".toList, ID := 1, First := true,
                          Stack := { Calls := [{ SrcPath := "<unavailable>".toList }] } }],
         state := State.betweenRoutine }, [], none⟩ ∧
    (parseDump (fun _ => none)
        "goroutine 1 [running]:\n\tgoroutine running on other thread; stack unavailable\n\r".toList).map
        (fun d => d.err) =
      some (some ⟨"expected empty line after unavailable stack, got: %q", [[]]⟩) ∧
    (parseDump (fun _ => none)
        "goroutine 1 [running]:\n\tgoroutine running on other thread; stack unavailable\n\r\n".toList).map
        (fun d => d.err) = some none := by
  decide

set_option maxRecDepth 100000 in
/-- C29, amended: a line without a line terminator is, in the state `normal`,
returned unchanged for echoing with no error and no change of the state, even
when it is a well-formed goroutine header: `parseDump` on the single
unterminated line `goroutine 1 [running]:` returns no goroutine and writes the
line to the sink, whereas the same line followed by a line feed yields one
goroutine with ID 1. In every state other than `normal`, an unterminated line
that does not end in a carriage return is parsed exactly like the same text
followed by a line feed: both calls panic, or both return the same state and
error and either both echo nothing or each echoes the line it was given. -/
theorem C29_unterminated_line (rej : Reject) (s : ScanningState) (t : Str)
    (hlf : t.getLast? ≠ some '\n') :
    (s.state = State.normal → scan rej s t = some ⟨s, t, none⟩) ∧
    (s.state ≠ State.normal → t.getLast? ≠ some '\r' →
      SameScan t (t ++ "\n".toList) (scan rej s t) (scan rej s (t ++ "\n".toList))) ∧
    parseDump rej "goroutine 1 [running]:".toList =
      some ⟨[], none, "goroutine 1 [running]:".toList⟩ ∧
    parseDump rej "goroutine 1 [running]:\n".toList =
      some ⟨[{ State := "running".toList, ID := 1, First := true }], none, []⟩ := by
  refine ⟨fun hst => ?_, fun hst hcr => ?_, rfl, rfl⟩
  · rw [scan_unterminated rej s t hlf, if_pos hst]
  · rw [scan_unterminated rej s t hlf, if_neg hst]
    obtain ⟨h3, h4, h5⟩ := chomp_lf t hcr
    have h2 : scan rej s (t ++ "\n".toList) = scanIndent rej s (t ++ "\n".toList) t := by
      unfold scan
      rw [if_neg (by rw [h3]; simp), if_pos h4, h5]
    rw [h2]
    exact scanIndent_same rej s t (t ++ "\n".toList) t

/-- C29 (amended) at the unterminated file line of scenario S1, in the state
after the frame `main.main` of goroutine 1. -/
theorem C29_unterminated_line_witness :
    SameScan "\t/app/main.go:12 +0x20".toList ("\t/app/main.go:12 +0x20".toList ++ "\n".toList)
      (scan (fun _ => none)
        { goroutines := [{ State := "running".toList, ID := 1, First := true,
                           Stack := { Calls := [{ Func := { Raw := "main.main".toList } }] } }],
          state := State.gotFunc }
        "\t/app/main.go:12 +0x20".toList)
      (scan (fun _ => none)
        { goroutines := [{ State := "running".toList, ID := 1, First := true,
                           Stack := { Calls := [{ Func := { Raw := "main.main".toList } }] } }],
          state := State.gotFunc }
        ("\t/app/main.go:12 +0x20".toList ++ "\n".toList)) :=
  (C29_unterminated_line (fun _ => none)
    { goroutines := [{ State := "running".toList, ID := 1, First := true,
                       Stack := { Calls := [{ Func := { Raw := "main.main".toList } }] } }],
      state := State.gotFunc }
    "\t/app/main.go:12 +0x20".toList (by decide)).2.1 (by decide) (by decide)

/-! ## Race reports -/

theorem scan_chomp (rej : Reject) (s : ScanningState) (line : Str) (hp : s.pfx = [])
    (h : s.state ≠ State.normal ∨ HasSuffix line "\n".toList = true) :
    scan rej s line = scanState rej s line (chomp line) := by
  rw [scan_eq_scanIndent rej s line h]
  unfold scanIndent
  simp [hp]

theorem parseDumpLoop_quiet {rej : Reject} {s s1 : ScanningState} {line : Str}
    (rest : List Str) (out : Str) (h : scan rej s line = some ⟨s1, [], none⟩) :
    parseDumpLoop rej s (line :: rest) out = parseDumpLoop rej s1 rest out := by
  simp [parseDumpLoop, h]

theorem reRaceGoroutine_not_previous (t : Str) (m : Str × Str)
    (h : reRaceGoroutine t = some m) : reRacePreviousOperationHeader t = none := by
  cases t with
  | nil => simp [reRaceGoroutine, stripLit] at h
  | cons c cs =>
    by_cases hc : c = 'G'
    · subst hc
      simp [reRacePreviousOperationHeader, stripLit]
    · have hc2 : ¬ 'G' = c := fun h1 => hc h1.symm
      simp [reRaceGoroutine, stripLit, hc2] at h

theorem race_step_bar (rej : Reject) (line : Str) (h1 : HasSuffix line "\n".toList = true)
    (h2 : chomp line = raceHeaderFooter) :
    scan rej (raceState State.normal [] none 0) line =
      some ⟨raceState State.gotRaceHeader1 [] none 0, [], none⟩ := by
  rw [scan_chomp rej _ line rfl (Or.inr h1), h2]
  rfl

theorem race_step_warning (rej : Reject) (line : Str) (h2 : chomp line = raceHeader) :
    scan rej (raceState State.gotRaceHeader1 [] none 0) line =
      some ⟨raceState State.gotRaceHeader2 [] none 0, [], none⟩ := by
  rw [scan_chomp rej _ line rfl (Or.inl (by simp [raceState])), h2]
  rfl

theorem race_step_operation (rej : Reject) (line op addrText idText : Str) (addr : Nat)
    (id : Int) (h : reRaceOperationHeader (chomp line) = some (op, addrText, idText))
    (ha : ParseUint addrText = some addr) (hi : Atoi idText = (id, true)) :
    scan rej (raceState State.gotRaceHeader2 [] none 0) line =
      some ⟨raceState State.gotRaceOperationHeader [{ ID := id, First := true }]
        (some [(id, { write := op = "Write".toList, addr := addr, id := id })]) id,
        [], none⟩ := by
  rw [scan_chomp rej _ line rfl (Or.inl (by simp [raceState]))]
  simp [scanState, raceState, h, ha, hi]

theorem race_step_func (rej : Reject) (line : Str) (st : State) (gs : List Goroutine)
    (g : Goroutine) (races : Option RaceMap) (id : Int) (c : Call)
    (hst : st = State.gotRaceOperationHeader)
    (h : parseFunc rej {} (TrimLeftTabSpace (chomp line)) = (c, true, none)) :
    scan rej (raceState st (gs ++ [g]) races id) line =
      some ⟨raceState State.gotRaceOperationFunc
        (gs ++ [{ g with Stack := { g.Stack with Calls := g.Stack.Calls ++ [c] } }]) races id,
        [], none⟩ := by
  subst hst
  rw [scan_chomp rej _ line rfl (Or.inl (by simp [raceState]))]
  simp [scanState, raceState, scanFunc, h, updateCur]

theorem race_step_file (rej : Reject) (line : Str) (gs : List Goroutine)
    (g : Goroutine) (races : Option RaceMap) (id : Int) (cs : List Call) (c c1 : Call)
    (hg : g.Stack.Calls = cs ++ [c])
    (h : parseFile c (chomp line) = (c1, true, none)) :
    scan rej (raceState State.gotRaceOperationFunc (gs ++ [g]) races id) line =
      some ⟨raceState State.gotRaceOperationFile
        (gs ++ [{ g with Stack := { g.Stack with Calls := cs ++ [c1] } }]) races id,
        [], none⟩ := by
  rw [scan_chomp rej _ line rfl (Or.inl (by simp [raceState]))]
  simp [scanState, raceState, scanFile, hg, h]

theorem race_step_blank (rej : Reject) (line : Str) (gs : List Goroutine)
    (races : Option RaceMap) (id : Int) (h : chomp line = []) :
    scan rej (raceState State.gotRaceOperationFile gs races id) line =
      some ⟨raceState State.betweenRaceOperations gs races id, [], none⟩ := by
  rw [scan_chomp rej _ line rfl (Or.inl (by simp [raceState])), h]
  simp [scanState, raceState]

theorem race_step_previous (rej : Reject) (line op addrText idText : Str) (addr : Nat)
    (id id0 : Int) (gs : List Goroutine) (m : RaceMap)
    (h : reRacePreviousOperationHeader (chomp line) = some (op, addrText, idText))
    (ha : ParseUint addrText = some addr) (hi : Atoi idText = (id, true)) :
    scan rej (raceState State.betweenRaceOperations gs (some m) id0) line =
      some ⟨raceState State.gotRaceOperationHeader (gs ++ [{ ID := id }])
        (some (m.set id { write := op = "write".toList, addr := addr, id := id })) id,
        [], none⟩ := by
  rw [scan_chomp rej _ line rfl (Or.inl (by simp [raceState]))]
  simp [scanState, raceState, h, ha, hi]

theorem race_step_goroutine (rej : Reject) (line idText st : Str) (state0 : State)
    (id id0 : Int) (gs gs1 : List Goroutine) (races : Option RaceMap)
    (hst : state0 = State.betweenRaceOperations ∨ state0 = State.betweenRaceGoroutines)
    (h : reRaceGoroutine (chomp line) = some (idText, st)) (hi : Atoi idText = (id, true))
    (hgs : setStateByID gs id st = some gs1) :
    scan rej (raceState state0 gs races id0) line =
      some ⟨raceState State.gotRaceGoroutineHeader gs1 races id, [], none⟩ := by
  have hp := reRaceGoroutine_not_previous _ _ h
  rcases hst with hst | hst <;> subst hst
  · rw [scan_chomp rej _ line rfl (Or.inl (by simp [raceState]))]
    simp [scanState, raceState, scanRaceGoroutine, h, hi, hgs, hp]
  · rw [scan_chomp rej _ line rfl (Or.inl (by simp [raceState]))]
    simp [scanState, raceState, scanRaceGoroutine, h, hi, hgs]

theorem race_step_create_func (rej : Reject) (line : Str) (gs : List Goroutine)
    (m : RaceMap) (id : Int) (op : RaceOp) (c : Call)
    (hop : m.lookup id = some op)
    (h : parseFunc rej {} (TrimLeftTabSpace (chomp line)) = (c, true, none)) :
    scan rej (raceState State.gotRaceGoroutineHeader gs (some m) id) line =
      some ⟨raceState State.gotRaceGoroutineFunc gs
        (some (m.set id { op with create := { op.create with Calls := op.create.Calls ++ [c] } }))
        id, [], none⟩ := by
  rw [scan_chomp rej _ line rfl (Or.inl (by simp [raceState]))]
  simp [scanState, raceState, scanRaceCreate, h, hop]

theorem race_step_create_file (rej : Reject) (line : Str) (gs : List Goroutine)
    (m : RaceMap) (id : Int) (op : RaceOp) (cs : List Call) (c c1 : Call)
    (hop : m.lookup id = some op) (hcs : op.create.Calls = cs ++ [c])
    (h : parseFile c (chomp line) = (c1, true, none)) :
    scan rej (raceState State.gotRaceGoroutineFunc gs (some m) id) line =
      some ⟨raceState State.gotRaceGoroutineFile gs
        (some (m.set id { op with create := { op.create with Calls := cs ++ [c1] } }))
        id, [], none⟩ := by
  rw [scan_chomp rej _ line rfl (Or.inl (by simp [raceState]))]
  simp [scanState, raceState, hop, hcs, h]

theorem race_step_create_blank (rej : Reject) (line : Str) (gs : List Goroutine)
    (races : Option RaceMap) (id : Int) (h : chomp line = []) :
    scan rej (raceState State.gotRaceGoroutineFile gs races id) line =
      some ⟨raceState State.betweenRaceGoroutines gs races id, [], none⟩ := by
  rw [scan_chomp rej _ line rfl (Or.inl (by simp [raceState])), h]
  simp [scanState, raceState]

theorem race_step_footer (rej : Reject) (line : Str) (gs : List Goroutine)
    (races : Option RaceMap) (id : Int) (h : chomp line = raceHeaderFooter) :
    scan rej (raceState State.gotRaceGoroutineFile gs races id) line =
      some ⟨raceState State.normal gs races id, [], none⟩ := by
  rw [scan_chomp rej _ line rfl (Or.inl (by simp [raceState])), h]
  simp [scanState, raceState, raceHeaderFooter]
/-- C30: with race detection enabled and from the initial state, the loop of
`parseDump` over a well-formed race report (the bar, `WARNING: DATA RACE`, an
operation header for goroutine `a` with one function line and file line, an
empty line, a previous-operation header for goroutine `b` different from `a`
with one function line and file line, an empty line, `Goroutine a (..) created
at:` with one frame, an empty line, `Goroutine b (..) created at:` with one
frame, and the closing bar) returns no error, writes nothing to the sink and
ends in the state `normal`. The races map has exactly the keys `a` and `b`;
each race operation carries its direction, address and id, and its creation
stack is the frame listed under its own `Goroutine` header. -/
theorem C30_race_report (rej : Reject) (out : Str)
    (l1 l2 l3 l4 l5 l6 l7 l8 l9 l10 l11 l12 l13 l14 l15 l16 l17 l18 : Str)
    (op1 addrText1 idText1 op2 addrText2 idText2 idText3 st3 idText4 st4 : Str)
    (addr1 addr2 : Nat) (a b : Int) (c1 d1 c2 d2 c3 d3 c4 d4 : Call)
    (h1 : HasSuffix l1 "\n".toList = true ∧ chomp l1 = raceHeaderFooter)
    (h2 : chomp l2 = raceHeader)
    (h3 : reRaceOperationHeader (chomp l3) = some (op1, addrText1, idText1) ∧
      ParseUint addrText1 = some addr1 ∧ Atoi idText1 = (a, true))
    (h4 : parseFunc rej {} (TrimLeftTabSpace (chomp l4)) = (c1, true, none))
    (h5 : parseFile c1 (chomp l5) = (d1, true, none))
    (h6 : chomp l6 = [])
    (h7 : reRacePreviousOperationHeader (chomp l7) = some (op2, addrText2, idText2) ∧
      ParseUint addrText2 = some addr2 ∧ Atoi idText2 = (b, true))
    (hab : b ≠ a)
    (h8 : parseFunc rej {} (TrimLeftTabSpace (chomp l8)) = (c2, true, none))
    (h9 : parseFile c2 (chomp l9) = (d2, true, none))
    (h10 : chomp l10 = [])
    (h11 : reRaceGoroutine (chomp l11) = some (idText3, st3) ∧ Atoi idText3 = (a, true))
    (h12 : parseFunc rej {} (TrimLeftTabSpace (chomp l12)) = (c3, true, none))
    (h13 : parseFile c3 (chomp l13) = (d3, true, none))
    (h14 : chomp l14 = [])
    (h15 : reRaceGoroutine (chomp l15) = some (idText4, st4) ∧ Atoi idText4 = (b, true))
    (h16 : parseFunc rej {} (TrimLeftTabSpace (chomp l16)) = (c4, true, none))
    (h17 : parseFile c4 (chomp l17) = (d4, true, none))
    (h18 : chomp l18 = raceHeaderFooter) :
    parseDumpLoop rej { raceDetectionEnabled := true }
        [l1, l2, l3, l4, l5, l6, l7, l8, l9, l10, l11, l12, l13, l14, l15, l16, l17, l18] out =
      some
        ⟨raceState State.normal
          [{ State := st3, ID := a, First := true, Stack := { Calls := [d1] } },
           { State := st4, ID := b, Stack := { Calls := [d2] } }]
          (some [(a, { write := op1 = "Write".toList, addr := addr1, id := a,
                       create := { Calls := [d3] } }),
                 (b, { write := op2 = "write".toList, addr := addr2, id := b,
                       create := { Calls := [d4] } })])
          b, none, out⟩ := by
  have hba : ¬ a = b := fun h => hab h.symm
  have hbeq : (b == a) = false := by simp [hab]
  have e0 : ({ raceDetectionEnabled := true } : ScanningState) = raceState State.normal [] none 0 :=
    rfl
  rw [e0]
  refine (parseDumpLoop_quiet _ out (race_step_bar rej l1 h1.1 h1.2)).trans ?_
  refine (parseDumpLoop_quiet _ out (race_step_warning rej l2 h2)).trans ?_
  refine (parseDumpLoop_quiet _ out
      (race_step_operation rej l3 op1 addrText1 idText1 addr1 a h3.1 h3.2.1 h3.2.2)).trans ?_
  refine (parseDumpLoop_quiet _ out
      (race_step_func rej l4 State.gotRaceOperationHeader [] { ID := a, First := true } _ a c1
        rfl h4)).trans ?_
  refine (parseDumpLoop_quiet _ out
      (race_step_file rej l5 [] { ID := a, First := true, Stack := { Calls := [c1] } } _ a []
        c1 d1 rfl h5)).trans ?_
  refine (parseDumpLoop_quiet _ out (race_step_blank rej l6 _ _ a h6)).trans ?_
  refine (parseDumpLoop_quiet _ out
      (race_step_previous rej l7 op2 addrText2 idText2 addr2 b a _ _ h7.1 h7.2.1 h7.2.2)).trans ?_
  simp only [RaceMap.set, hba, eq_self, if_false, if_true]
  refine (parseDumpLoop_quiet _ out
      (race_step_func rej l8 State.gotRaceOperationHeader
        [{ ID := a, First := true, Stack := { Calls := [d1] } }] { ID := b } _ b c2 rfl h8)).trans ?_
  refine (parseDumpLoop_quiet _ out
      (race_step_file rej l9 [{ ID := a, First := true, Stack := { Calls := [d1] } }]
        { ID := b, Stack := { Calls := [c2] } } _ b [] c2 d2 rfl h9)).trans ?_
  refine (parseDumpLoop_quiet _ out (race_step_blank rej l10 _ _ b h10)).trans ?_
  refine (parseDumpLoop_quiet _ out
      (race_step_goroutine rej l11 idText3 st3 State.betweenRaceOperations a b _
        [{ State := st3, ID := a, First := true, Stack := { Calls := [d1] } },
         { ID := b, Stack := { Calls := [d2] } }] _ (Or.inl rfl) h11.1 h11.2
        (by simp [setStateByID]))).trans ?_
  refine (parseDumpLoop_quiet _ out
      (race_step_create_func rej l12 _
        [(a, { write := op1 = "Write".toList, addr := addr1, id := a }),
         (b, { write := op2 = "write".toList, addr := addr2, id := b })] a
        { write := op1 = "Write".toList, addr := addr1, id := a } c3
        (by simp [List.lookup]) h12)).trans ?_
  simp only [RaceMap.set, hba, eq_self, if_false, if_true]
  refine (parseDumpLoop_quiet _ out
      (race_step_create_file rej l13 _
        [(a, { write := op1 = "Write".toList, addr := addr1, id := a,
               create := { Calls := [c3] } }),
         (b, { write := op2 = "write".toList, addr := addr2, id := b })] a
        { write := op1 = "Write".toList, addr := addr1, id := a, create := { Calls := [c3] } }
        [] c3 d3 (by simp [List.lookup]) rfl h13)).trans ?_
  simp only [RaceMap.set, hba, eq_self, if_false, if_true]
  refine (parseDumpLoop_quiet _ out (race_step_create_blank rej l14 _ _ a h14)).trans ?_
  refine (parseDumpLoop_quiet _ out
      (race_step_goroutine rej l15 idText4 st4 State.betweenRaceGoroutines b a _
        [{ State := st3, ID := a, First := true, Stack := { Calls := [d1] } },
         { State := st4, ID := b, Stack := { Calls := [d2] } }] _ (Or.inr rfl) h15.1 h15.2
        (by simp [setStateByID, hba]))).trans ?_
  refine (parseDumpLoop_quiet _ out
      (race_step_create_func rej l16 _
        [(a, { write := op1 = "Write".toList, addr := addr1, id := a,
               create := { Calls := [d3] } }),
         (b, { write := op2 = "write".toList, addr := addr2, id := b })] b
        { write := op2 = "write".toList, addr := addr2, id := b } c4
        (by simp [List.lookup, hbeq]) h16)).trans ?_
  simp only [RaceMap.set, hba, eq_self, if_false, if_true]
  refine (parseDumpLoop_quiet _ out
      (race_step_create_file rej l17 _
        [(a, { write := op1 = "Write".toList, addr := addr1, id := a,
               create := { Calls := [d3] } }),
         (b, { write := op2 = "write".toList, addr := addr2, id := b,
               create := { Calls := [c4] } })] b
        { write := op2 = "write".toList, addr := addr2, id := b, create := { Calls := [c4] } }
        [] c4 d4 (by simp [List.lookup, hbeq]) rfl h17)).trans ?_
  simp only [RaceMap.set, hba, eq_self, if_false, if_true]
  refine (parseDumpLoop_quiet _ out (race_step_footer rej l18 _ _ b h18)).trans ?_
  simp [parseDumpLoop, RaceMap.set, hba]
set_option maxRecDepth 100000 in
/-- C30 at a report of a read by goroutine 8 racing with a previous write by
goroutine 7, both created by `main.main`. -/
theorem C30_race_report_witness :
    parseDumpLoop (fun _ => none) { raceDetectionEnabled := true }
        ["==================\n".toList,
         "WARNING: DATA RACE\n".toList,
         "Read at 0x00c000014100 by goroutine 8:\n".toList,
         "  main.reader()\n".toList,
         "      /app/main.go:20 +0x3c\n".toList,
         "\n".toList,
         "Previous write at 0x00c000014100 by goroutine 7:\n".toList,
         "  main.writer()\n".toList,
         "      /app/main.go:15 +0x50\n".toList,
         "\n".toList,
         "Goroutine 8 (running) created at:\n".toList,
         "  main.main()\n".toList,
         "      /app/main.go:10 +0x7a\n".toList,
         "\n".toList,
         "Goroutine 7 (finished) created at:\n".toList,
         "  main.main()\n".toList,
         "      /app/main.go:9 +0x5c\n".toList,
         "==================\n".toList] [] =
      some
        ⟨raceState State.normal
          [{ State := "running".toList, ID := 8, First := true,
             Stack := { Calls := [{ Func := { Raw := "main.reader".toList },
                                     SrcPath := "/app/main.go".toList, Line := 20 }] } },
           { State := "finished".toList, ID := 7,
             Stack := { Calls := [{ Func := { Raw := "main.writer".toList },
                                     SrcPath := "/app/main.go".toList, Line := 15 }] } }]
          (some [(8, { write := "Read".toList = "Write".toList, addr := 824633803008, id := 8,
                       create := { Calls := [{ Func := { Raw := "main.main".toList },
                                               SrcPath := "/app/main.go".toList,
                                               Line := 10 }] } }),
                 (7, { write := "write".toList = "write".toList, addr := 824633803008, id := 7,
                       create := { Calls := [{ Func := { Raw := "main.main".toList },
                                               SrcPath := "/app/main.go".toList,
                                               Line := 9 }] } })])
          7, none, []⟩ :=
  C30_race_report (fun _ => none) []
    "==================\n".toList
    "WARNING: DATA RACE\n".toList
    "Read at 0x00c000014100 by goroutine 8:\n".toList
    "  main.reader()\n".toList
    "      /app/main.go:20 +0x3c\n".toList
    "\n".toList
    "Previous write at 0x00c000014100 by goroutine 7:\n".toList
    "  main.writer()\n".toList
    "      /app/main.go:15 +0x50\n".toList
    "\n".toList
    "Goroutine 8 (running) created at:\n".toList
    "  main.main()\n".toList
    "      /app/main.go:10 +0x7a\n".toList
    "\n".toList
    "Goroutine 7 (finished) created at:\n".toList
    "  main.main()\n".toList
    "      /app/main.go:9 +0x5c\n".toList
    "==================\n".toList
    "Read".toList "0x00c000014100".toList "8".toList
    "write".toList "0x00c000014100".toList "7".toList
    "8".toList "running".toList "7".toList "finished".toList
    824633803008 824633803008 8 7
    { Func := { Raw := "main.reader".toList } }
    { Func := { Raw := "main.reader".toList }, SrcPath := "/app/main.go".toList, Line := 20 }
    { Func := { Raw := "main.writer".toList } }
    { Func := { Raw := "main.writer".toList }, SrcPath := "/app/main.go".toList, Line := 15 }
    { Func := { Raw := "main.main".toList } }
    { Func := { Raw := "main.main".toList }, SrcPath := "/app/main.go".toList, Line := 10 }
    { Func := { Raw := "main.main".toList } }
    { Func := { Raw := "main.main".toList }, SrcPath := "/app/main.go".toList, Line := 9 }
    (by decide) (by decide) (by decide) (by decide) (by decide) (by decide) (by decide)
    (by decide) (by decide) (by decide) (by decide) (by decide) (by decide) (by decide)
    (by decide) (by decide) (by decide) (by decide) (by decide)

/-! ## The path resolver -/

set_option maxRecDepth 100000 in
/-- C28 fails on the code: with the local GOROOT `/usr/lib/go`, where
`/usr/lib/go/src/fmt/print.go` exists, the probe of the traceback file
`/a/fmt/print.go` under `/usr/lib/go/src` makes `rootedIn` return `/a`, which
has length 2 and does not end in `/src`; the slice `r[:len(r)-4]` is out of
range and `findRoots` panics. For the traceback file `/home/u/fmt/print.go`
the result `/home/u` does not end in `/src` either, and `findRoots` sets
GOROOT to `/ho`. -/
theorem C28_rootedIn_result_not_src :
    rootedIn ⟨fun p => decide (p = "/usr/lib/go/src/fmt/print.go".toList), fun _ => none⟩
        "/usr/lib/go/src".toList (splitPath "/a/fmt/print.go".toList) = "/a".toList ∧
    sliceEnd "/a".toList 4 = none ∧
    findRoots ⟨fun p => decide (p = "/usr/lib/go/src/fmt/print.go".toList), fun _ => none⟩
        { Goroutines := [{ Stack := { Calls := [{ SrcPath := "/a/fmt/print.go".toList }] } }],
          localgoroot := "/usr/lib/go".toList } = none ∧
    rootedIn ⟨fun p => decide (p = "/usr/lib/go/src/fmt/print.go".toList), fun _ => none⟩
        "/usr/lib/go/src".toList (splitPath "/home/u/fmt/print.go".toList) = "/home/u".toList ∧
    (findRoots ⟨fun p => decide (p = "/usr/lib/go/src/fmt/print.go".toList), fun _ => none⟩
        { Goroutines := [{ Stack := { Calls := [{ SrcPath := "/home/u/fmt/print.go".toList }] } }],
          localgoroot := "/usr/lib/go".toList }).map (fun r => r.1.GOROOT) =
      some "/ho".toList := by
  decide

/-! ## The files of a traceback -/

theorem strLt_irrefl (a : Str) : strLt a a = false := by
  induction a with
  | nil => rfl
  | cons c cs ih => simp [strLt, ih]

theorem strLt_trans (a b c : Str) (h1 : strLt a b = true) (h2 : strLt b c = true) :
    strLt a c = true := by
  induction a generalizing b c with
  | nil =>
    cases b with
    | nil => simp [strLt] at h1
    | cons y ys =>
      cases c with
      | nil => simp [strLt] at h2
      | cons z zs => simp [strLt]
  | cons x xs ih =>
    cases b with
    | nil => simp [strLt] at h1
    | cons y ys =>
      cases c with
      | nil => simp [strLt] at h2
      | cons z zs =>
        simp only [strLt] at h1 h2 ⊢
        by_cases hxy : x.toNat < y.toNat
        · by_cases hyz : y.toNat < z.toNat
          · rw [if_pos (by omega)]
          · rw [if_neg hyz] at h2
            by_cases hzy : z.toNat < y.toNat
            · simp [hzy] at h2
            · rw [if_pos (by omega)]
        · rw [if_neg hxy] at h1
          by_cases hyx : y.toNat < x.toNat
          · simp [hyx] at h1
          · rw [if_neg hyx] at h1
            by_cases hyz : y.toNat < z.toNat
            · rw [if_pos (by omega)]
            · rw [if_neg hyz] at h2
              by_cases hzy : z.toNat < y.toNat
              · simp [hzy] at h2
              · rw [if_neg hzy] at h2
                rw [if_neg (by omega), if_neg (by omega)]
                exact ih ys zs h1 h2

theorem strLt_total (a b : Str) (h1 : strLt a b = false) (hne : a ≠ b) : strLt b a = true := by
  induction a generalizing b with
  | nil =>
    cases b with
    | nil => exact absurd rfl hne
    | cons y ys => simp [strLt] at h1
  | cons x xs ih =>
    cases b with
    | nil => simp [strLt]
    | cons y ys =>
      simp only [strLt] at h1 ⊢
      by_cases hxy : x.toNat < y.toNat
      · simp [hxy] at h1
      · rw [if_neg hxy] at h1
        by_cases hyx : y.toNat < x.toNat
        · rw [if_pos hyx]
        · rw [if_neg hyx] at h1
          rw [if_neg hyx, if_neg hxy]
          have hxy2 : x = y := Char.ext (UInt32.ext (by
            have : x.toNat = y.toNat := by omega
            exact this))
          subst hxy2
          exact ih ys h1 (fun h => hne (by rw [h]))

theorem mem_insertFile (f x : Str) (l : List Str) : x ∈ insertFile f l ↔ x = f ∨ x ∈ l := by
  induction l with
  | nil => simp [insertFile]
  | cons g gs ih =>
    simp only [insertFile]
    split
    · rename_i h
      subst h
      simp
    · split
      · simp
      · simp only [List.mem_cons, ih]
        constructor
        · rintro (h | h | h)
          · exact Or.inr (Or.inl h)
          · exact Or.inl h
          · exact Or.inr (Or.inr h)
        · rintro (h | h | h)
          · exact Or.inr (Or.inl h)
          · exact Or.inl h
          · exact Or.inr (Or.inr h)

theorem insertFile_sorted (f : Str) (l : List Str)
    (h : List.Pairwise (fun a b => strLt a b = true) l) :
    List.Pairwise (fun a b => strLt a b = true) (insertFile f l) := by
  induction l with
  | nil => simp [insertFile]
  | cons g gs ih =>
    simp only [insertFile]
    rw [List.pairwise_cons] at h
    split
    · exact List.pairwise_cons.2 h
    · rename_i hne
      split
      · rename_i hlt
        refine List.pairwise_cons.2 ⟨fun x hx => ?_, List.pairwise_cons.2 h⟩
        rcases List.mem_cons.1 hx with hx | hx
        · rw [hx]
          exact hlt
        · exact strLt_trans f g x hlt (h.1 x hx)
      · rename_i hlt
        refine List.pairwise_cons.2 ⟨fun x hx => ?_, ih h.2⟩
        rcases (mem_insertFile f x gs).1 hx with hx | hx
        · rw [hx]
          exact strLt_total f g (by simpa using hlt) hne
        · exact h.1 x hx

theorem foldl_insertFile (paths : List Str) (acc : List Str)
    (h : List.Pairwise (fun a b => strLt a b = true) acc) :
    List.Pairwise (fun a b => strLt a b = true)
        (paths.foldl (fun acc f => insertFile f acc) acc) ∧
      ∀ x, x ∈ paths.foldl (fun acc f => insertFile f acc) acc ↔ x ∈ paths ∨ x ∈ acc := by
  induction paths generalizing acc with
  | nil => simp [h]
  | cons p ps ih =>
    obtain ⟨h1, h2⟩ := ih (insertFile p acc) (insertFile_sorted p acc h)
    refine ⟨h1, fun x => ?_⟩
    rw [List.foldl_cons, h2, mem_insertFile, List.mem_cons]
    constructor
    · rintro (h | h | h)
      · exact Or.inl (Or.inr h)
      · exact Or.inl (Or.inl h)
      · exact Or.inr h
    · rintro ((h | h) | h)
      · exact Or.inr (Or.inl h)
      · exact Or.inl h
      · exact Or.inr (Or.inr h)

theorem strLt_sorted_unique (l1 l2 : List Str)
    (h1 : List.Pairwise (fun a b => strLt a b = true) l1)
    (h2 : List.Pairwise (fun a b => strLt a b = true) l2)
    (hmem : ∀ x, x ∈ l1 ↔ x ∈ l2) : l1 = l2 := by
  induction l1 generalizing l2 with
  | nil =>
    cases l2 with
    | nil => rfl
    | cons y ys => exact absurd ((hmem y).2 (List.mem_cons_self y ys)) (List.not_mem_nil y)
  | cons x xs ih =>
    cases l2 with
    | nil => exact absurd ((hmem x).1 (List.mem_cons_self x xs)) (List.not_mem_nil x)
    | cons y ys =>
      rw [List.pairwise_cons] at h1 h2
      have hxy : x = y := by
        by_contra hne
        have hx : x ∈ ys := by
          rcases List.mem_cons.1 ((hmem x).1 (List.mem_cons_self x xs)) with h | h
          · exact absurd h hne
          · exact h
        have hy : y ∈ xs := by
          rcases List.mem_cons.1 ((hmem y).2 (List.mem_cons_self y ys)) with h | h
          · exact absurd h.symm hne
          · exact h
        have := strLt_trans x y x (h1.1 y hy) (h2.1 x hx)
        rw [strLt_irrefl] at this
        exact Bool.noConfusion this
      subst hxy
      have hnx : x ∉ xs := fun h => by
        have := h1.1 x h
        rw [strLt_irrefl] at this
        exact Bool.noConfusion this
      have hny : x ∉ ys := fun h => by
        have := h2.1 x h
        rw [strLt_irrefl] at this
        exact Bool.noConfusion this
      rw [ih ys h1.2 h2.2 (fun z => ?_)]
      constructor
      · intro hz
        rcases List.mem_cons.1 ((hmem z).1 (List.mem_cons_of_mem x hz)) with h | h
        · exact absurd (h ▸ hz) hnx
        · exact h
      · intro hz
        rcases List.mem_cons.1 ((hmem z).2 (List.mem_cons_of_mem x hz)) with h | h
        · exact absurd (h ▸ hz) hny
        · exact h

/-- C31: for every list of goroutines, `getFiles` returns a strictly ascending
list (sorted, without duplicates) whose elements are exactly the `SrcPath`
values of the calls in the stacks of the goroutines (the `CreatedBy` frames
are not read), and the empty list when there is no such call. It is the only
strictly ascending list with these elements, so the result does not depend on
the order in which the map of the source is iterated. -/
theorem C31_getFiles (gs : List Goroutine) :
    List.Pairwise (fun a b => strLt a b = true) (getFiles gs) ∧
    (∀ f, f ∈ getFiles gs ↔ ∃ g ∈ gs, ∃ c ∈ g.Stack.Calls, c.SrcPath = f) ∧
    ((∀ g ∈ gs, g.Stack.Calls = []) → getFiles gs = []) ∧
    (∀ l, List.Pairwise (fun a b => strLt a b = true) l →
      (∀ f, f ∈ l ↔ ∃ g ∈ gs, ∃ c ∈ g.Stack.Calls, c.SrcPath = f) → l = getFiles gs) := by
  obtain ⟨h1, h2⟩ := foldl_insertFile
    ((gs.map (fun g => g.Stack.Calls.map (fun c => c.SrcPath))).flatten) [] List.Pairwise.nil
  have hmem : ∀ f, f ∈ getFiles gs ↔ ∃ g ∈ gs, ∃ c ∈ g.Stack.Calls, c.SrcPath = f := by
    intro f
    unfold getFiles
    rw [h2]
    simp only [List.mem_flatten, List.mem_map, List.not_mem_nil, or_false]
    constructor
    · rintro ⟨l, ⟨g, hg, rfl⟩, hf⟩
      obtain ⟨c, hc, rfl⟩ := List.mem_map.1 hf
      exact ⟨g, hg, c, hc, rfl⟩
    · rintro ⟨g, hg, c, hc, rfl⟩
      exact ⟨_, ⟨g, hg, rfl⟩, List.mem_map.2 ⟨c, hc, rfl⟩⟩
  refine ⟨h1, hmem, fun hno => ?_, fun l hl hlm => ?_⟩
  · apply List.eq_nil_iff_forall_not_mem.2
    intro f hf
    obtain ⟨g, hg, c, hc, -⟩ := (hmem f).1 hf
    rw [hno g hg] at hc
    exact List.not_mem_nil c hc
  · exact strLt_sorted_unique l (getFiles gs) hl h1 (fun x => (hlm x).trans (hmem x).symm)

/-- C31 at two goroutines whose calls are in `/b.go`, `/a/c.go` and `/b.go`
again, and a `CreatedBy` frame in `/z.go`. -/
theorem C31_getFiles_witness :
    getFiles
        [{ Stack := { Calls := [{ SrcPath := "/b.go".toList }, { SrcPath := "/a/c.go".toList }] },
           CreatedBy := { SrcPath := "/z.go".toList } },
         { Stack := { Calls := [{ SrcPath := "/b.go".toList }] } }] =
      ["/a/c.go".toList, "/b.go".toList] :=
  ((C31_getFiles
        [{ Stack := { Calls := [{ SrcPath := "/b.go".toList }, { SrcPath := "/a/c.go".toList }] },
           CreatedBy := { SrcPath := "/z.go".toList } },
         { Stack := { Calls := [{ SrcPath := "/b.go".toList }] } }]).2.2.2
      ["/a/c.go".toList, "/b.go".toList] (by decide)
      (by
        intro f
        simp only [List.mem_cons, List.mem_singleton, List.not_mem_nil, or_false, exists_eq_or_imp,
          exists_eq_left]
        tauto)).symm

/-! ## Splitting a path -/

theorem splitSlash_cons (r : Str) : ∃ h t, splitSlash r = h :: t := by
  cases r with
  | nil => exact ⟨[], [], rfl⟩
  | cons c cs =>
    simp only [splitSlash]
    split
    · exact ⟨_, _, rfl⟩
    · split
      · exact ⟨_, _, rfl⟩
      · exact ⟨_, _, rfl⟩

theorem splitSlash_char (c : Char) (cs h : Str) (t : List Str) (hc : c ≠ '/')
    (hs : splitSlash cs = h :: t) : splitSlash (c :: cs) = (c :: h) :: t := by
  simp [splitSlash, hc, hs]

theorem splitSlash_no_slash (r : Str) : ∀ x ∈ splitSlash r, '/' ∉ x := by
  induction r with
  | nil => simp [splitSlash]
  | cons c cs ih =>
    by_cases hc : c = '/'
    · intro x hx
      simp only [splitSlash, hc, if_true, List.mem_cons] at hx
      rcases hx with hx | hx
      · simp [hx]
      · exact ih x hx
    · obtain ⟨h, t, hs⟩ := splitSlash_cons cs
      rw [splitSlash_char c cs h t hc hs]
      rw [hs] at ih
      intro x hx
      rcases List.mem_cons.1 hx with hx | hx
      · rw [hx]
        intro hm
        rcases List.mem_cons.1 hm with hm | hm
        · exact hc hm.symm
        · exact ih h (List.mem_cons_self h t) hm
      · exact ih x (List.mem_cons_of_mem h hx)

theorem count_slash_lt (s : Str) (c : Char) (hc : c ≠ '/') (hm : c ∈ s) :
    s.count '/' ≠ s.length := by
  intro h
  have hall := List.count_eq_length.1 h
  exact hc (hall c hm).symm

theorem splitPathLoop_normal (r : Str) (out : List Str) (s : Str)
    (h : out ≠ [] ∨ ∃ c ∈ s, c ≠ '/') (hd : Str) (tl : List Str)
    (hs : splitSlash r = hd :: tl) :
    splitPathLoop out s r = out ++ ((s ++ hd) :: tl).filter (fun x => x ≠ []) := by
  induction r generalizing out s hd tl with
  | nil =>
    simp only [splitSlash, List.cons.injEq] at hs
    obtain ⟨rfl, rfl⟩ := hs
    simp only [splitPathLoop, List.append_nil]
    by_cases hne : s = []
    · simp [hne]
    · simp [hne]
  | cons c cs ih =>
    obtain ⟨h1, t1, hs1⟩ := splitSlash_cons cs
    by_cases hc : c = '/'
    · subst hc
      simp only [splitSlash, if_true, List.cons.injEq] at hs
      obtain ⟨rfl, rfl⟩ := hs
      have hcond : ¬ ('/' ≠ '/' ∨ (out.length = 0 ∧ s.count '/' = s.length)) := by
        rintro (h0 | ⟨h0, h2⟩)
        · exact h0 rfl
        · rcases h with h | ⟨c, hcs, hc⟩
          · exact h (List.length_eq_zero.1 h0)
          · exact count_slash_lt s c hc hcs h2
      simp only [splitPathLoop]
      rw [if_neg hcond]
      by_cases hne : s = []
      · have hout : out ≠ [] := by
          rcases h with h | ⟨c, hcs, _⟩
          · exact h
          · rw [hne] at hcs
            exact absurd hcs (List.not_mem_nil c)
        rw [if_neg (by simp [hne]), ih out s (Or.inl hout) h1 t1 hs1, hs1]
        simp [hne]
      · rw [if_pos hne, ih (out ++ [s]) [] (Or.inl (by simp)) h1 t1 hs1, hs1]
        simp [hne]
    · rw [splitSlash_char c cs h1 t1 hc hs1] at hs
      simp only [List.cons.injEq] at hs
      obtain ⟨rfl, rfl⟩ := hs
      simp only [splitPathLoop]
      rw [if_pos (Or.inl hc), ih out (s ++ [c]) (Or.inr ⟨c, by simp, hc⟩) h1 t1 hs1]
      simp

theorem splitPathLoop_leading (p : Str) (s : Str) (hs : ∀ c ∈ s, c = '/') :
    splitPathLoop [] s p =
      splitPathLoop [] (s ++ p.takeWhile (fun c => c == '/')) (p.dropWhile (fun c => c == '/')) := by
  induction p generalizing s with
  | nil => simp
  | cons c cs ih =>
    by_cases hc : c = '/'
    · subst hc
      have hcount : s.count '/' = s.length := List.count_eq_length.2 (fun b hb => (hs b hb).symm)
      simp only [splitPathLoop, List.length_nil, hcount, and_self, or_true, if_true]
      rw [ih (s ++ ['/']) (by
        intro b hb
        rcases List.mem_append.1 hb with hb | hb
        · exact hs b hb
        · simpa using hb)]
      simp
    · simp [hc]

theorem splitPath_spec (p : Str) : splitPath p = splitPathSpec p := by
  unfold splitPath splitPathSpec
  by_cases hp : p = []
  · simp [hp]
  · rw [if_neg hp, if_neg hp, splitPathLoop_leading p [] (by simp)]
    simp only [List.nil_append]
    cases hr : p.dropWhile (fun c => c == '/') with
    | nil =>
      have hs : p.takeWhile (fun c => c == '/') ≠ [] := by
        intro h
        have := List.takeWhile_append_dropWhile (fun c => c == '/') p
        rw [h, hr] at this
        exact hp this.symm
      simp [splitPathLoop, splitSlash, hs]
    | cons c cs =>
      have hc : c ≠ '/' := by
        have := List.head_dropWhile_not (fun c => c == '/') p (by rw [hr]; simp)
        simp only [hr, List.head_cons] at this
        simpa using this
      obtain ⟨h1, t1, hs1⟩ := splitSlash_cons cs
      rw [splitSlash_char c cs h1 t1 hc hs1]
      simp only [splitPathLoop]
      rw [if_pos (Or.inl hc),
        splitPathLoop_normal cs [] _ (Or.inr ⟨c, by simp, hc⟩) h1 t1 hs1]
      simp
/-- C32: `splitPath` of the empty path is empty, and for every path `p` the
result of `splitPath` is the list of the non-empty `/`-separated segments of
what follows the leading run of `/` of `p`, with that run put before the first
of them (the run alone when there is no such segment). Hence no component is
empty, no component other than the first contains `/`, and the first component
of a non-empty path starts with every leading separator of `p`. -/
theorem C32_splitPath (p : Str) :
    splitPath [] = [] ∧
    splitPath p = splitPathSpec p ∧
    [] ∉ splitPath p ∧
    (∀ x ∈ (splitPath p).tail, '/' ∉ x) ∧
    (p ≠ [] → ∃ x xs, splitPath p = x :: xs ∧
      List.IsPrefix (p.takeWhile (fun c => c == '/')) x) := by
  refine ⟨rfl, splitPath_spec p, ?_⟩
  rw [splitPath_spec p]
  unfold splitPathSpec
  by_cases hp : p = []
  · simp [hp]
  · rw [if_neg hp]
    cases hf : (splitSlash (p.dropWhile (fun c => c == '/'))).filter (fun x => x ≠ []) with
    | nil =>
      have hr : p.dropWhile (fun c => c == '/') = [] := by
        cases hr : p.dropWhile (fun c => c == '/') with
        | nil => rfl
        | cons c cs =>
          have hc : c ≠ '/' := by
            have := List.head_dropWhile_not (fun c => c == '/') p (by rw [hr]; simp)
            simp only [hr, List.head_cons] at this
            simpa using this
          obtain ⟨h1, t1, hs1⟩ := splitSlash_cons cs
          rw [hr, splitSlash_char c cs h1 t1 hc hs1] at hf
          simp at hf
      have hs : p.takeWhile (fun c => c == '/') ≠ [] := by
        intro h
        have := List.takeWhile_append_dropWhile (fun c => c == '/') p
        rw [h, hr] at this
        exact hp this.symm
      refine ⟨?_, ?_, fun _ => ⟨_, _, rfl, List.prefix_refl _⟩⟩
      · simp only [List.mem_singleton]
        exact fun h => hs h.symm
      · simp
    | cons x xs =>
      have hsub : ∀ y ∈ x :: xs, y ∈ splitSlash (p.dropWhile (fun c => c == '/')) ∧ y ≠ [] := by
        intro y hy
        rw [← hf] at hy
        simpa using List.mem_filter.1 hy
      refine ⟨?_, ?_, fun _ => ⟨_, _, rfl, List.prefix_append _ _⟩⟩
      · intro hmem
        rcases List.mem_cons.1 hmem with h | h
        · have hx := (hsub x (List.mem_cons_self x xs)).2
          have h2 := List.append_eq_nil.1 h.symm
          exact hx h2.2
        · exact (hsub [] (List.mem_cons_of_mem x h)).2 rfl
      · intro y hy
        simp only [List.tail_cons] at hy
        exact splitSlash_no_slash _ y (hsub y (List.mem_cons_of_mem x hy)).1

/-- C32 at the path `//usr//lib/go/`. -/
theorem C32_splitPath_witness :
    splitPath "//usr//lib/go/".toList = ["//usr".toList, "lib".toList, "go".toList] :=
  (C32_splitPath "//usr//lib/go/".toList).2.1.trans (by decide)

/-! ## Inconsistent indentation -/

/-- C7: for every parser state reachable from the initial state of `parseDump`
whose recorded prefix is non-empty and every line that, after terminator
removal, is non-empty and does not start with that prefix, `scan` returns the
error `inconsistent indentation` with the line (terminator removed) and the
prefix, echoes nothing, sets the state to `normal` and the prefix to empty, and
leaves the goroutines parsed so far unchanged; the loop of `parseDump` then
stops and returns exactly those goroutines together with the error. -/
theorem C7_inconsistent_indentation (rej : Reject) (s : ScanningState) (line : Str)
    (h : Reachable rej s) (hpfx : s.pfx ≠ []) (hne : chomp line ≠ [])
    (hno : HasPrefix (chomp line) s.pfx = false) :
    scan rej s line = some
      ⟨{ s with state := State.normal, pfx := [] }, [],
        some ⟨"inconsistent indentation: %q, expected %q", [chomp line, s.pfx]⟩⟩ ∧
    ∀ rest out, parseDumpLoop rej s (line :: rest) out = some
      ⟨{ s with state := State.normal, pfx := [] },
        some ⟨"inconsistent indentation: %q, expected %q", [chomp line, s.pfx]⟩, out⟩ :=
  scan_inconsistent_indentation rej s line
    (Or.inl (fun hst => hpfx ((Reachable_inv h).pfx hst))) hpfx hne hno

/-- C7 at the state after the header `<tab>goroutine 1 [running]:` and a
function line indented with two spaces (scenario S8). -/
theorem C7_inconsistent_indentation_witness :
    scan (fun _ => none)
        { goroutines := [{ State := "running".toList, ID := 1, First := true }],
          state := State.gotRoutineHeader, pfx := "\t".toList }
        "  main.main()\n".toList = some
      ⟨{ goroutines := [{ State := "running".toList, ID := 1, First := true }],
         state := State.normal, pfx := [] }, [],
        some ⟨"inconsistent indentation: %q, expected %q",
          ["  main.main()".toList, "\t".toList]⟩⟩ ∧
    ∀ rest out, parseDumpLoop (fun _ => none)
        { goroutines := [{ State := "running".toList, ID := 1, First := true }],
          state := State.gotRoutineHeader, pfx := "\t".toList }
        ("  main.main()\n".toList :: rest) out = some
      ⟨{ goroutines := [{ State := "running".toList, ID := 1, First := true }],
         state := State.normal, pfx := [] },
        some ⟨"inconsistent indentation: %q, expected %q",
          ["  main.main()".toList, "\t".toList]⟩, out⟩ :=
  C7_inconsistent_indentation (fun _ => none)
    { goroutines := [{ State := "running".toList, ID := 1, First := true }],
      state := State.gotRoutineHeader, pfx := "\t".toList }
    "  main.main()\n".toList
    (Reachable.step {} "\tgoroutine 1 [running]:\n".toList
      ⟨{ goroutines := [{ State := "running".toList, ID := 1, First := true }],
         state := State.gotRoutineHeader, pfx := "\t".toList }, [], none⟩
      Reachable.init (by decide))
    (by decide) (by decide) (by decide)

/-! ## Lines longer than the buffer of the scanner -/

theorem scannerNext_long (body rest : Str) (h : '\n' ∉ body)
    (hlen : body.length = maxScanTokenSize) (hrest : rest ≠ []) :
    scannerNext (body ++ rest) = some (body, rest) := by
  have hpos : 0 < rest.length := List.length_pos.mpr hrest
  have htake : (body ++ rest).take maxScanTokenSize = body := List.take_left' hlen
  have hdrop : (body ++ rest).drop body.length = rest := List.drop_left' rfl
  have hidx : IndexByte body '\n' = none := (IndexByte_none body '\n').2 h
  have heof : decide ((body ++ rest).length ≤ maxScanTokenSize) = false := by
    rw [decide_eq_false_iff_not, List.length_append]
    omega
  unfold scannerNext scanLines
  rw [htake, heof, hidx]
  simp only [Bool.false_and, Bool.false_eq_true, if_false]
  rw [if_pos (by omega)]
  show some (body, List.drop body.length (body ++ rest)) = _
  rw [hdrop]

theorem scannedLines_long (body rest : Str) (h : '\n' ∉ body)
    (hlen : body.length = maxScanTokenSize) (hrest : rest ≠ []) :
    scannedLines (body ++ rest) = body :: scannedLines rest := by
  unfold scannedLines
  have hl : (body ++ rest).length = (body.length + rest.length - 1) + 1 := by
    have hpos : 0 < rest.length := List.length_pos.mpr hrest
    rw [List.length_append]
    omega
  have hb : 0 < body.length := by
    rw [hlen]
    decide
  rw [hl]
  simp only [scanTokens, scannerNext_long body rest h hlen hrest]
  rw [scanTokens_fuel _ _ (by omega)]

theorem reRoutineHeader_not_blank (c : Char) (r : Str) (h1 : c ≠ ' ') (h2 : c ≠ '\t')
    (h3 : c ≠ 'g') : reRoutineHeader (c :: r) = none := by
  have h3' : ¬ 'g' = c := fun h => h3 h.symm
  simp [reRoutineHeader, stripLit, h1, h2, h3']

set_option maxRecDepth 100000 in
theorem parseDump_long_line (body : Str) (h : '\n' ∉ body)
    (hlen : body.length = maxScanTokenSize) :
    parseDump (fun _ => none)
        ([body ++ "goroutine 5 [running]:\n".toList].flatten ++
          "goroutine 1 [running]:\nmain.main()\n\t/app/main.go:12 +0x20\n".toList) = some
      ⟨[{ State := "running".toList, ID := 5, First := true }],
        some ⟨"expected a function after a goroutine header, got: %q",
          ["goroutine 1 [running]:".toList]⟩,
        body⟩ := by
  have hin : [body ++ "goroutine 5 [running]:\n".toList].flatten ++
      "goroutine 1 [running]:\nmain.main()\n\t/app/main.go:12 +0x20\n".toList =
      body ++
        "goroutine 5 [running]:\ngoroutine 1 [running]:\nmain.main()\n\t/app/main.go:12 +0x20\n".toList := by
    simp
  have hlast : body.getLast? ≠ some '\n' := fun hl => h (List.mem_of_getLast?_eq_some hl)
  have h0 : scan (fun _ => none) {} body = some ⟨{}, body, none⟩ := by
    rw [scan_unterminated _ _ body hlast]
    rfl
  have h1 : scan (fun _ => none) {} "goroutine 5 [running]:\n".toList = some
      ⟨{ goroutines := [{ State := "running".toList, ID := 5, First := true }],
         state := State.gotRoutineHeader }, [], none⟩ := by decide
  have h2 : scan (fun _ => none)
      { goroutines := [{ State := "running".toList, ID := 5, First := true }],
        state := State.gotRoutineHeader }
      "goroutine 1 [running]:\n".toList = some
      ⟨{ goroutines := [{ State := "running".toList, ID := 5, First := true }],
         state := State.gotRoutineHeader }, [],
        some ⟨"expected a function after a goroutine header, got: %q",
          ["goroutine 1 [running]:".toList]⟩⟩ := by decide
  have htoks : scannedLines
      "goroutine 5 [running]:\ngoroutine 1 [running]:\nmain.main()\n\t/app/main.go:12 +0x20\n".toList =
      ["goroutine 5 [running]:\n".toList, "goroutine 1 [running]:\n".toList,
        "main.main()\n".toList, "\t/app/main.go:12 +0x20\n".toList] := by decide
  have hlines := scannedLines_long body
    "goroutine 5 [running]:\ngoroutine 1 [running]:\nmain.main()\n\t/app/main.go:12 +0x20\n".toList
    h hlen (by decide)
  rw [htoks] at hlines
  unfold scannedLines at hlines
  have hloop : parseDumpLoop (fun _ => none) {}
      [body, "goroutine 5 [running]:\n".toList, "goroutine 1 [running]:\n".toList,
        "main.main()\n".toList, "\t/app/main.go:12 +0x20\n".toList] [] = some
      ⟨{ goroutines := [{ State := "running".toList, ID := 5, First := true }],
         state := State.gotRoutineHeader },
        some ⟨"expected a function after a goroutine header, got: %q",
          ["goroutine 1 [running]:".toList]⟩,
        body⟩ := by
    simp only [parseDumpLoop, h0, h1, h2, List.nil_append, List.append_nil]
  unfold parseDump
  rw [hin, hlines, hloop]
  rfl

theorem long_line_not_header (b : Str) :
    reRoutineHeader (chomp ('x' :: b ++ "goroutine 5 [running]:\n".toList)) = none := by
  have hcr : ('x' :: b ++ "goroutine 5 [running]:".toList).getLast? ≠ some '\r' := by
    have := headerText_getLast ('x' :: b) [] "5".toList "running".toList
    rw [show ('x' :: b) ++ headerText [] "5".toList "running".toList =
      'x' :: b ++ "goroutine 5 [running]:".toList from rfl] at this
    rw [this]
    decide
  obtain ⟨h3, h4, h5⟩ := chomp_lf _ hcr
  have he : 'x' :: b ++ "goroutine 5 [running]:\n".toList =
      ('x' :: b ++ "goroutine 5 [running]:".toList) ++ "\n".toList := by
    rw [List.append_assoc]
    rfl
  rw [he]
  unfold chomp
  rw [if_neg (by rw [h3]; simp), if_pos h4, h5]
  exact reRoutineHeader_not_blank 'x' _ (by decide) (by decide) (by decide)

/-- C2, as stated, fails for a line of the junk longer than the buffer of the
scanner: the junk is the single newline-terminated line made of 65536 times
`x` followed by `goroutine 5 [running]:`, which is not recognised as a
goroutine header. The scanner yields its first 65536 bytes as a line of their
own, which is echoed, and the rest of it is the header of goroutine 5; the
line `goroutine 1 [running]:` that follows is then no function line:
`parseDump` returns goroutine 5 and an error, and the sink receives the 65536
bytes only. -/
theorem C2_counterexample :
    reRoutineHeader
        (chomp ('x' :: List.replicate 65535 'x' ++ "goroutine 5 [running]:\n".toList)) = none ∧
    parseDump (fun _ => none)
        (['x' :: List.replicate 65535 'x' ++ "goroutine 5 [running]:\n".toList].flatten ++
          "goroutine 1 [running]:\nmain.main()\n\t/app/main.go:12 +0x20\n".toList) = some
      ⟨[{ State := "running".toList, ID := 5, First := true }],
        some ⟨"expected a function after a goroutine header, got: %q",
          ["goroutine 1 [running]:".toList]⟩,
        'x' :: List.replicate 65535 'x'⟩ := by
  constructor
  · exact long_line_not_header (List.replicate 65535 'x')
  · exact parseDump_long_line ('x' :: List.replicate 65535 'x')
      (fun h => by
        rcases List.mem_cons.1 h with h1 | h1
        · exact absurd h1 (by decide)
        · exact absurd (List.eq_of_mem_replicate h1) (by decide))
      (by
        rw [List.length_cons, List.length_replicate]
        rfl)

/-! ## A second run of the path resolver -/

set_option maxRecDepth 100000 in
/-- A second run of `findRoots` after a GOROOT read from a result of `rootedIn`
that does not end in `/src`: the traceback file `/home/u/fmt/print.go` is found
under the `src` of the local GOROOT and of the local GOPATH. The first run
sets GOROOT to `/ho` and records no GOPATH; the file does not lie under
`/ho/src/`, so the second run probes the local GOPATH for it and records
one. -/
theorem findRoots_second_run_wrong_root :
    (findRoots ⟨fun p => decide (p = "/lg/src/fmt/print.go".toList) ||
          decide (p = "/gp/src/fmt/print.go".toList), fun _ => none⟩
        { Goroutines := [{ Stack := { Calls := [{ SrcPath := "/home/u/fmt/print.go".toList }] } }],
          localgoroot := "/lg".toList, localgopaths := ["/gp".toList] }).map
        (fun r => (r.1.GOROOT, r.1.GOPATHs)) = some ("/ho".toList, []) ∧
    ((findRoots ⟨fun p => decide (p = "/lg/src/fmt/print.go".toList) ||
          decide (p = "/gp/src/fmt/print.go".toList), fun _ => none⟩
        { Goroutines := [{ Stack := { Calls := [{ SrcPath := "/home/u/fmt/print.go".toList }] } }],
          localgoroot := "/lg".toList, localgopaths := ["/gp".toList] }).bind
        (fun r => findRoots ⟨fun p => decide (p = "/lg/src/fmt/print.go".toList) ||
          decide (p = "/gp/src/fmt/print.go".toList), fun _ => none⟩ r.1)).map
        (fun r => (r.1.GOROOT, r.1.GOPATHs)) =
      some ("/ho".toList, [("/ho".toList, "/gp".toList)]) := by
  decide

end Panicparse
